import Mathlib

/-!
# Property-management calculator: derivation engine and journal expansion

A shallow embedding of `src/PropertyManagementApp.js`.

The program is JavaScript, so its numbers are IEEE-754 binary64 values and its
record fields are dynamically typed.  Both are modelled explicitly:

* `JSNumber` is a binary64 value.  A finite magnitude is stored as a natural
  number of units of `2^-1074` (the smallest subnormal), so every finite double
  has exactly one representation and structural equality is identity of doubles
  (`+0` and `-0` are distinct, there is a single `NaN`).
* `add`, `sub`, `mul`, `div` compute the exact result and round it once, to
  nearest with ties to even, as the language requires.
* `toFixed2` is `Number.prototype.toFixed(2)`, `parseFloat` is the global
  `parseFloat`.
* `JSVal` is the value of a record field that the code treats as "a number or
  a string".
* The state codec (`saveStateToURL`, `loadStateFromURL`, `exportDatabase`,
  `importDatabase`) works on JSON documents; an exception is a value of
  `Thrown`, and a `try`/`catch` is a match on `Except`.
-/

set_option exponentiation.threshold 4000
set_option maxRecDepth 100000

namespace PropMgmt

/-! ## Binary64 numbers -/

/-- An IEEE-754 binary64 value.  `fin neg mag` is `(-1)^neg * mag * 2^-1074`. -/
inductive JSNumber where
  | nan
  | inf (neg : Bool)
  | fin (neg : Bool) (mag : Nat)
  deriving DecidableEq, Repr

namespace JSNumber

/-- Number of units of `2^-1074` in `1.0`. -/
def one : Nat := 2 ^ 1074

/-- First magnitude that no longer fits a binary64 (`2^1024`, in units). -/
def overflow : Nat := 2 ^ 2098

/-- The Number `+0`. -/
def zero : JSNumber := fin false 0

/-- The Number for a small non-negative integer literal such as `100`. -/
def ofNat (n : Nat) : JSNumber := fin false (n * one)

/-- Number of binary digits of `n`, by recursion on a fuel that `n` itself bounds. -/
def bitLength : Nat → Nat → Nat
  | 0, _ => 0
  | fuel + 1, n => if n = 0 then 0 else bitLength fuel (n / 2) + 1

/-- Nearest integer to `a / b`, ties to the even one. -/
def roundHalfEven (a b : Nat) : Nat :=
  if 2 * (a % b) < b then a / b
  else if b < 2 * (a % b) then a / b + 1
  else if (a / b) % 2 = 0 then a / b else a / b + 1

/-- Binary exponent of the spacing of doubles around the magnitude `q` (in units):
zero below `2^53` units, where consecutive doubles are one unit apart. -/
def spacing (q : Nat) : Nat := bitLength q q - 53

/-- The magnitude (in units) of the double nearest to `a / b` units, ties to
even, with an unbounded exponent range. -/
def roundNat (a b : Nat) : Nat :=
  roundHalfEven a (b * 2 ^ spacing (a / b)) * 2 ^ spacing (a / b)

/-- The double nearest to `(-1)^neg * a / b` units; overflow gives an infinity. -/
def ofRounded (neg : Bool) (a b : Nat) : JSNumber :=
  if roundNat a b < overflow then fin neg (roundNat a b) else inf neg

/-- Signed number of units of a finite value. -/
def signed (neg : Bool) (mag : Nat) : Int := if neg then -(mag : Int) else (mag : Int)

/-- Unary minus. -/
def neg : JSNumber → JSNumber
  | nan => nan
  | inf s => inf (!s)
  | fin s m => fin (!s) m

/-- The double nearest to an exact sum of `z` units; `negZero` is the sign of a
zero result. -/
def roundUnits (z : Int) (negZero : Bool) : JSNumber :=
  if z = 0 then fin negZero 0 else ofRounded (decide (z < 0)) z.natAbs 1

/-- The `+` of two Numbers.  An exact zero sum is `-0` only when both operands
are `-0`. -/
def add : JSNumber → JSNumber → JSNumber
  | nan, _ => nan
  | _, nan => nan
  | inf s, inf t => if s = t then inf s else nan
  | inf s, fin _ _ => inf s
  | fin _ _, inf t => inf t
  | fin s m, fin t n => roundUnits (signed s m + signed t n) (s && t)

/-- The `-` of two Numbers. -/
def sub (x y : JSNumber) : JSNumber := add x (neg y)

/-- The `*` of two Numbers. -/
def mul : JSNumber → JSNumber → JSNumber
  | nan, _ => nan
  | _, nan => nan
  | inf s, inf t => inf (xor s t)
  | inf s, fin t n => if n = 0 then nan else inf (xor s t)
  | fin s m, inf t => if m = 0 then nan else inf (xor s t)
  | fin s m, fin t n => ofRounded (xor s t) (m * n) one

/-- The `/` of two Numbers. -/
def div : JSNumber → JSNumber → JSNumber
  | nan, _ => nan
  | _, nan => nan
  | inf _, inf _ => nan
  | inf s, fin t _ => inf (xor s t)
  | fin s _, inf t => fin (xor s t) 0
  | fin s m, fin t n =>
    if n = 0 then (if m = 0 then nan else inf (xor s t))
    else ofRounded (xor s t) (m * one) n

/-- The test `x > 0`. -/
def gtZero : JSNumber → Bool
  | nan => false
  | inf s => !s
  | fin s m => !s && decide (0 < m)

/-- Truthiness of a Number: everything but `NaN`, `+0` and `-0`. -/
def truthy : JSNumber → Bool
  | nan => false
  | inf _ => true
  | fin _ m => decide (m ≠ 0)

/-- The magnitude `mag` is one that a binary64 can hold: at most 53 significant
bits and below `2^1024`. -/
def Representable (mag : Nat) : Prop :=
  mag % 2 ^ spacing mag = 0 ∧ mag < overflow

instance (mag : Nat) : Decidable (Representable mag) := by
  unfold Representable; infer_instance

/-- A value of the model that is a genuine binary64. -/
def IsDouble : JSNumber → Prop
  | fin _ m => Representable m
  | _ => True

instance (x : JSNumber) : Decidable (IsDouble x) := by
  cases x <;> unfold IsDouble <;> infer_instance

/-- The sum `x + y` is finite and exact: no rounding took place. -/
def exactAdd (x y : JSNumber) : Bool :=
  match x, y, add x y with
  | fin s m, fin t n, fin u k => signed u k == signed s m + signed t n
  | _, _, _ => false

/-- The difference `x - y` is finite and exact: no rounding took place. -/
def exactSub (x y : JSNumber) : Bool := exactAdd x (neg y)

/-! ### `Number.prototype.toFixed(2)` -/

/-- Number of decimal digits of `n`, by recursion on a fuel that `n` itself bounds. -/
def decLength : Nat → Nat → Nat
  | 0, _ => 0
  | fuel + 1, n => if n = 0 then 0 else decLength fuel (n / 10) + 1

/-- The integer `v` converts to the double of magnitude `mag`. -/
def roundsTo (mag v : Nat) : Bool := roundNat (v * one) 1 == mag

/-- Candidate pairs `(s, n)` with `k` digits `s` bracketing the integer `v`, which
has `nd` decimal digits: the candidate value is `s * 10^(n - k)`. -/
def digitCandidates (v nd k : Nat) : List (Nat × Nat) :=
  (v / 10 ^ (nd - k), nd) ::
    (if v / 10 ^ (nd - k) + 1 < 10 ^ k then [(v / 10 ^ (nd - k) + 1, nd)]
     else [(10 ^ (k - 1), nd + 1)])

/-- Distance between two naturals. -/
def dist (a b : Nat) : Nat := (a - b) + (b - a)

/-- Of two candidates, the one whose value is closer to `v`; an even `s` wins a tie. -/
def closer (v k : Nat) (c d : Nat × Nat) : Nat × Nat :=
  if dist (c.1 * 10 ^ (c.2 - k)) v < dist (d.1 * 10 ^ (d.2 - k)) v then c
  else if dist (d.1 * 10 ^ (d.2 - k)) v < dist (c.1 * 10 ^ (c.2 - k)) v then d
  else if c.1 % 2 = 0 then c else d

/-- The candidates with `k` digits that convert back to the double `mag`. -/
def validCandidates (mag v nd k : Nat) : List (Nat × Nat) :=
  (digitCandidates v nd k).filter fun c => roundsTo mag (c.1 * 10 ^ (c.2 - k))

/-- Shortest digits `(s, n, k)` of an integer-valued double of at least 22
digits: tries `k`, `k + 1`, ... for `fuel` rounds (17 digits always suffice). -/
def shortestDigits (mag v nd : Nat) : Nat → Nat → Nat × Nat × Nat
  | 0, k => (v / 10 ^ (nd - k), nd, k)
  | fuel + 1, k =>
    match validCandidates mag v nd k with
    | [] => shortestDigits mag v nd fuel (k + 1)
    | c :: cs => ((cs.foldl (closer v k) c).1, (cs.foldl (closer v k) c).2, k)

/-- `Number::toString` for a finite magnitude of at least `10^21`, where the
result is always in exponent form, such as `1e+21` or `1.5e+300`. -/
def bigToString (mag : Nat) : String :=
  let r := shortestDigits mag (mag / one) (decLength (mag / one) (mag / one)) 17 1
  let ds := (Nat.repr r.1).toList
  (if r.2.2 = 1 then String.mk ds
   else String.mk (ds.take 1) ++ "." ++ String.mk (ds.drop 1))
    ++ "e+" ++ Nat.repr (r.2.1 - 1)

/-- The number of hundredths nearest to a magnitude; the larger one on a tie. -/
def hundredths (mag : Nat) : Nat := (200 * mag + one) / (2 * one)

/-- `x.toFixed(2)`. -/
def toFixed2 : JSNumber → String
  | nan => "NaN"
  | inf false => "Infinity"
  | inf true => "-Infinity"
  | fin s m =>
    (if s && decide (m ≠ 0) then "-" else "") ++
      (if 10 ^ 21 * one ≤ m then bigToString m
       else Nat.repr (hundredths m / 100) ++ "." ++
         Nat.repr (hundredths m % 100 / 10) ++ Nat.repr (hundredths m % 10))

/-! ### `parseFloat` on a string -/

/-- White space and line terminators that `parseFloat` skips at the start. -/
def isStrWhiteSpaceChar (c : Char) : Bool :=
  c.toNat = 0x09 || c.toNat = 0x0A || c.toNat = 0x0B || c.toNat = 0x0C ||
  c.toNat = 0x0D || c.toNat = 0x20 || c.toNat = 0xA0 || c.toNat = 0x1680 ||
  (0x2000 ≤ c.toNat && c.toNat ≤ 0x200A) || c.toNat = 0x2028 || c.toNat = 0x2029 ||
  c.toNat = 0x202F || c.toNat = 0x205F || c.toNat = 0x3000 || c.toNat = 0xFEFF

/-- Value of a run of decimal digits. -/
def digitsValue (ds : List Char) : Nat :=
  ds.foldl (fun acc c => acc * 10 + (c.toNat - 48)) 0

/-- Value of an exponent part at the head of the input, `0` when there is none. -/
def exponentValue : List Char → Int
  | [] => 0
  | c :: rest =>
    if c = 'e' ∨ c = 'E' then
      match rest with
      | '+' :: ds =>
        if (ds.span Char.isDigit).1 = [] then 0 else (digitsValue (ds.span Char.isDigit).1 : Int)
      | '-' :: ds =>
        if (ds.span Char.isDigit).1 = [] then 0 else -(digitsValue (ds.span Char.isDigit).1 : Int)
      | ds =>
        if (ds.span Char.isDigit).1 = [] then 0 else (digitsValue (ds.span Char.isDigit).1 : Int)
    else 0

/-- The double nearest to `d * 10^e`, with the given sign. -/
def ofDecimal (neg : Bool) (d : Nat) (e : Int) : JSNumber :=
  if 0 ≤ e then ofRounded neg (d * 10 ^ e.toNat * one) 1
  else ofRounded neg (d * one) (10 ^ (-e).toNat)

/-- Fraction digits after a decimal point at the head of the input, and the rest. -/
def fractionPart : List Char → List Char × List Char
  | '.' :: r => r.span Char.isDigit
  | r => ([], r)

/-- The longest prefix that is an unsigned decimal literal, as a Number. -/
def parseDecimal (neg : Bool) (cs : List Char) : JSNumber :=
  let ip := (cs.span Char.isDigit).1
  let fp := (fractionPart (cs.span Char.isDigit).2).1
  let rest := (fractionPart (cs.span Char.isDigit).2).2
  if ip = [] ∧ fp = [] then nan
  else ofDecimal neg (digitsValue (ip ++ fp)) (exponentValue rest - fp.length)

/-- After the sign: `Infinity` or a decimal literal. -/
def parseUnsigned (neg : Bool) (cs : List Char) : JSNumber :=
  if "Infinity".toList.isPrefixOf cs then inf neg else parseDecimal neg cs

/-- The global `parseFloat` applied to a string given as its characters. -/
def parseFloatChars (cs : List Char) : JSNumber :=
  match cs.dropWhile isStrWhiteSpaceChar with
  | '+' :: r => parseUnsigned false r
  | '-' :: r => parseUnsigned true r
  | r => parseUnsigned false r

end JSNumber

/-! ## Dynamically typed field values -/

/-- The value of a record field: the form state and imported JSON hold strings
(or nothing) where a saved property holds Numbers. -/
inductive JSVal where
  | undefined
  | null
  | bool (b : Bool)
  | num (x : JSNumber)
  | str (s : String)
  deriving DecidableEq, Repr

/-- The global `parseFloat(value)`: the argument is converted to a string and its
longest numeric prefix is read.  A Number converts to a string that reads back
as the same Number, except that both zeros print as `0`; `undefined`, `null`,
`true` and `false` print as words that are not numeric. -/
def parseFloat : JSVal → JSNumber
  | .undefined => .nan
  | .null => .nan
  | .bool _ => .nan
  | .num (.fin _ 0) => .fin false 0
  | .num x => x
  | .str s => JSNumber.parseFloatChars s.toList

/-- Line 32: `const parseNumber = (value) => parseFloat(value) || 0`. -/
def parseNumber (value : JSVal) : JSNumber :=
  if (parseFloat value).truthy then parseFloat value else JSNumber.zero

/-- The method call `value.toFixed(2)`: only a Number has the method, on anything
else the call throws a `TypeError` (`none`). -/
def JSVal.toFixed2 : JSVal → Option String
  | .num x => some x.toFixed2
  | _ => none

/-! ## Data model -/

/-- One expense of a property. -/
structure Expense where
  amount : JSVal
  description : String
  deriving DecidableEq, Repr

/-- One property record. -/
structure Property where
  id : JSVal
  name : String
  rent : JSVal
  convenienceFee : JSVal
  managementFeePercentage : JSVal
  paymentDate : String
  expenses : List Expense
  deriving DecidableEq, Repr

/-- One line of the journal. -/
structure JournalEntry where
  Date : String
  Account : String
  Description : String
  Debit : String
  Credit : String
  Class : String
  deriving DecidableEq, Repr

/-! ## Lines 27-30: `formatDate` -/

/-- The pieces of a string between occurrences of a separator character
(`String.prototype.split` with a one-character separator). -/
def splitOn (sep : Char) : List Char → List (List Char)
  | [] => [[]]
  | c :: cs =>
    if c = sep then [] :: splitOn sep cs
    else
      match splitOn sep cs with
      | [] => [[c]]
      | w :: ws => (c :: w) :: ws

/-- An element of a destructured array inside a template literal: a missing
element is `undefined` and prints as that word. -/
def partOrUndefined (parts : List (List Char)) (i : Nat) : String :=
  match parts.get? i with
  | some w => String.mk w
  | none => "undefined"

/-- Lines 27-30: `[year, month, day] = dateString.split("-")`, then
`month/day/year`. -/
def formatDate (dateString : String) : String :=
  partOrUndefined (splitOn '-' dateString.toList) 1 ++ "/" ++
    partOrUndefined (splitOn '-' dateString.toList) 2 ++ "/" ++
    partOrUndefined (splitOn '-' dateString.toList) 0

/-! ## Lines 34-55: `calculations` -/

/-- The reducer `(total, exp) => total + parseNumber(exp.amount)` from `0`. -/
def sumExpenses (expenses : List Expense) : JSNumber :=
  expenses.foldl (fun total exp => JSNumber.add total (parseNumber exp.amount)) JSNumber.zero

namespace calculations

/-- Lines 35-36. -/
def totalRevenue (property : Property) : JSNumber :=
  JSNumber.add (parseNumber property.rent) (parseNumber property.convenienceFee)

/-- Lines 37-38. -/
def managementFee (property : Property) : JSNumber :=
  JSNumber.div
    (JSNumber.mul (parseNumber property.rent) (parseNumber property.managementFeePercentage))
    (JSNumber.ofNat 100)

/-- Lines 39-45. -/
def totalExpenses (property : Property) : JSNumber :=
  JSNumber.add
    (JSNumber.add (sumExpenses property.expenses) (managementFee property))
    (parseNumber property.convenienceFee)

/-- Lines 46-54. -/
def ownerPayout (property : Property) : JSNumber :=
  JSNumber.sub
    (JSNumber.sub
      (JSNumber.sub
        (JSNumber.add (parseNumber property.rent) (parseNumber property.convenienceFee))
        (managementFee property))
      (parseNumber property.convenienceFee))
    (sumExpenses property.expenses)

end calculations

/-! ## Lines 183-283: `createJournalEntries` -/

/-- An entry of `property` on the debit side. -/
def debitEntry (property : Property) (account description amount : String) : JournalEntry :=
  { Date := formatDate property.paymentDate
    Account := account
    Description := description
    Debit := amount
    Credit := "0.00"
    Class := property.name }

/-- An entry of `property` on the credit side. -/
def creditEntry (property : Property) (account description amount : String) : JournalEntry :=
  { Date := formatDate property.paymentDate
    Account := account
    Description := description
    Debit := "0.00"
    Credit := amount
    Class := property.name }

/-- Lines 245-260: the two entries pushed for one expense; `amount` is
`expense.amount.toFixed(2)`. -/
def expensePair (property : Property) (expense : Expense) (amount : String) :
    List JournalEntry :=
  [ debitEntry property "Repairs and Maintenanace"
      (expense.description ++ " for " ++ property.name) amount,
    creditEntry property "Repairs Payable"
      (expense.description ++ " for " ++ property.name) amount ]

/-- Lines 242-263: the `forEach` over the expenses; `none` when a `toFixed` call
throws. -/
def expenseEntries (property : Property) : List Expense → Option (List JournalEntry)
  | [] => some []
  | expense :: rest =>
    if (parseNumber expense.amount).gtZero then
      match expense.amount.toFixed2, expenseEntries property rest with
      | some amount, some more => some (expensePair property expense amount ++ more)
      | _, _ => none
    else expenseEntries property rest

/-- Lines 184-241: the seven entries of the array literal; `rent` and
`convenienceFee` are the results of the two fields' `toFixed(2)`. -/
def baseEntries (property : Property) (rent convenienceFee : String) : List JournalEntry :=
  [ debitEntry property "Rent Clearing Account"
      ("Total Collected for " ++ property.name)
      (calculations.totalRevenue property).toFixed2,
    creditEntry property "Rent Revenue Received"
      ("Rent for " ++ property.name) rent,
    creditEntry property "Rent Revenue-Convenience Fee"
      ("Convenience Fee for " ++ property.name) convenienceFee,
    creditEntry property "PM Income Conv Fees (Current)"
      ("Convenience Fee for " ++ property.name) convenienceFee,
    debitEntry property "Convenience Fee Expense"
      ("Convenience Fee for " ++ property.name) convenienceFee,
    debitEntry property "Property Management Fees"
      ("Management Fee for " ++ property.name)
      (calculations.managementFee property).toFixed2,
    creditEntry property "PM Income Fees Reg Income (Current)"
      ("Management Fee for " ++ property.name)
      (calculations.managementFee property).toFixed2 ]

/-- Lines 264-281: the two owner-payout entries pushed last. -/
def payoutEntries (property : Property) : List JournalEntry :=
  [ debitEntry property "Property Owner Payout"
      ("Owner Payout for " ++ property.name)
      (calculations.ownerPayout property).toFixed2,
    creditEntry property "Owner Commissions Payable"
      ("Owner Payout for " ++ property.name)
      (calculations.ownerPayout property).toFixed2 ]

/-- Lines 183-283.  The result is `none` when the call throws, which it does
exactly when `toFixed` is called on a field that is not a Number. -/
def createJournalEntries (property : Property) : Option (List JournalEntry) :=
  match property.rent.toFixed2, property.convenienceFee.toFixed2,
      expenseEntries property property.expenses with
  | some rent, some convenienceFee, some repairs =>
    some (baseEntries property rent convenienceFee ++ repairs ++ payoutEntries property)
  | _, _, _ => none

/-! ## Application state and JSON documents

The state codec sends values through `JSON.stringify` and `JSON.parse` (and, for
the URL, through `encodeURIComponent` and `decodeURIComponent`).  The text in
between is not modelled: a document is the value `JSON.parse` returns, and
`viaJSON` is what writing a value and reading it back makes of it.  A document
is typed as far as the data model is: names, dates, descriptions and the fields
of a journal entry are strings, numeric fields hold any scalar (or nothing), and
a place where the code expects an array holds an `ArrayField`. -/

/-- The two lists held by the component: `properties` and `journalEntries`. -/
structure AppState where
  properties : List Property
  journalEntries : List JournalEntry
  deriving DecidableEq, Repr

/-- What the code finds in a place where it expects an array: a falsy value
(`undefined` for an absent field, `null`, `false`, `0`, the empty string), a
truthy value that is not an array, or an array. -/
inductive ArrayField (α : Type) where
  | falsy
  | truthy
  | array (items : List α)
  deriving DecidableEq, Repr

/-- The test `Array.isArray(field)`. -/
def ArrayField.isArray {α : Type} : ArrayField α → Bool
  | .array _ => true
  | _ => false

/-- An exception raised by the code or by a built-in it calls. -/
inductive Thrown where
  | syntaxError
  | typeError
  | referenceError (name : String)
  | error (message : String)
  deriving DecidableEq, Repr

deriving instance DecidableEq for Except

/-- A field value after `JSON.stringify` and `JSON.parse`: `NaN` and the
infinities are written as `null`, `-0` is written as `0`, every other Number
reads back as itself, and a field holding `undefined` is left out, so that
reading it gives `undefined` again. -/
def JSVal.viaJSON : JSVal → JSVal
  | .num .nan => .null
  | .num (.inf _) => .null
  | .num (.fin _ 0) => .num (.fin false 0)
  | v => v

/-! ## Lines 63-91: `saveStateToURL` -/

/-- An element of the array `e` of the compact form. -/
structure CompactExpense where
  a : JSVal
  d : String
  deriving DecidableEq, Repr

/-- An element of the array `p` of the compact form. -/
structure CompactProperty where
  i : JSVal
  n : String
  r : JSVal
  c : JSVal
  m : JSVal
  d : String
  e : ArrayField CompactExpense
  deriving DecidableEq, Repr

/-- The compact form: an object with the single field `p`. -/
structure CompactData where
  p : ArrayField CompactProperty
  deriving DecidableEq, Repr

/-- The fragment `window.location.hash`, as the loader sees it: at most one
character long, or a text that `decodeURIComponent` or `JSON.parse` rejects, or
the text of a document. -/
inductive Fragment where
  | empty
  | malformed
  | json (data : CompactData)
  deriving DecidableEq, Repr

/-- Lines 73-78: the array `e` built for one property. -/
def compressedExpenses (expenses : List Expense) : List CompactExpense :=
  (expenses.filter fun exp => (parseNumber exp.amount).gtZero).map fun exp =>
    { a := .num (parseNumber exp.amount), d := exp.description }

/-- Lines 65-80: the object `compressedData`. -/
def compressedData (properties : List Property) : CompactData :=
  { p := .array (properties.map fun prop =>
      { i := prop.id
        n := prop.name
        r := .num (parseNumber prop.rent)
        c := .num (parseNumber prop.convenienceFee)
        m := .num (parseNumber prop.managementFeePercentage)
        d := prop.paymentDate
        e := .array (compressedExpenses prop.expenses) }) }

/-- The array `e` after `JSON.stringify` and `JSON.parse`. -/
def CompactExpense.viaJSON (x : CompactExpense) : CompactExpense :=
  { a := x.a.viaJSON, d := x.d }

/-- An element of `p` after `JSON.stringify` and `JSON.parse`. -/
def CompactProperty.viaJSON (x : CompactProperty) : CompactProperty :=
  { i := x.i.viaJSON
    n := x.n
    r := x.r.viaJSON
    c := x.c.viaJSON
    m := x.m.viaJSON
    d := x.d
    e := match x.e with
      | .array items => .array (items.map CompactExpense.viaJSON)
      | other => other }

/-- Lines 82-85: the fragment that `saveStateToURL(properties, journalEntries)`
stores; the second argument is not used. -/
def saveStateToURL (properties : List Property) : Fragment :=
  .json
    { p := match (compressedData properties).p with
        | .array items => .array (items.map CompactProperty.viaJSON)
        | other => other }

/-! ## Lines 93-130: `loadStateFromURL` -/

/-- Lines 103-114: the callback of `compressedData.p.map`; `prop.e.map` throws
unless `prop.e` is an array. -/
def loadedProperty (prop : CompactProperty) : Except Thrown Property :=
  match prop.e with
  | .array items =>
    .ok
      { id := prop.i
        name := prop.n
        rent := prop.r
        convenienceFee := prop.c
        managementFeePercentage := prop.m
        paymentDate := prop.d
        expenses := items.map fun exp => { amount := exp.a, description := exp.d } }
  | _ => .error .typeError

/-- Lines 103-114: `compressedData.p.map(...)` over the elements of `p`. -/
def loadedProperties : List CompactProperty → Except Thrown (List Property)
  | [] => .ok []
  | prop :: rest =>
    match loadedProperty prop, loadedProperties rest with
    | .ok property, .ok more => .ok (property :: more)
    | .error thrown, _ => .error thrown
    | _, .error thrown => .error thrown

/-- Lines 116-120 (and 310-314): the entries of every property, pushed in order
on an empty array; a `createJournalEntries` that throws ends the loop. -/
def regenerateJournal : List Property → Except Thrown (List JournalEntry)
  | [] => .ok []
  | property :: rest =>
    match createJournalEntries property, regenerateJournal rest with
    | some entries, .ok more => .ok (entries ++ more)
    | none, _ => .error .typeError
    | _, .error thrown => .error thrown

/-- Lines 94-125: the body of the `try` block. -/
def loadStateBody : Fragment → Except Thrown (Option AppState)
  | .empty => .ok none
  | .malformed => .error .syntaxError
  | .json data =>
    match data.p with
    | .array items =>
      match loadedProperties items with
      | .ok properties =>
        match regenerateJournal properties with
        | .ok journalEntries =>
          .ok (some { properties := properties, journalEntries := journalEntries })
        | .error thrown => .error thrown
      | .error thrown => .error thrown
    | _ => .error .typeError

/-- Lines 93-130: `loadStateFromURL`; `none` is the `null` it returns, also from
its `catch` block. -/
def loadStateFromURL (hash : Fragment) : Option AppState :=
  match loadStateBody hash with
  | .ok result => result
  | .error _ => none

/-! ## Lines 150-182: `exportDatabase` and lines 285-334: `importDatabase` -/

/-- The object an import file holds: its fields `properties` and
`journalEntries`. -/
structure ImportedData where
  properties : ArrayField Property
  journalEntries : ArrayField JournalEntry
  deriving DecidableEq, Repr

/-- The content of an import file, as `JSON.parse` sees it: a text it rejects,
the text `null`, or any other value, of which the code reads two fields. -/
inductive FileContent where
  | malformed
  | null
  | data (importedData : ImportedData)
  deriving DecidableEq, Repr

/-- A property after `JSON.stringify` and `JSON.parse`. -/
def Property.viaJSON (p : Property) : Property :=
  { id := p.id.viaJSON
    name := p.name
    rent := p.rent.viaJSON
    convenienceFee := p.convenienceFee.viaJSON
    managementFeePercentage := p.managementFeePercentage.viaJSON
    paymentDate := p.paymentDate
    expenses := p.expenses.map fun exp => { exp with amount := exp.amount.viaJSON } }

/-- Lines 152-166: the object `exportData`. -/
def exportData (state : AppState) : ImportedData :=
  { properties := .array (state.properties.map fun prop =>
      { id := prop.id
        name := prop.name
        paymentDate := prop.paymentDate
        rent := .num (parseNumber prop.rent)
        convenienceFee := .num (parseNumber prop.convenienceFee)
        managementFeePercentage := .num (parseNumber prop.managementFeePercentage)
        expenses := prop.expenses.map fun exp =>
          { description := exp.description, amount := .num (parseNumber exp.amount) } })
    journalEntries := .array state.journalEntries }

/-- Lines 150-182: the content of the file `exportDatabase` writes, read back
by `JSON.parse`. -/
def exportDatabase (state : AppState) : FileContent :=
  .data
    { properties := match (exportData state).properties with
        | .array items => .array (items.map Property.viaJSON)
        | other => other
      journalEntries := (exportData state).journalEntries }

/-- What an import leaves behind: the two lists, the error written to the
console (if any), the text of the alert, and the outcome of the callback given
to `setTimeout` (if one was scheduled): the new fragment, or what it throws. -/
structure ImportOutcome where
  state : AppState
  logged : Option Thrown
  alert : String
  timer : Option (Except Thrown Fragment)
  deriving DecidableEq, Repr

/-- Lines 326-329: the `catch` block; the state is what the `set...` calls made
before the exception left of it. -/
def importFailed (state : AppState) (thrown : Thrown) : ImportOutcome :=
  { state := state
    logged := some thrown
    alert := "Failed to import database. Invalid file format."
    timer := none }

/-- Lines 318-323: the callback `saveStateToURL(importedData.properties,
importedData.journalEntries || newJournalEntries)`.  `newJournalEntries` is
declared inside the `else` block of line 309, so the name is not bound here and
evaluating it throws; it is evaluated when `importedData.journalEntries` is
falsy. -/
def importTimer (properties : List Property) (journalEntries : ArrayField JournalEntry) :
    Except Thrown Fragment :=
  match journalEntries with
  | .falsy => .error (.referenceError "newJournalEntries")
  | _ => .ok (saveStateToURL properties)

/-- Lines 291-330: the `onload` handler of `importDatabase`, from the state
before it and the content of the chosen file. -/
def importDatabase (state : AppState) (file : FileContent) : ImportOutcome :=
  match file with
  | .malformed => importFailed state .syntaxError
  | .null => importFailed state .typeError
  | .data importedData =>
    match importedData.properties with
    | .array properties =>
      match importedData.journalEntries with
      | .array journalEntries =>
        { state := { properties := properties, journalEntries := journalEntries }
          logged := none
          alert := "Database imported successfully!"
          timer := some (importTimer properties importedData.journalEntries) }
      | _ =>
        match regenerateJournal properties with
        | .ok newJournalEntries =>
          { state := { properties := properties, journalEntries := newJournalEntries }
            logged := none
            alert := "Database imported successfully!"
            timer := some (importTimer properties importedData.journalEntries) }
        | .error thrown =>
          importFailed { properties := properties, journalEntries := state.journalEntries }
            thrown
    | _ => importFailed state (.error "Invalid database format")

/-! ## Lines 604-643: `generateCSV` -/

/-- Lines 605-608: `[month, day, year] = date.split("/")`, then
`year`, `month`, `day` and `Rent` in a row. -/
def generateJournalNo (date : String) : String :=
  partOrUndefined (splitOn '/' date.toList) 2 ++
    partOrUndefined (splitOn '/' date.toList) 0 ++
    partOrUndefined (splitOn '/' date.toList) 1 ++ "Rent"

/-- Lines 609-617. -/
def headers : List String :=
  ["Journal No.", "Journal Date", "Account", "Description", "Debits", "Credits", "Class"]

/-- Lines 618-620: the filter that keeps an entry with a side above zero. -/
def csvEntries (journalEntries : List JournalEntry) : List JournalEntry :=
  journalEntries.filter fun entry =>
    (parseFloat (.str entry.Debit)).gtZero || (parseFloat (.str entry.Credit)).gtZero

/-- Lines 623-631: the cells of the row of one entry. -/
def csvCells (entry : JournalEntry) : List String :=
  [ generateJournalNo entry.Date,
    entry.Date,
    entry.Account,
    entry.Description,
    if (parseFloat (.str entry.Debit)).gtZero then entry.Debit else "",
    if (parseFloat (.str entry.Credit)).gtZero then entry.Credit else "",
    entry.Class ]

/-- Lines 621-634: `csvContent`, the text that `generateCSV` offers for download,
for a journal whose entries hold six texts, as those of `createJournalEntries`
do; `Ledger.generateCSV` is the function on a journal that holds uploaded
rows. -/
def generateCSV (journalEntries : List JournalEntry) : String :=
  "\n".intercalate
    ((headers :: (csvEntries journalEntries).map csvCells).map fun row => ",".intercalate row)

/-! ## Vocabulary of the statements -/

/-- The Number a decimal literal denotes, as in `0.126`. -/
def number (literal : String) : JSNumber := JSNumber.parseFloatChars literal.toList

/-- The test of line 243, `parseNumber(expense.amount) > 0`. -/
def Expense.positive (expense : Expense) : Bool := (parseNumber expense.amount).gtZero

/-- The test `typeof value === "number"`. -/
def JSVal.isNumber : JSVal → Bool
  | .num _ => true
  | _ => false

/-- The text `toFixed(2)` gives for a field, empty when the call would throw. -/
def JSVal.fixedText (v : JSVal) : String := (v.toFixed2).getD ""

/-- The comparison `x === y` of two Numbers: `NaN` equals nothing and the two
zeros are equal. -/
def JSNumber.strictEq : JSNumber → JSNumber → Bool
  | .nan, _ => false
  | _, .nan => false
  | .fin s m, .fin t n => (m == 0 && n == 0) || (s == t && m == n)
  | x, y => x == y

/-- A field whose content does not parse (`parseFloat` gives `NaN`, as for an
empty or non-numeric string) replaced by the Number `0`. -/
def JSVal.orZero (v : JSVal) : JSVal :=
  if parseFloat v = .nan then .num JSNumber.zero else v

/-- A property record with every unparsable numeric field replaced by `0`. -/
def Property.orZero (p : Property) : Property :=
  { p with
    rent := p.rent.orZero
    convenienceFee := p.convenienceFee.orZero
    managementFeePercentage := p.managementFeePercentage.orZero
    expenses := p.expenses.map fun e => { e with amount := e.amount.orZero } }

/-- Hundredths denoted by an unsigned amount text `d...d.dd`; `none` for any
other text. -/
def unsignedCents (cs : List Char) : Option Nat :=
  match (cs.span Char.isDigit).2 with
  | ['.', a, b] =>
    if (cs.span Char.isDigit).1 ≠ [] ∧ a.isDigit = true ∧ b.isDigit = true then
      some (JSNumber.digitsValue ((cs.span Char.isDigit).1 ++ [a, b]))
    else none
  | _ => none

/-- The value, in hundredths, that a 2-decimal amount text such as `12.30` or
`-0.05` denotes.  A text of another form (`NaN`, `Infinity`, an exponent form)
denotes no amount and counts as zero. -/
def amountCents (amount : String) : Int :=
  match amount.toList with
  | '-' :: cs => -(((unsignedCents cs).getD 0 : Nat) : Int)
  | cs => (((unsignedCents cs).getD 0 : Nat) : Int)

/-- Sum of the `Debit` amounts of a journal, in hundredths. -/
def debitTotal (entries : List JournalEntry) : Int :=
  (entries.map fun e => amountCents e.Debit).sum

/-- Sum of the `Credit` amounts of a journal, in hundredths. -/
def creditTotal (entries : List JournalEntry) : Int :=
  (entries.map fun e => amountCents e.Credit).sum

/-- A property with rent `0.126` and convenience fee `0.126`, no management fee
and no expense. -/
def subCentProperty : Property :=
  { id := .num (JSNumber.ofNat 2)
    name := "Unit 7"
    rent := .num (number "0.126")
    convenienceFee := .num (number "0.126")
    managementFeePercentage := .num JSNumber.zero
    paymentDate := "2024-03-05"
    expenses := [] }

/-- A property with rent `0.1` and convenience fee `0.2`, no management fee and
no expense. -/
def tenthsProperty : Property :=
  { id := .num (JSNumber.ofNat 3)
    name := "Unit 8"
    rent := .num (number "0.1")
    convenienceFee := .num (number "0.2")
    managementFeePercentage := .num JSNumber.zero
    paymentDate := "2024-03-05"
    expenses := [] }

/-- A property with no rent, convenience fee `0.2` and one expense of `0.1`. -/
def repairProperty : Property :=
  { id := .num (JSNumber.ofNat 4)
    name := "Unit 9"
    rent := .num JSNumber.zero
    convenienceFee := .num (number "0.2")
    managementFeePercentage := .num JSNumber.zero
    paymentDate := "2024-03-05"
    expenses := [{ amount := .num (number "0.1"), description := "Lock" }] }

/-- The example property of the specification: rent 1000, convenience fee 50,
management fee 10 %, one expense of 100 for plumbing. -/
def exampleProperty : Property :=
  { id := .num (JSNumber.ofNat 1)
    name := "Oak Street 12"
    rent := .num (JSNumber.ofNat 1000)
    convenienceFee := .num (JSNumber.ofNat 50)
    managementFeePercentage := .num (JSNumber.ofNat 10)
    paymentDate := "2024-03-05"
    expenses := [{ amount := .num (JSNumber.ofNat 100), description := "Plumbing" }] }

/-- A finite Number other than `-0`: the Numbers that JSON text carries
unchanged. -/
def JSVal.isPlainNumber : JSVal → Bool
  | .num (.fin s m) => !(s && m == 0)
  | _ => false

/-- The test `x < 0`. -/
def JSNumber.ltZero : JSNumber → Bool
  | .nan => false
  | .inf s => s
  | .fin s m => s && decide (0 < m)

/-- A property that the compact form can carry: its `id` survives JSON, its
rent, convenience fee and management-fee percentage are finite Numbers (not
`-0`), and so is the amount of every expense whose coerced amount is above
zero. -/
def Property.shareable (p : Property) : Bool :=
  (p.id.viaJSON == p.id) && p.rent.isPlainNumber && p.convenienceFee.isPlainNumber &&
    p.managementFeePercentage.isPlainNumber &&
    p.expenses.all fun e => !e.positive || e.amount.isPlainNumber

/-- The property without the expenses that the compact form drops. -/
def Property.withoutDropped (p : Property) : Property :=
  { p with expenses := p.expenses.filter Expense.positive }

/-- A property as the form saves it when `Infinity` is typed for the rent: the
coerced rent is the Number `Infinity`. -/
def infiniteRentProperty : Property :=
  { id := .num (JSNumber.ofNat 5)
    name := "Unit 10"
    rent := .num (parseNumber (.str "Infinity"))
    convenienceFee := .num JSNumber.zero
    managementFeePercentage := .num JSNumber.zero
    paymentDate := "2024-03-05"
    expenses := [] }

/-- A property with rent 1000 and one expense of `-50`, as an imported file can
hold it. -/
def refundProperty : Property :=
  { id := .num (JSNumber.ofNat 6)
    name := "Unit 11"
    rent := .num (JSNumber.ofNat 1000)
    convenienceFee := .num JSNumber.zero
    managementFeePercentage := .num JSNumber.zero
    paymentDate := "2024-03-05"
    expenses := [{ amount := .num (number "-50"), description := "Refund" }] }

/-- A property on which no `toFixed` call of `createJournalEntries` throws: rent
and convenience fee are Numbers, and so is the amount of every expense whose
coerced amount is above zero. -/
def Property.formattable (p : Property) : Bool :=
  p.rent.isNumber && p.convenienceFee.isNumber &&
    p.expenses.all fun e => !e.positive || e.amount.isNumber

/-- The entries of a property, none when `createJournalEntries` throws. -/
def entriesOf (p : Property) : List JournalEntry := (createJournalEntries p).getD []

/-- No expense of the property has a coerced amount below zero. -/
def Property.noNegativeExpense (p : Property) : Bool :=
  p.expenses.all fun e => !(parseNumber e.amount).ltZero

/-- An element of `p` that decodes to a property on which `createJournalEntries`
does not throw: `e` is an array, `r` and `c` are Numbers, and so is the `a` of
every expense whose coerced `a` is above zero. -/
def CompactProperty.wellFormed (prop : CompactProperty) : Bool :=
  match prop.e with
  | .array exps =>
    prop.r.isNumber && prop.c.isNumber &&
      exps.all fun x => !(parseNumber x.a).gtZero || x.a.isNumber
  | _ => false

/-- The array `p` of the compact form of the example property. -/
def exampleItems : List CompactProperty :=
  [ { i := .num (JSNumber.ofNat 1)
      n := "Oak Street 12"
      r := .num (JSNumber.ofNat 1000)
      c := .num (JSNumber.ofNat 50)
      m := .num (JSNumber.ofNat 10)
      d := "2024-03-05"
      e := .array [{ a := .num (JSNumber.ofNat 100), d := "Plumbing" }] } ]

/-- A property that the export file can carry: its `id` survives JSON, and its
rent, convenience fee, management-fee percentage and every expense amount are
finite Numbers (not `-0`). -/
def Property.exportable (p : Property) : Bool :=
  (p.id.viaJSON == p.id) && p.rent.isPlainNumber && p.convenienceFee.isPlainNumber &&
    p.managementFeePercentage.isPlainNumber && p.expenses.all fun e => e.amount.isPlainNumber

/-- The example property as a hand-written file can hold it, with the rent given
as the text `"1000"`. -/
def textRentProperty : Property := { exampleProperty with rent := .str "1000" }

/-- A state holding the example property and its journal. -/
def exampleState : AppState :=
  { properties := [exampleProperty], journalEntries := entriesOf exampleProperty }

/-- An import file `{"properties": [...]}` with the single property
`textRentProperty` and no field `journalEntries`. -/
def textRentFile : FileContent :=
  .data { properties := .array [textRentProperty], journalEntries := .falsy }

/-! ## Lines 525-602: `handleSubmit` and `handleDelete` -/

/-- Truthiness of a value, as the operator `||` tests it. -/
def JSVal.truthy : JSVal → Bool
  | .undefined => false
  | .null => false
  | .bool b => b
  | .num x => x.truthy
  | .str s => s != ""

/-- The comparison `a === b` of two values. -/
def JSVal.strictEq : JSVal → JSVal → Bool
  | .undefined, .undefined => true
  | .null, .null => true
  | .bool a, .bool b => a == b
  | .num x, .num y => x.strictEq y
  | .str s, .str t => s == t
  | _, _ => false

/-- Lines 529-534: the expenses of the form with every amount coerced by
`parseNumber`, of which those with `amount > 0` are kept; the comparison reads
the Number that the `map` has just stored. -/
def savedExpenses (expenses : List Expense) : List Expense :=
  ((expenses.map fun exp => (exp, parseNumber exp.amount)).filter
    fun coerced => coerced.2.gtZero).map
      fun coerced => { coerced.1 with amount := .num coerced.2 }

/-- Lines 526-538: `propertyToSave`.  `newProperty` is the form state,
`editingProperty` the property being edited (`none` for `null`) and `now` the
reading of `Date.now()`. -/
def propertyToSave (now : JSNumber) (editingProperty : Option Property)
    (newProperty : Property) : Property :=
  { newProperty with
    rent := .num (parseNumber newProperty.rent)
    expenses := savedExpenses newProperty.expenses
    managementFeePercentage := .num (parseNumber newProperty.managementFeePercentage)
    convenienceFee := .num (parseNumber newProperty.convenienceFee)
    id :=
      match editingProperty with
      | some editing => if editing.id.truthy then editing.id else .num now
      | none => .num now }

/-- Lines 543-550: the updater given to `setProperties`. -/
def submittedProperties (editingProperty : Option Property) (saved : Property)
    (prev : List Property) : List Property :=
  match editingProperty with
  | some editing => prev.map fun prop => if prop.id.strictEq editing.id then saved else prop
  | none => prev ++ [saved]

/-- Lines 553-559: the updater given to `setJournalEntries`. -/
def submittedJournal (editingProperty : Option Property) (newJournalEntries : List JournalEntry)
    (prev : List JournalEntry) : List JournalEntry :=
  (match editingProperty with
    | some editing => prev.filter fun entry => entry.Class != editing.name
    | none => prev) ++ newJournalEntries

/-- Lines 525-567: `handleSubmit`, as a function of the state.  A throw of
`createJournalEntries` on line 540 leaves the handler before any state is
set. -/
def handleSubmit (now : JSNumber) (editingProperty : Option Property) (newProperty : Property)
    (state : AppState) : Except Thrown AppState :=
  match createJournalEntries (propertyToSave now editingProperty newProperty) with
  | none => .error .typeError
  | some newJournalEntries =>
    .ok { properties :=
            submittedProperties editingProperty
              (propertyToSave now editingProperty newProperty) state.properties
          journalEntries :=
            submittedJournal editingProperty newJournalEntries state.journalEntries }

/-- The method call `text.includes(part)`: `part` occurs somewhere in `text`. -/
def includes (text part : String) : Bool :=
  text.toList.tails.any fun rest => part.toList.isPrefixOf rest

/-- Lines 578-602: `handleDelete`, as a function of the state, for a journal
whose entries hold six texts, as those of `createJournalEntries` do;
`Ledger.handleDelete` is the function on a journal that holds uploaded rows. -/
def handleDelete (propertyId : JSVal) (state : AppState) : AppState :=
  match state.properties.find? fun prop => prop.id.strictEq propertyId with
  | some deletedProperty =>
    { properties := state.properties.filter fun prop => !prop.id.strictEq propertyId
      journalEntries :=
        state.journalEntries.filter fun entry =>
          !includes entry.Description deletedProperty.name }
  | none => state

/-! ## Lines 645-685: `handleFileUpload` -/

/-- One row of an uploaded ledger: the reader of lines 687-701 gives every
column the text of its cell, or `undefined` (`none`) where the line has no such
cell. -/
structure LedgerRow where
  Date : Option String
  Account : Option String
  Description : Option String
  Debit : Option String
  Credit : Option String
  Class : Option String
  deriving DecidableEq, Repr

/-- An expense pushed on line 673. -/
structure LedgerExpense where
  description : String
  amount : JSNumber
  deriving DecidableEq, Repr

/-- A property object created on lines 649-657. -/
structure LedgerProperty where
  id : JSNumber
  name : Option String
  paymentDate : Option String
  rent : JSNumber
  convenienceFee : JSNumber
  managementFeePercentage : JSNumber
  expenses : List LedgerExpense
  deriving DecidableEq, Repr

/-- The value of a column as an argument of `parseNumber`. -/
def columnValue : Option String → JSVal
  | some text => .str text
  | none => .undefined

/-- The key under which `acc[propertyName]` is stored. -/
def propertyKey : Option String → String
  | some text => text
  | none => "undefined"

/-- The text before the first occurrence of `sep`: element `0` of
`text.split(sep)`. -/
def beforeSeparator (sep : List Char) : List Char → List Char
  | [] => []
  | c :: cs => if sep.isPrefixOf (c :: cs) then [] else c :: beforeSeparator sep cs

/-- Assignment to the fields of `acc[key]`. -/
def setProperty (key : String) (value : LedgerProperty)
    (acc : List (String × LedgerProperty)) : List (String × LedgerProperty) :=
  acc.map fun stored => if stored.1 = key then (stored.1, value) else stored

/-- Lines 660-679: the `switch` over `entry.Account`, run on `acc[propertyName]`. -/
def accumulate (entry : LedgerRow) (property : LedgerProperty) : Except Thrown LedgerProperty :=
  match entry.Account with
  | some "Rent Revenue Received" =>
    .ok { property with rent := property.rent.add (parseNumber (columnValue entry.Credit)) }
  | some "Rent Revenue-Convenience Fee" =>
    .ok { property with
          convenienceFee := property.convenienceFee.add (parseNumber (columnValue entry.Credit)) }
  | some "Property Management Fees" =>
    if property.managementFeePercentage.strictEq JSNumber.zero then
      .ok { property with
            managementFeePercentage :=
              ((parseNumber (columnValue entry.Debit)).div property.rent).mul
                (JSNumber.ofNat 100) }
    else .ok property
  | some "Repairs and Maintenanace" =>
    match entry.Description with
    | some text =>
      .ok { property with
            expenses := property.expenses ++
              [{ description := String.mk (beforeSeparator " for ".toList text.toList)
                 amount := parseNumber (columnValue entry.Debit) }] }
    | none => .error .typeError
  | _ => .ok property

/-- Lines 647-681: the reducer of `entries.reduce`; `acc` lists the own keys of
the accumulator object in the order of their creation, and `id` is the value
of `Date.now() + Math.random()`. -/
def reducer (id : JSNumber) (acc : List (String × LedgerProperty)) (entry : LedgerRow) :
    Except Thrown (List (String × LedgerProperty)) :=
  let propertyName := entry.Class
  let created :=
    if propertyName != entry.Class && (acc.lookup (propertyKey propertyName)).isNone then
      acc ++ [(propertyKey propertyName,
        { id := id
          name := propertyName
          paymentDate := entry.Date
          rent := JSNumber.zero
          convenienceFee := JSNumber.zero
          managementFeePercentage := JSNumber.zero
          expenses := [] })]
    else acc
  if propertyName != entry.Class then
    match created.lookup (propertyKey propertyName) with
    | some property =>
      (accumulate entry property).map fun updated =>
        setProperty (propertyKey propertyName) updated created
    | none => .error .typeError
  else .ok created

/-- The call `entries.reduce(reducer, {})`, from row number `index` on. -/
def reduceEntries (ids : Nat → JSNumber) :
    Nat → List (String × LedgerProperty) → List LedgerRow →
      Except Thrown (List (String × LedgerProperty))
  | _, acc, [] => .ok acc
  | index, acc, entry :: rest =>
    match reducer (ids index) acc entry with
    | .ok next => reduceEntries ids (index + 1) next rest
    | .error thrown => .error thrown

/-- The number a key denotes when it is an array index: a decimal numeral
without a leading zero, below `2 ^ 32 - 1`. -/
def arrayIndex (key : String) : Option Nat :=
  match key.toNat? with
  | some n => if toString n = key ∧ n < 4294967295 then some n else none
  | none => none

/-- A stored value put into a list that is ordered by array index. -/
def insertIndexed (index : Nat) (value : LedgerProperty) :
    List (Nat × LedgerProperty) → List (Nat × LedgerProperty)
  | [] => [(index, value)]
  | stored :: rest =>
    if index < stored.1 then (index, value) :: stored :: rest
    else stored :: insertIndexed index value rest

/-- The values stored under array indices, in ascending order of the index. -/
def indexedValues : List (String × LedgerProperty) → List (Nat × LedgerProperty)
  | [] => []
  | stored :: rest =>
    match arrayIndex stored.1 with
    | some index => insertIndexed index stored.2 (indexedValues rest)
    | none => indexedValues rest

/-- The call `Object.values(acc)`: the values under array indices in ascending
order, then the others in the order of their creation. -/
def objectValues (acc : List (String × LedgerProperty)) : List LedgerProperty :=
  (indexedValues acc).map (fun stored => stored.2) ++
    (acc.filter fun stored => (arrayIndex stored.1).isNone).map fun stored => stored.2

/-- What `handleFileUpload` leaves behind: the journal it sets, and the list it
gives to `setProperties`, unless the reducer throws before that call. -/
structure UploadOutcome where
  journalEntries : List LedgerRow
  properties : Except Thrown (List LedgerProperty)
  deriving DecidableEq

/-- Lines 645-685: `handleFileUpload`; `ids n` is the value of
`Date.now() + Math.random()` while row `n` is read. -/
def handleFileUpload (ids : Nat → JSNumber) (entries : List LedgerRow) : UploadOutcome :=
  { journalEntries := entries
    properties := (reduceEntries ids 0 [] entries).map objectValues }

/-! ## Lines 1779-1795: `DatabaseStats` -/

namespace DatabaseStats

/-- Lines 1781-1784. -/
def totalRent (properties : List Property) : JSNumber :=
  properties.foldl (fun sum prop => JSNumber.add sum (parseNumber prop.rent)) JSNumber.zero

/-- Lines 1785-1794. -/
def totalExpenses (properties : List Property) : JSNumber :=
  properties.foldl
    (fun sum prop =>
      JSNumber.add
        (JSNumber.add
          (JSNumber.add sum
            (prop.expenses.foldl
              (fun expSum exp => JSNumber.add expSum (parseNumber exp.amount)) JSNumber.zero))
          (JSNumber.div
            (JSNumber.mul (parseNumber prop.rent) (parseNumber prop.managementFeePercentage))
            (JSNumber.ofNat 100)))
        (parseNumber prop.convenienceFee))
    JSNumber.zero

/-- Line 1795. -/
def totalNetIncome (properties : List Property) : JSNumber :=
  JSNumber.sub (totalRent properties) (totalExpenses properties)

end DatabaseStats

/-! ## The formulas of lines 34-55 and 1779-1795 over an arithmetic

The same formulas, with the operations left open: `binary64` gives the
calculation of the code, `rational` the one in exact arithmetic. -/

/-- The four operations and the two literals that the formulas use. -/
structure Arithmetic (α : Type) where
  add : α → α → α
  sub : α → α → α
  mul : α → α → α
  div : α → α → α
  zero : α
  hundred : α

/-- The arithmetic of JavaScript Numbers. -/
def binary64 : Arithmetic JSNumber :=
  { add := JSNumber.add
    sub := JSNumber.sub
    mul := JSNumber.mul
    div := JSNumber.div
    zero := JSNumber.zero
    hundred := JSNumber.ofNat 100 }

/-- Exact arithmetic, on rational numbers. -/
def rational : Arithmetic ℚ :=
  { add := fun x y => x + y
    sub := fun x y => x - y
    mul := fun x y => x * y
    div := fun x y => x / y
    zero := 0
    hundred := 100 }

/-- The coerced fields of a property: what `parseNumber` makes of the rent, of
the two fees and of the amount of every expense. -/
structure Figures (α : Type) where
  rent : α
  convenienceFee : α
  managementFeePercentage : α
  expenses : List α

/-- The coerced fields of a property, as Numbers. -/
def figures (property : Property) : Figures JSNumber :=
  { rent := parseNumber property.rent
    convenienceFee := parseNumber property.convenienceFee
    managementFeePercentage := parseNumber property.managementFeePercentage
    expenses := property.expenses.map fun exp => parseNumber exp.amount }

namespace Formula

/-- The reducer `(total, amount) => total + amount` from `0`. -/
def sumExpenses {α : Type} (A : Arithmetic α) (amounts : List α) : α :=
  amounts.foldl A.add A.zero

/-- Lines 35-36. -/
def totalRevenue {α : Type} (A : Arithmetic α) (f : Figures α) : α :=
  A.add f.rent f.convenienceFee

/-- Lines 37-38. -/
def managementFee {α : Type} (A : Arithmetic α) (f : Figures α) : α :=
  A.div (A.mul f.rent f.managementFeePercentage) A.hundred

/-- Lines 39-45. -/
def totalExpenses {α : Type} (A : Arithmetic α) (f : Figures α) : α :=
  A.add (A.add (sumExpenses A f.expenses) (managementFee A f)) f.convenienceFee

/-- Lines 46-54. -/
def ownerPayout {α : Type} (A : Arithmetic α) (f : Figures α) : α :=
  A.sub
    (A.sub (A.sub (A.add f.rent f.convenienceFee) (managementFee A f)) f.convenienceFee)
    (sumExpenses A f.expenses)

/-- Lines 1781-1784. -/
def totalRent {α : Type} (A : Arithmetic α) (fs : List (Figures α)) : α :=
  fs.foldl (fun sum f => A.add sum f.rent) A.zero

/-- Lines 1785-1794. -/
def statsExpenses {α : Type} (A : Arithmetic α) (fs : List (Figures α)) : α :=
  fs.foldl
    (fun sum f =>
      A.add (A.add (A.add sum (sumExpenses A f.expenses)) (managementFee A f)) f.convenienceFee)
    A.zero

/-- Line 1795. -/
def totalNetIncome {α : Type} (A : Arithmetic α) (fs : List (Figures α)) : α :=
  A.sub (totalRent A fs) (statsExpenses A fs)

/-- The sum of the owner payouts of a list, from `0`. -/
def payoutSum {α : Type} (A : Arithmetic α) (fs : List (Figures α)) : α :=
  fs.foldl (fun sum f => A.add sum (ownerPayout A f)) A.zero

/-- The sum of the convenience fees of a list, from `0`. -/
def feeSum {α : Type} (A : Arithmetic α) (fs : List (Figures α)) : α :=
  fs.foldl (fun sum f => A.add sum f.convenienceFee) A.zero

end Formula

/-! ## Vocabulary of the statements: handlers -/

/-- The state before anything is entered. -/
def emptyState : AppState := { properties := [], journalEntries := [] }

/-- The state after `handleSubmit`: the one it sets, or the old one when it
throws. -/
def afterSubmit (now : JSNumber) (editingProperty : Option Property) (newProperty : Property)
    (state : AppState) : AppState :=
  match handleSubmit now editingProperty newProperty state with
  | .ok next => next
  | .error _ => state

/-- The states that sequences of submits (of a new or of an edited property)
and of deletes lead to from the empty state. -/
inductive Reachable : AppState → Prop
  | empty : Reachable emptyState
  | submit (now : JSNumber) (editingProperty : Option Property) (newProperty : Property)
      (state next : AppState) :
      Reachable state → handleSubmit now editingProperty newProperty state = .ok next →
        Reachable next
  | delete (propertyId : JSVal) (state : AppState) :
      Reachable state → Reachable (handleDelete propertyId state)

/-- The property stands at one place of the list, no other element has its id,
and its id equals itself. -/
def onlyId (before : List Property) (prop : Property) (after : List Property) : Prop :=
  prop.id.strictEq prop.id = true ∧
    ∀ other ∈ before ++ after, other.id.strictEq prop.id = false

instance (before : List Property) (prop : Property) (after : List Property) :
    Decidable (onlyId before prop after) := by
  unfold onlyId
  infer_instance

/-- The states reached from the empty state by submits of a new property, by
submits of an edited property that is in the list, alone with its id and with
its name, and by deletes of a property that is alone with its id and whose name
occurs in no description of an entry of another property. -/
inductive ReachableUnshared : AppState → Prop
  | empty : ReachableUnshared emptyState
  | add (now : JSNumber) (newProperty : Property) (state next : AppState) :
      ReachableUnshared state → handleSubmit now none newProperty state = .ok next →
        ReachableUnshared next
  | edit (now : JSNumber) (editing newProperty : Property) (before after : List Property)
      (journal : List JournalEntry) (next : AppState) :
      ReachableUnshared { properties := before ++ editing :: after, journalEntries := journal } →
      onlyId before editing after →
      (∀ other ∈ before ++ after, other.name ≠ editing.name) →
      handleSubmit now (some editing) newProperty
        { properties := before ++ editing :: after, journalEntries := journal } = .ok next →
      ReachableUnshared next
  | delete (deleted : Property) (before after : List Property) (journal : List JournalEntry) :
      ReachableUnshared { properties := before ++ deleted :: after, journalEntries := journal } →
      onlyId before deleted after →
      (∀ other ∈ before ++ after, ∀ entry ∈ entriesOf other,
        includes entry.Description deleted.name = false) →
      ReachableUnshared
        (handleDelete deleted.id
          { properties := before ++ deleted :: after, journalEntries := journal })

/-- A Number other than `NaN`. -/
def JSVal.isNumeric : JSVal → Bool
  | .num .nan => false
  | .num _ => true
  | _ => false

/-- A Number above zero. -/
def JSVal.isPositive : JSVal → Bool
  | .num x => x.gtZero
  | _ => false

/-- The rent and the two fees are Numbers other than `NaN` and the amount of
every expense is a Number above zero. -/
def Property.numeric (p : Property) : Bool :=
  p.rent.isNumeric && p.convenienceFee.isNumeric && p.managementFeePercentage.isNumeric &&
    p.expenses.all fun e => e.amount.isPositive

/-- A journal entry as a row of an uploaded ledger. -/
def JournalEntry.toRow (entry : JournalEntry) : LedgerRow :=
  { Date := some entry.Date
    Account := some entry.Account
    Description := some entry.Description
    Debit := some entry.Debit
    Credit := some entry.Credit
    Class := some entry.Class }

/-- The rows of the journal of one property. -/
def ledgerOf (p : Property) : List LedgerRow := (entriesOf p).map JournalEntry.toRow

/-- The example property with the id `0`. -/
def zeroIdProperty : Property := { exampleProperty with id := .num JSNumber.zero }

/-- A form filled in for a property of the given name, with a rent of 1000. -/
def formFor (name : String) : Property :=
  { id := .undefined
    name := name
    rent := .str "1000"
    convenienceFee := .str "50"
    managementFeePercentage := .str "10"
    paymentDate := "2024-03-05"
    expenses := [{ amount := .str "", description := "" }] }

/-- The state after a property named `Oak` is added at time 1, one named
`Oak Street` at time 2, and the first of them is deleted. -/
def oakDeletedState : AppState :=
  handleDelete (.num (JSNumber.ofNat 1))
    (afterSubmit (JSNumber.ofNat 2) none (formFor "Oak Street")
      (afterSubmit (JSNumber.ofNat 1) none (formFor "Oak") emptyState))

/-- The example property after a change of its rent to 1200 is submitted at
time 7. -/
def editedState : AppState :=
  afterSubmit (JSNumber.ofNat 7) (some exampleProperty)
    { exampleProperty with rent := .str "1200" } exampleState

/-- The property saved when the form for `Oak` is submitted at time 1. -/
def oakProperty : Property := propertyToSave (JSNumber.ofNat 1) none (formFor "Oak")

/-- The property saved when the form for `Elm` is submitted at time 2. -/
def elmProperty : Property := propertyToSave (JSNumber.ofNat 2) none (formFor "Elm")

/-- The form after `handleEdit(oakProperty)` and a change of the rent to 1200. -/
def oakForm : Property := { oakProperty with rent := .str "1200" }

/-- The state after `Oak` and `Elm` are added and `Oak` is submitted again with
a rent of 1200. -/
def oakEditedState : AppState :=
  afterSubmit (JSNumber.ofNat 7) (some oakProperty) oakForm
    (afterSubmit (JSNumber.ofNat 2) none (formFor "Elm")
      (afterSubmit (JSNumber.ofNat 1) none (formFor "Oak") emptyState))

/-- The state after `Elm` is deleted from `oakEditedState`. -/
def elmDeletedState : AppState := handleDelete elmProperty.id oakEditedState

/-! ## The journal with uploaded rows

Line 646 stores the rows of an uploaded ledger as the journal, as the reader of
lines 687-701 made them: a cell is a text, or is missing.  `generateCSV` and
`handleDelete` on such a journal. -/

/-- The properties and a journal that holds rows as they were read. -/
structure LedgerState where
  properties : List Property
  journalEntries : List LedgerRow
  deriving DecidableEq, Repr

namespace Ledger

/-- Lines 605-608 on the cell `entry.Date`: `date.split` throws a `TypeError`
when the cell is missing. -/
def generateJournalNo : Option String → Except Thrown String
  | some date => .ok (PropMgmt.generateJournalNo date)
  | none => .error .typeError

/-- Lines 618-620: the filter that keeps an entry with a side above zero; the
`parseFloat` of a missing cell is `NaN`. -/
def csvEntries (journalEntries : List LedgerRow) : List LedgerRow :=
  journalEntries.filter fun entry =>
    (parseFloat (columnValue entry.Debit)).gtZero ||
      (parseFloat (columnValue entry.Credit)).gtZero

/-- The text `Array.prototype.join` writes for an element: nothing for
`undefined`. -/
def joined : Option String → String
  | some text => text
  | none => ""

/-- Lines 623-631: the cells of the row of one entry, as `join` writes each. -/
def csvCells (entry : LedgerRow) : Except Thrown (List String) :=
  match generateJournalNo entry.Date with
  | .ok journalNo =>
    .ok [ journalNo,
          joined entry.Date,
          joined entry.Account,
          joined entry.Description,
          if (parseFloat (columnValue entry.Debit)).gtZero then joined entry.Debit else "",
          if (parseFloat (columnValue entry.Credit)).gtZero then joined entry.Credit else "",
          joined entry.Class ]
  | .error thrown => .error thrown

/-- Lines 622-632: `csvEntries.map(...)`, which ends at the first entry whose
callback throws. -/
def csvRows : List LedgerRow → Except Thrown (List (List String))
  | [] => .ok []
  | entry :: rest =>
    match csvCells entry with
    | .ok cells =>
      match csvRows rest with
      | .ok more => .ok (cells :: more)
      | .error thrown => .error thrown
    | .error thrown => .error thrown

/-- Lines 604-634: `csvContent`, or what `generateCSV` throws before it has
built it. -/
def generateCSV (journalEntries : List LedgerRow) : Except Thrown String :=
  match csvRows (csvEntries journalEntries) with
  | .ok rows => .ok ("\n".intercalate ((headers :: rows).map fun row => ",".intercalate row))
  | .error thrown => .error thrown

/-- Lines 588-593: the updater given to `setJournalEntries`:
`entry.Description.includes` throws a `TypeError` when the cell is missing, and
that ends the `filter`. -/
def withoutName (name : String) : List LedgerRow → Except Thrown (List LedgerRow)
  | [] => .ok []
  | entry :: rest =>
    match entry.Description with
    | some description =>
      match withoutName name rest with
      | .ok more => .ok (if !includes description name then entry :: more else more)
      | .error thrown => .error thrown
    | none => .error .typeError

/-- Lines 578-602: `handleDelete`, as a function of the state; an exception of
an updater leaves the handler's state update unfinished. -/
def handleDelete (propertyId : JSVal) (state : LedgerState) : Except Thrown LedgerState :=
  match state.properties.find? fun prop => prop.id.strictEq propertyId with
  | some deletedProperty =>
    match withoutName deletedProperty.name state.journalEntries with
    | .ok journalEntries =>
      .ok { properties := state.properties.filter fun prop => !prop.id.strictEq propertyId
            journalEntries := journalEntries }
    | .error thrown => .error thrown
  | none => .ok state

end Ledger

/-- A state whose journal holds entries of `createJournalEntries` only, with
the entries as rows. -/
def AppState.toLedger (state : AppState) : LedgerState :=
  { properties := state.properties
    journalEntries := state.journalEntries.map JournalEntry.toRow }

/-! ## Vocabulary of the statements: inputs outside the data model -/

/-- The example property with the amount of its expense as the text `100`, as
an import file can hold it. -/
def textAmountProperty : Property :=
  { exampleProperty with expenses := [{ amount := .str "100", description := "Plumbing" }] }

/-- The example property with the convenience fee as the text `50`. -/
def textFeeProperty : Property := { exampleProperty with convenienceFee := .str "50" }

/-- The example property with a second expense, whose amount is the text
`25.5`. -/
def mixedAmountProperty : Property :=
  { exampleProperty with
    expenses := [{ amount := .num (JSNumber.ofNat 100), description := "Plumbing" },
                 { amount := .str "25.5", description := "Paint" }] }

/-- The example property with an empty expense row of the form before its
expense of 100. -/
def emptyRowProperty : Property :=
  { exampleProperty with
    expenses := [{ amount := .str "", description := "" },
                 { amount := .num (JSNumber.ofNat 100), description := "Plumbing" }] }

/-- A finite Number. -/
def JSNumber.isFinite : JSNumber → Bool
  | .fin _ _ => true
  | _ => false

/-- A field that holds a finite Number. -/
def JSVal.isFiniteNumber : JSVal → Bool
  | .num x => x.isFinite
  | _ => false

/-- A property whose journal the compact form carries: rent and convenience
fee are finite Numbers, the coerced management-fee percentage is finite, no
expense has a coerced amount below zero, and every expense whose coerced amount
is above zero holds a finite Number. -/
def Property.journalShareable (p : Property) : Bool :=
  p.rent.isFiniteNumber && p.convenienceFee.isFiniteNumber &&
    (parseNumber p.managementFeePercentage).isFinite &&
    p.expenses.all fun e =>
      !(parseNumber e.amount).ltZero && (!e.positive || e.amount.isFiniteNumber)

/-- What the compact form makes of a property whose coerced fields are finite:
the id sent through JSON, the coerced rent, fees and amounts, and the expenses
with a coerced amount above zero. -/
def Property.viaCompact (p : Property) : Property :=
  { id := p.id.viaJSON
    name := p.name
    rent := .num (parseNumber p.rent)
    convenienceFee := .num (parseNumber p.convenienceFee)
    managementFeePercentage := .num (parseNumber p.managementFeePercentage)
    paymentDate := p.paymentDate
    expenses := (p.expenses.filter Expense.positive).map fun e =>
      { amount := .num (parseNumber e.amount), description := e.description } }

/-- The example property with `Infinity` as the text of its management-fee
percentage. -/
def infinitePercentageProperty : Property :=
  { exampleProperty with managementFeePercentage := .str "Infinity" }

/-- The example property with its rent as `-0`, its percentage as the text
`10` and an id that JSON does not carry. -/
def looseProperty : Property :=
  { exampleProperty with
    id := .num .nan
    rent := .num (.fin true 0)
    managementFeePercentage := .str "10" }

/-- An import file `{"properties": [...]}` with the example property and no
field `journalEntries`. -/
def exampleFile : FileContent :=
  .data { properties := .array [exampleProperty], journalEntries := .falsy }

/-- A row of a ledger file that has no `Date` column: a credit of 1000. -/
def noDateRow : LedgerRow :=
  { Date := none
    Account := some "Rent Revenue Received"
    Description := some "Rent for Oak"
    Debit := some "0.00"
    Credit := some "1000.00"
    Class := some "Oak" }

/-- The row the reader makes of the empty last line of a ledger file whose
first column is `Date`: the first cell is the empty text, the others are
missing. -/
def emptyLineRow : LedgerRow :=
  { Date := some ""
    Account := none
    Description := none
    Debit := none
    Credit := none
    Class := none }

/-- The state after a ledger file that ends with a line break is uploaded and
the example property is added: the journal holds the row of the empty line and
the entries of the property. -/
def uploadedState : LedgerState :=
  { properties := [exampleProperty]
    journalEntries := emptyLineRow :: ledgerOf exampleProperty }

/-! # Theorems -/

/-! ## Journal expansion: shape -/

theorem expenseEntries_eq (p : Property) (xs : List Expense)
    (h : ∀ e ∈ xs, e.positive = true → e.amount.isNumber = true) :
    expenseEntries p xs =
      some ((xs.filter Expense.positive).flatMap
        fun e => expensePair p e e.amount.fixedText) := by
  induction xs with
  | nil => rfl
  | cons e rest ih =>
    have ih' := ih (fun x hx => h x (List.mem_cons_of_mem _ hx))
    by_cases hp : e.positive = true
    · obtain ⟨a, ha⟩ : ∃ a, e.amount = .num a := by
        have := h e (List.mem_cons_self _ _) hp
        cases hamt : e.amount <;> simp_all [JSVal.isNumber]
      have hp' : (parseNumber (.num a)).gtZero = true := by rw [← ha]; exact hp
      simp [expenseEntries, hp', ih', List.filter_cons, hp, ha, JSVal.toFixed2,
        JSVal.fixedText]
    · have hp' : (parseNumber e.amount).gtZero = false := by
        simpa [Expense.positive] using hp
      simp [expenseEntries, hp', ih', List.filter_cons, hp]

theorem createJournalEntries_eq (p : Property) (r c : JSNumber)
    (hr : p.rent = .num r) (hc : p.convenienceFee = .num c)
    (he : ∀ e ∈ p.expenses, e.positive = true → e.amount.isNumber = true) :
    createJournalEntries p =
      some (baseEntries p r.toFixed2 c.toFixed2 ++
        (p.expenses.filter Expense.positive).flatMap
          (fun e => expensePair p e e.amount.fixedText) ++
        payoutEntries p) := by
  simp [createJournalEntries, hr, hc, JSVal.toFixed2, expenseEntries_eq p p.expenses he]

theorem length_flatMap_expensePair (p : Property) (xs : List Expense) :
    (xs.flatMap fun e => expensePair p e e.amount.fixedText).length = 2 * xs.length := by
  induction xs with
  | nil => rfl
  | cons e rest ih =>
    simp only [List.flatMap_cons, List.length_append, ih, List.length_cons]
    simp [expensePair]
    omega

/-- Counterexample to C5: the example property with the amount of its expense
as the text `100`; one expense has a coerced amount above zero, so eleven
entries are claimed, and `createJournalEntries` throws. -/
theorem createJournalEntries_length_throws :
    (textAmountProperty.expenses.filter fun e => (parseNumber e.amount).gtZero).length = 1 ∧
    textAmountProperty.rent = exampleProperty.rent ∧
    createJournalEntries textAmountProperty = none := by
  decide

/-- C5, amended: for a property whose rent and convenience fee are Numbers and
whose expenses with a coerced amount above zero hold Numbers,
`createJournalEntries` returns, and returns exactly `9 + 2 * k` entries, `k`
being the number of expenses whose coerced amount is above zero; with no such
expense that is 9. -/
theorem createJournalEntries_length (p : Property) (r c : JSNumber)
    (hr : p.rent = .num r) (hc : p.convenienceFee = .num c)
    (he : ∀ e ∈ p.expenses, e.positive = true → e.amount.isNumber = true) :
    ∃ es, createJournalEntries p = some es ∧
      es.length = 9 + 2 * (p.expenses.filter Expense.positive).length ∧
      ((∀ e ∈ p.expenses, e.positive = false) → es.length = 9) := by
  refine ⟨_, createJournalEntries_eq p r c hr hc he, ?_, ?_⟩
  · simp only [List.length_append, length_flatMap_expensePair]
    simp [baseEntries, payoutEntries]
    omega
  · intro hz
    have hnil : p.expenses.filter Expense.positive = [] := by
      rw [List.filter_eq_nil_iff]
      intro e hmem
      simp [hz e hmem]
    simp [hnil, baseEntries, payoutEntries]

/-- Witness of C5, amended: the example property, with one expense of 100, yields 11 entries. -/
theorem createJournalEntries_length_witness :
    ∃ es, createJournalEntries exampleProperty = some es ∧
      es.length = 9 + 2 * (exampleProperty.expenses.filter Expense.positive).length ∧
      ((∀ e ∈ exampleProperty.expenses, e.positive = false) → es.length = 9) :=
  createJournalEntries_length exampleProperty (JSNumber.ofNat 1000) (JSNumber.ofNat 50)
    rfl rfl (by decide)

/-- Counterexample to C6: the example property with the rent as the text `1000`,
and the one with the convenience fee as the text `50`; `createJournalEntries`
throws for both, so that there are no first seven and no last two entries. -/
theorem createJournalEntries_skeleton_throws :
    textRentProperty.rent = .str "1000" ∧ createJournalEntries textRentProperty = none ∧
    textFeeProperty.convenienceFee = .str "50" ∧ createJournalEntries textFeeProperty = none := by
  decide

/-- C6, amended: for a property whose rent and convenience fee are the Numbers
`r` and `c` and whose expenses with a coerced amount above zero hold Numbers,
`createJournalEntries` returns; the first seven entries are the rent-clearing
debit of the total revenue, the credits of rent, convenience fee (twice), the
convenience-fee debit and the management-fee debit and credit, in this order,
and the last two entries are the owner-payout debit and credit; the opposite
side of each is `0.00`. -/
theorem createJournalEntries_skeleton (p : Property) (r c : JSNumber)
    (hr : p.rent = .num r) (hc : p.convenienceFee = .num c)
    (he : ∀ e ∈ p.expenses, e.positive = true → e.amount.isNumber = true) :
    ∃ es, createJournalEntries p = some es ∧
      es.take 7 =
        [ { Date := formatDate p.paymentDate, Account := "Rent Clearing Account",
            Description := "Total Collected for " ++ p.name,
            Debit := (calculations.totalRevenue p).toFixed2, Credit := "0.00",
            Class := p.name },
          { Date := formatDate p.paymentDate, Account := "Rent Revenue Received",
            Description := "Rent for " ++ p.name,
            Debit := "0.00", Credit := r.toFixed2, Class := p.name },
          { Date := formatDate p.paymentDate, Account := "Rent Revenue-Convenience Fee",
            Description := "Convenience Fee for " ++ p.name,
            Debit := "0.00", Credit := c.toFixed2, Class := p.name },
          { Date := formatDate p.paymentDate, Account := "PM Income Conv Fees (Current)",
            Description := "Convenience Fee for " ++ p.name,
            Debit := "0.00", Credit := c.toFixed2, Class := p.name },
          { Date := formatDate p.paymentDate, Account := "Convenience Fee Expense",
            Description := "Convenience Fee for " ++ p.name,
            Debit := c.toFixed2, Credit := "0.00", Class := p.name },
          { Date := formatDate p.paymentDate, Account := "Property Management Fees",
            Description := "Management Fee for " ++ p.name,
            Debit := (calculations.managementFee p).toFixed2, Credit := "0.00",
            Class := p.name },
          { Date := formatDate p.paymentDate,
            Account := "PM Income Fees Reg Income (Current)",
            Description := "Management Fee for " ++ p.name,
            Debit := "0.00", Credit := (calculations.managementFee p).toFixed2,
            Class := p.name } ] ∧
      es.drop (es.length - 2) =
        [ { Date := formatDate p.paymentDate, Account := "Property Owner Payout",
            Description := "Owner Payout for " ++ p.name,
            Debit := (calculations.ownerPayout p).toFixed2, Credit := "0.00",
            Class := p.name },
          { Date := formatDate p.paymentDate, Account := "Owner Commissions Payable",
            Description := "Owner Payout for " ++ p.name,
            Debit := "0.00", Credit := (calculations.ownerPayout p).toFixed2,
            Class := p.name } ] := by
  refine ⟨_, createJournalEntries_eq p r c hr hc he, ?_, ?_⟩
  · simp [baseEntries, debitEntry, creditEntry]
  · have hlen : ∀ (a b : List JournalEntry), (a ++ payoutEntries p).length - 2 = a.length := by
      intro a b
      simp [payoutEntries]
    rw [hlen _ [], List.drop_left]
    simp [payoutEntries, debitEntry, creditEntry]

/-- Witness of C6, amended, at the example property. -/
theorem createJournalEntries_skeleton_witness :
    ∃ es, createJournalEntries exampleProperty = some es ∧
      (es.take 7).map (fun e => (e.Account, e.Debit, e.Credit)) =
        [ ("Rent Clearing Account", "1050.00", "0.00"),
          ("Rent Revenue Received", "0.00", "1000.00"),
          ("Rent Revenue-Convenience Fee", "0.00", "50.00"),
          ("PM Income Conv Fees (Current)", "0.00", "50.00"),
          ("Convenience Fee Expense", "50.00", "0.00"),
          ("Property Management Fees", "100.00", "0.00"),
          ("PM Income Fees Reg Income (Current)", "0.00", "100.00") ] ∧
      (es.drop (es.length - 2)).map (fun e => (e.Account, e.Debit, e.Credit)) =
        [ ("Property Owner Payout", "800.00", "0.00"),
          ("Owner Commissions Payable", "0.00", "800.00") ] := by
  obtain ⟨es, hes, h7, h2⟩ :=
    createJournalEntries_skeleton exampleProperty (JSNumber.ofNat 1000) (JSNumber.ofNat 50)
      rfl rfl (by decide)
  refine ⟨es, hes, ?_, ?_⟩
  · rw [h7]; decide
  · rw [h2]; decide

theorem fixedText_num (x : JSNumber) : (JSVal.num x).fixedText = x.toFixed2 := rfl

theorem flatMap_expensePair_numbers (p : Property) (amounts : List (JSNumber × String)) :
    ((amounts.map fun t => ({ amount := .num t.1, description := t.2 } : Expense)).filter
        Expense.positive).flatMap (fun e => expensePair p e e.amount.fixedText) =
      (amounts.filter fun t => (parseNumber (.num t.1)).gtZero).flatMap fun t =>
        expensePair p { amount := .num t.1, description := t.2 } t.1.toFixed2 := by
  induction amounts with
  | nil => rfl
  | cons t rest ih =>
    by_cases hp : (parseNumber (.num t.1)).gtZero = true
    · have hp' : Expense.positive { amount := .num t.1, description := t.2 } = true := hp
      simp [List.filter_cons, hp, hp', ih, fixedText_num]
    · have hp' : ¬ Expense.positive { amount := .num t.1, description := t.2 } = true := hp
      simp [List.filter_cons, hp, hp', ih]

theorem expenseEntries_isSome (p : Property) (xs : List Expense) :
    (expenseEntries p xs).isSome = xs.all fun e => !e.positive || e.amount.isNumber := by
  induction xs with
  | nil => rfl
  | cons x rest ih =>
    simp only [expenseEntries, List.all_cons]
    by_cases hp : (parseNumber x.amount).gtZero = true
    · have hp' : x.positive = true := hp
      rw [if_pos hp, hp', ← ih]
      cases ha : x.amount <;> cases hr : expenseEntries p rest <;>
        simp [JSVal.toFixed2, JSVal.isNumber]
    · have hp' : x.positive = false := by simpa [Expense.positive] using hp
      rw [if_neg hp, hp', ← ih]
      simp

theorem createJournalEntries_isSome (p : Property) :
    (createJournalEntries p).isSome = p.formattable := by
  have he := expenseEntries_isSome p p.expenses
  unfold createJournalEntries Property.formattable
  rw [← he]
  cases hr : p.rent <;> cases hc : p.convenienceFee <;>
    cases hx : expenseEntries p p.expenses <;> simp [JSVal.toFixed2, JSVal.isNumber]

/-- Counterexample to C7: the example property with a second expense whose
amount is the text `25.5`; both expenses have a coerced amount above zero, and
`createJournalEntries` throws, so that no pair of entries is returned for
either. -/
theorem createJournalEntries_repairs_throws :
    (mixedAmountProperty.expenses.map fun e => (parseNumber e.amount).gtZero) = [true, true] ∧
    createJournalEntries mixedAmountProperty = none := by
  decide

/-- C7, amended: for a property whose rent and convenience fee are Numbers and
whose expenses with a coerced amount above zero are, in input order, the
Numbers and descriptions `amounts`, `createJournalEntries` returns, and the
entries between the seventh and the two owner-payout entries are, for each of
these expenses in order, the `Repairs and Maintenanace` debit of the amount
followed by the `Repairs Payable` credit of the amount, both described
`{description} for {name}`; the other expenses, whatever they hold, contribute
nothing. -/
theorem createJournalEntries_repairs (p : Property) (r c : JSNumber)
    (amounts : List (JSNumber × String))
    (hr : p.rent = .num r) (hc : p.convenienceFee = .num c)
    (he : (p.expenses.filter fun e => (parseNumber e.amount).gtZero) =
      amounts.map fun t => { amount := .num t.1, description := t.2 }) :
    ∃ es, createJournalEntries p = some es ∧
      (es.drop 7).take (es.length - 9) =
        amounts.flatMap fun t =>
          [ { Date := formatDate p.paymentDate, Account := "Repairs and Maintenanace",
              Description := t.2 ++ " for " ++ p.name,
              Debit := t.1.toFixed2, Credit := "0.00", Class := p.name },
            { Date := formatDate p.paymentDate, Account := "Repairs Payable",
              Description := t.2 ++ " for " ++ p.name,
              Debit := "0.00", Credit := t.1.toFixed2, Class := p.name } ] := by
  have hfilter : p.expenses.filter Expense.positive =
      amounts.map fun t => { amount := .num t.1, description := t.2 } := he
  have hn : ∀ e ∈ p.expenses, e.positive = true → e.amount.isNumber = true := by
    intro e hmem hpos
    have hin : e ∈ p.expenses.filter Expense.positive := List.mem_filter.2 ⟨hmem, hpos⟩
    rw [hfilter] at hin
    obtain ⟨t, _, rfl⟩ := List.mem_map.1 hin
    rfl
  refine ⟨_, createJournalEntries_eq p r c hr hc hn, ?_⟩
  have hbase : ∀ (mid : List JournalEntry),
      ((baseEntries p r.toFixed2 c.toFixed2 ++ mid ++ payoutEntries p).drop 7).take
        ((baseEntries p r.toFixed2 c.toFixed2 ++ mid ++ payoutEntries p).length - 9) = mid := by
    intro mid
    have h7 : (baseEntries p r.toFixed2 c.toFixed2).length = 7 := rfl
    have h2 : (payoutEntries p).length = 2 := rfl
    rw [List.append_assoc, ← h7, List.drop_left, List.length_append, List.length_append,
      h7, h2]
    have : 7 + (mid.length + 2) - 9 = mid.length := by omega
    rw [this, List.take_left]
  rw [hbase, hfilter, List.flatMap_map]
  rfl

/-- Witness of C7, amended: the example property with an empty expense row
before its expense of 100. -/
theorem createJournalEntries_repairs_witness :
    ∃ es, createJournalEntries emptyRowProperty = some es ∧
      ((es.drop 7).take (es.length - 9)).map
          (fun e => (e.Account, e.Description, e.Debit, e.Credit)) =
        [ ("Repairs and Maintenanace", "Plumbing for Oak Street 12", "100.00", "0.00"),
          ("Repairs Payable", "Plumbing for Oak Street 12", "0.00", "100.00") ] := by
  obtain ⟨es, hes, hmid⟩ :=
    createJournalEntries_repairs emptyRowProperty (JSNumber.ofNat 1000) (JSNumber.ofNat 50)
      [(JSNumber.ofNat 100, "Plumbing")] rfl rfl (by decide)
  refine ⟨es, hes, ?_⟩
  rw [hmid]
  decide

/-! ## Dates and classes -/

theorem splitOn_of_not_mem (sep : Char) (a : List Char) (h : sep ∉ a) :
    splitOn sep a = [a] := by
  induction a with
  | nil => rfl
  | cons x xs ih =>
    have hx : x ≠ sep := fun hxs => h (hxs ▸ List.mem_cons_self _ _)
    have := ih (fun hm => h (List.mem_cons_of_mem _ hm))
    simp [splitOn, hx, this]

theorem splitOn_append_sep (sep : Char) (a rest : List Char) (h : sep ∉ a) :
    splitOn sep (a ++ sep :: rest) = a :: splitOn sep rest := by
  induction a with
  | nil => simp [splitOn]
  | cons x xs ih =>
    have hx : x ≠ sep := fun hxs => h (hxs ▸ List.mem_cons_self _ _)
    have := ih (fun hm => h (List.mem_cons_of_mem _ hm))
    simp [splitOn, hx, this]

theorem formatDate_iso (y m d : String) (hy : '-' ∉ y.toList) (hm : '-' ∉ m.toList)
    (hd : '-' ∉ d.toList) :
    formatDate (y ++ "-" ++ m ++ "-" ++ d) = m ++ "/" ++ d ++ "/" ++ y := by
  have h : (y ++ "-" ++ m ++ "-" ++ d).toList =
      y.toList ++ '-' :: (m.toList ++ '-' :: d.toList) := by
    simp [String.toList]
  unfold formatDate
  rw [h, splitOn_append_sep _ _ _ hy, splitOn_append_sep _ _ _ hm, splitOn_of_not_mem _ _ hd]
  simp [partOrUndefined]

/-- C8: for a property whose payment date is `y-m-d` (three dash-free parts, as in
the ISO form `YYYY-MM-DD`), every entry of `createJournalEntries` has the
property name as `Class` and `m/d/y` as `Date`. -/
theorem createJournalEntries_date_class (p : Property) (r c : JSNumber) (y m d : String)
    (hr : p.rent = .num r) (hc : p.convenienceFee = .num c)
    (he : ∀ e ∈ p.expenses, e.positive = true → e.amount.isNumber = true)
    (hy : '-' ∉ y.toList) (hm : '-' ∉ m.toList) (hd : '-' ∉ d.toList)
    (hdate : p.paymentDate = y ++ "-" ++ m ++ "-" ++ d) :
    ∃ es, createJournalEntries p = some es ∧
      ∀ e ∈ es, e.Class = p.name ∧ e.Date = m ++ "/" ++ d ++ "/" ++ y := by
  refine ⟨_, createJournalEntries_eq p r c hr hc he, ?_⟩
  have hfmt : formatDate p.paymentDate = m ++ "/" ++ d ++ "/" ++ y := by
    rw [hdate, formatDate_iso y m d hy hm hd]
  intro e hmem
  simp only [List.mem_append, List.mem_flatMap] at hmem
  rcases hmem with (hmem | ⟨x, _, hmem⟩) | hmem
  · simp only [baseEntries, List.mem_cons, List.mem_singleton, List.not_mem_nil,
      or_false] at hmem
    rcases hmem with h | h | h | h | h | h | h <;> subst h <;>
      exact ⟨rfl, hfmt⟩
  · simp only [expensePair, List.mem_cons, List.mem_singleton, List.not_mem_nil,
      or_false] at hmem
    rcases hmem with h | h <;> subst h <;> exact ⟨rfl, hfmt⟩
  · simp only [payoutEntries, List.mem_cons, List.mem_singleton, List.not_mem_nil,
      or_false] at hmem
    rcases hmem with h | h <;> subst h <;> exact ⟨rfl, hfmt⟩

/-- Witness of C8: the example property, paid on `2024-03-05`. -/
theorem createJournalEntries_date_class_witness :
    ∃ es, createJournalEntries exampleProperty = some es ∧
      ∀ e ∈ es, e.Class = exampleProperty.name ∧ e.Date = "03" ++ "/" ++ "05" ++ "/" ++ "2024" :=
  createJournalEntries_date_class exampleProperty (JSNumber.ofNat 1000) (JSNumber.ofNat 50)
    "2024" "03" "05" rfl rfl (by decide) (by decide) (by decide) (by decide) (by decide)

/-! ## Numeric coercion and the four calculations -/

/-- C4: `managementFee(p)` is `parseNumber(rent) * parseNumber(managementFeePercentage)
/ 100`, and replacing the convenience fee and the expense list leaves it unchanged. -/
theorem managementFee_formula (p : Property) (c : JSVal) (xs : List Expense) :
    calculations.managementFee p =
        JSNumber.div
          (JSNumber.mul (parseNumber p.rent) (parseNumber p.managementFeePercentage))
          (number "100") ∧
      calculations.managementFee { p with convenienceFee := c, expenses := xs } =
        calculations.managementFee p := by
  have h100 : number "100" = JSNumber.ofNat 100 := by decide
  rw [h100]
  exact ⟨rfl, rfl⟩

theorem parseNumber_ne_nan (value : JSVal) : parseNumber value ≠ .nan := by
  unfold parseNumber
  split
  · rename_i h
    intro hn
    rw [hn] at h
    exact Bool.noConfusion h
  · intro hn
    exact JSNumber.noConfusion hn

/-- C9: `parseNumber` is a total function that never returns `NaN`: when
`parseFloat` fails (gives `NaN`) the result is `0`, otherwise it is the parsed
value (`===` to it; the only change is that a parsed `-0` comes back as `0`);
the empty string and `undefined` give `0`. -/
theorem parseNumber_never_nan (value : JSVal) :
    parseNumber value ≠ .nan ∧
      ((parseFloat value = .nan ∧ parseNumber value = JSNumber.zero) ∨
        (parseFloat value ≠ .nan ∧
          (parseNumber value).strictEq (parseFloat value) = true ∧
          (parseNumber value = parseFloat value ∨
            (parseFloat value = .fin true 0 ∧ parseNumber value = JSNumber.zero)))) ∧
      parseNumber (.str "") = JSNumber.zero ∧
      parseNumber .undefined = JSNumber.zero := by
  refine ⟨parseNumber_ne_nan value, ?_, by decide, by decide⟩
  unfold parseNumber
  cases hpf : parseFloat value with
  | nan => left; simp [JSNumber.truthy]
  | inf s => right; simp [JSNumber.truthy, JSNumber.strictEq]
  | fin s m =>
    right
    by_cases hm : m = 0
    · subst hm
      cases s <;> simp [JSNumber.truthy, JSNumber.strictEq, JSNumber.zero]
    · simp [JSNumber.truthy, JSNumber.strictEq, hm]

theorem parseNumber_orZero (v : JSVal) : parseNumber v.orZero = parseNumber v := by
  unfold JSVal.orZero
  split
  · rename_i h
    have h0 : parseNumber (.num JSNumber.zero) = JSNumber.zero := by decide
    rw [h0]
    simp [parseNumber, h, JSNumber.truthy]
  · rfl

theorem sumExpenses_orZero (xs : List Expense) :
    sumExpenses (xs.map fun e => { e with amount := e.amount.orZero }) = sumExpenses xs := by
  unfold sumExpenses
  rw [List.foldl_map]
  simp only [parseNumber_orZero]

/-- C10: the four calculations are total functions of the record and read every
numeric field through `parseNumber`: replacing each field that does not parse
(an empty or non-numeric string, for instance) by `0` changes none of them. -/
theorem calculations_coerce_fields (p : Property) :
    calculations.totalRevenue p.orZero = calculations.totalRevenue p ∧
      calculations.managementFee p.orZero = calculations.managementFee p ∧
      calculations.totalExpenses p.orZero = calculations.totalExpenses p ∧
      calculations.ownerPayout p.orZero = calculations.ownerPayout p ∧
      (JSVal.str "").orZero = .num JSNumber.zero ∧
      (JSVal.str "abc").orZero = .num JSNumber.zero := by
  have hm : calculations.managementFee p.orZero = calculations.managementFee p := by
    simp [calculations.managementFee, Property.orZero, parseNumber_orZero]
  refine ⟨?_, hm, ?_, ?_, by decide, by decide⟩
  · simp [calculations.totalRevenue, Property.orZero, parseNumber_orZero]
  · unfold calculations.totalExpenses
    rw [hm]
    simp [Property.orZero, parseNumber_orZero, sumExpenses_orZero]
  · unfold calculations.ownerPayout
    rw [hm]
    simp [Property.orZero, parseNumber_orZero, sumExpenses_orZero]

/-! ## Binary64 arithmetic: rounding lemmas -/

namespace JSNumber

theorem bitLength_zero (fuel : Nat) : bitLength fuel 0 = 0 := by
  cases fuel <;> simp [bitLength]

theorem bitLength_bounds (fuel : Nat) : ∀ n, n ≤ fuel → n ≠ 0 →
    2 ^ (bitLength fuel n - 1) ≤ n ∧ n < 2 ^ bitLength fuel n := by
  induction fuel with
  | zero => intro n h hn; omega
  | succ fuel ih =>
    intro n h hn
    simp only [bitLength, hn, if_false]
    by_cases h2 : n / 2 = 0
    · rw [h2, bitLength_zero]
      have : n = 1 := by omega
      subst this
      simp
    · obtain ⟨hlo, hhi⟩ := ih (n / 2) (by omega) h2
      have hk : 1 ≤ bitLength fuel (n / 2) := by
        rcases Nat.eq_zero_or_pos (bitLength fuel (n / 2)) with h0 | h0
        · rw [h0] at hhi
          simp at hhi
          omega
        · exact h0
      have hpow : 2 ^ bitLength fuel (n / 2) = 2 * 2 ^ (bitLength fuel (n / 2) - 1) := by
        rw [← pow_succ']
        congr 1
        omega
      rw [Nat.add_sub_cancel, pow_succ]
      omega

/-- Bit length with the canonical fuel. -/
theorem lt_two_pow_bitLength (n : Nat) : n < 2 ^ bitLength n n := by
  by_cases hn : n = 0
  · subst hn; simp
  · exact (bitLength_bounds n n (le_refl _) hn).2

theorem two_pow_bitLength_le (n : Nat) (hn : n ≠ 0) : 2 ^ (bitLength n n - 1) ≤ n :=
  (bitLength_bounds n n (le_refl _) hn).1

theorem bitLength_le_of_lt (n k : Nat) (h : n < 2 ^ k) : bitLength n n ≤ k := by
  by_cases hn : n = 0
  · subst hn; simp [bitLength_zero]
  · have h1 := two_pow_bitLength_le n hn
    have h2 : 2 ^ (bitLength n n - 1) < 2 ^ k := lt_of_le_of_lt h1 h
    have := (Nat.pow_lt_pow_iff_right (by norm_num : 1 < 2)).1 h2
    omega

theorem lt_bitLength_of_le (n k : Nat) (h : 2 ^ k ≤ n) : k < bitLength n n := by
  have h2 : 2 ^ k < 2 ^ bitLength n n := lt_of_le_of_lt h (lt_two_pow_bitLength n)
  exact (Nat.pow_lt_pow_iff_right (by norm_num : 1 < 2)).1 h2

theorem div_spacing_lt (q : Nat) : q / 2 ^ spacing q < 2 ^ 53 := by
  rw [Nat.div_lt_iff_lt_mul (Nat.pos_pow_of_pos _ (by norm_num))]
  have h := lt_two_pow_bitLength q
  have hle : bitLength q q ≤ 53 + spacing q := by unfold spacing; omega
  calc q < 2 ^ bitLength q q := h
    _ ≤ 2 ^ (53 + spacing q) := Nat.pow_le_pow_right (by norm_num) hle
    _ = 2 ^ 53 * 2 ^ spacing q := by rw [pow_add]

theorem roundHalfEven_of_dvd (a b : Nat) (hb : 0 < b) (h : a % b = 0) :
    roundHalfEven a b = a / b := by
  simp [roundHalfEven, h, hb]

theorem roundHalfEven_ge (a b : Nat) : a / b ≤ roundHalfEven a b := by
  unfold roundHalfEven
  split_ifs <;> omega

theorem roundHalfEven_le (a b : Nat) : roundHalfEven a b ≤ a / b + 1 := by
  unfold roundHalfEven
  split_ifs <;> omega

theorem roundNat_of_representable (n : Nat) (h : Representable n) : roundNat n 1 = n := by
  unfold roundNat
  simp only [Nat.div_one, one_mul]
  rw [roundHalfEven_of_dvd _ _ (Nat.pos_pow_of_pos _ (by norm_num)) h.1]
  exact Nat.div_mul_cancel (Nat.dvd_of_mod_eq_zero h.1)

theorem roundNat_ne_zero (n : Nat) (hn : n ≠ 0) : roundNat n 1 ≠ 0 := by
  unfold roundNat
  simp only [Nat.div_one, one_mul]
  have hpos : 0 < 2 ^ spacing n := Nat.pos_pow_of_pos _ (by norm_num)
  have hle : 2 ^ spacing n ≤ n := by
    calc 2 ^ spacing n ≤ 2 ^ (bitLength n n - 1) :=
          Nat.pow_le_pow_right (by norm_num) (by unfold spacing; omega)
      _ ≤ n := two_pow_bitLength_le n hn
  have h1 : 1 ≤ n / 2 ^ spacing n := (Nat.one_le_div_iff hpos).2 hle
  have h2 := roundHalfEven_ge n (2 ^ spacing n)
  have h3 : 0 < roundHalfEven n (2 ^ spacing n) := by omega
  exact Nat.ne_of_gt (Nat.mul_pos h3 hpos)

theorem representable_mul_pow (h s : Nat) (hh : h ≤ 2 ^ 53) (hov : h * 2 ^ s < overflow) :
    Representable (h * 2 ^ s) := by
  refine ⟨?_, hov⟩
  apply Nat.mod_eq_zero_of_dvd
  rcases Nat.lt_or_ge h (2 ^ 53) with hlt | hge
  · have hlt' : h * 2 ^ s < 2 ^ (53 + s) := by
      rw [pow_add]
      exact Nat.mul_lt_mul_of_pos_right hlt (Nat.pos_pow_of_pos _ (by norm_num))
    have := bitLength_le_of_lt _ _ hlt'
    have hsp : spacing (h * 2 ^ s) ≤ s := by unfold spacing; omega
    exact Dvd.dvd.mul_left (Nat.pow_dvd_pow 2 hsp) h
  · have heq : h = 2 ^ 53 := le_antisymm hh hge
    subst heq
    rw [← pow_add]
    have hlt' : 2 ^ (53 + s) < 2 ^ (53 + s + 1) := Nat.pow_lt_pow_right (by norm_num) (by omega)
    have := bitLength_le_of_lt _ _ hlt'
    apply Nat.pow_dvd_pow
    unfold spacing
    omega

theorem roundNat_representable (a b : Nat) (hov : roundNat a b < overflow) :
    Representable (roundNat a b) := by
  unfold roundNat at hov ⊢
  apply representable_mul_pow _ _ _ hov
  have h1 := roundHalfEven_le a (b * 2 ^ spacing (a / b))
  have h2 : a / (b * 2 ^ spacing (a / b)) < 2 ^ 53 := by
    rw [← Nat.div_div_eq_div_mul]
    exact div_spacing_lt (a / b)
  omega

end JSNumber

namespace JSNumber

theorem signed_not (s : Bool) (m : Nat) : signed (!s) m = - signed s m := by
  cases s <;> simp [signed]

theorem add_fin (s : Bool) (m : Nat) (t : Bool) (n : Nat) :
    add (fin s m) (fin t n) = roundUnits (signed s m + signed t n) (s && t) := rfl

theorem roundUnits_congr (z z' : Int) (f f' : Bool) (hz : z = z') (hf : z = 0 → f = f') :
    roundUnits z f = roundUnits z' f' := by
  subst hz
  unfold roundUnits
  split
  · rename_i h
    rw [hf h]
  · rfl

theorem roundUnits_eq_fin (z : Int) (f u : Bool) (k : Nat) (h : roundUnits z f = fin u k) :
    (z = 0 ∧ u = f ∧ k = 0) ∨ (z ≠ 0 ∧ u = decide (z < 0) ∧ k ≠ 0) := by
  unfold roundUnits at h
  split at h
  · rename_i hz
    injection h with h1 h2
    exact Or.inl ⟨hz, h1.symm, h2.symm⟩
  · rename_i hz
    unfold ofRounded at h
    split at h
    · injection h with h1 h2
      refine Or.inr ⟨hz, h1.symm, ?_⟩
      rw [← h2]
      exact roundNat_ne_zero _ (by omega)
    · exact JSNumber.noConfusion h

theorem exactAdd_elim (x y : JSNumber) (h : exactAdd x y = true) :
    ∃ s m t n u k, x = fin s m ∧ y = fin t n ∧ add x y = fin u k ∧
      signed u k = signed s m + signed t n := by
  unfold exactAdd at h
  split at h
  · rename_i s m t n u k hadd
    exact ⟨s, m, t, n, u, k, rfl, rfl, hadd, by simpa using h⟩
  · exact Bool.noConfusion h

/-- With exact intermediate results, adding and then subtracting `c` cancels. -/
theorem sub_add_cancel_exact (r c f : JSNumber) (hr : r ≠ fin true 0) (hc : c ≠ fin true 0)
    (h1 : exactAdd r c = true) (h2 : exactSub (add r c) f = true) :
    sub (sub (add r c) f) c = sub r f := by
  obtain ⟨sr, mr, sc, mc, sa, ma, rfl, rfl, ha, hza⟩ := exactAdd_elim _ _ h1
  unfold exactSub at h2
  obtain ⟨sa', ma', sf', mf, sb, mb, ha', hf, hb, hzb⟩ := exactAdd_elim _ _ h2
  rw [ha] at ha'
  injection ha' with e1 e2
  subst e1 e2
  cases f with
  | nan => exact JSNumber.noConfusion hf
  | inf s => exact JSNumber.noConfusion hf
  | fin sf mf0 =>
    simp only [neg] at hf
    injection hf with e1 e2
    subst e1 e2
    have hb' : sub (add (fin sr mr) (fin sc mc)) (fin sf mf0) = fin sb mb := hb
    rw [hb']
    simp only [sub, neg, add_fin]
    rw [ha, neg, add_fin] at hb
    rw [add_fin] at ha
    have Fa := roundUnits_eq_fin _ _ _ _ ha
    have Fb := roundUnits_eq_fin _ _ _ _ hb
    have hr' : ¬ (sr = true ∧ mr = 0) := fun h => hr (by rw [h.1, h.2])
    have hc' : ¬ (sc = true ∧ mc = 0) := fun h => hc (by rw [h.1, h.2])
    rw [signed_not] at hzb Fb ⊢
    rw [signed_not]
    apply roundUnits_congr
    · omega
    · intro hz
      rw [hzb, hza] at hz
      clear ha hb hb' h1 h2 hr hc
      cases sr <;> cases sc <;> cases sf <;> cases sa <;> cases sb <;>
        simp only [signed, Bool.and_true, Bool.and_false, Bool.true_and, Bool.false_and,
          Bool.not_true, Bool.not_false, if_true, if_false, true_and, and_true, false_and,
          and_false, not_true_eq_false, not_false_eq_true, true_eq_decide_iff,
          false_eq_decide_iff, Bool.false_eq_true, Bool.true_eq_false, reduceCtorEq,
          ne_eq, or_false, false_or, not_and, not_lt] at * <;> omega

end JSNumber

namespace JSNumber

theorem natAbs_signed (s : Bool) (m : Nat) : (signed s m).natAbs = m := by
  cases s <;> simp [signed]

theorem roundUnits_signed (s : Bool) (m : Nat) (f : Bool) (hm : Representable m)
    (hf : m = 0 → f = s) : roundUnits (signed s m) f = fin s m := by
  unfold roundUnits
  by_cases h0 : m = 0
  · subst h0
    have : signed s 0 = 0 := by cases s <;> simp [signed]
    rw [if_pos this, hf rfl]
  · have hne : signed s m ≠ 0 := by
      cases s <;> simp [signed] <;> omega
    rw [if_neg hne, natAbs_signed]
    unfold ofRounded
    rw [roundNat_of_representable m hm, if_pos hm.2]
    congr 1
    cases s <;> (simp [signed]; try omega)

/-- With exact intermediate results, adding `f` and `c` to a double and then
subtracting them gives the double back. -/
theorem add_sub_cancel_exact (x f c : JSNumber) (hx : IsDouble x) (hx0 : x ≠ fin true 0)
    (hc : c ≠ fin true 0) (h1 : exactAdd x f = true) (h2 : exactAdd (add x f) c = true)
    (h3 : exactSub (add (add x f) c) f = true) :
    sub (sub (add (add x f) c) f) c = x := by
  obtain ⟨sx, mx, sf, mf, s1, m1, rfl, rfl, ht1, hz1⟩ := exactAdd_elim _ _ h1
  obtain ⟨s1', m1', sc, mc, st, mt, ht1', rfl, htot, hzt⟩ := exactAdd_elim _ _ h2
  rw [ht1] at ht1'
  injection ht1' with e1 e2
  subst e1 e2
  unfold exactSub at h3
  obtain ⟨st', mt', sf', mf', su, mu, htot', hf, hu, hzu⟩ := exactAdd_elim _ _ h3
  rw [htot] at htot'
  injection htot' with e1 e2
  subst e1 e2
  simp only [neg] at hf
  injection hf with e1 e2
  subst e1 e2
  have hu' : sub (add (add (fin sx mx) (fin sf mf)) (fin sc mc)) (fin sf mf) = fin su mu := hu
  rw [hu']
  simp only [sub, neg, add_fin]
  rw [htot, neg, add_fin] at hu
  rw [ht1, add_fin] at htot
  rw [add_fin] at ht1
  have F1 := roundUnits_eq_fin _ _ _ _ ht1
  have Ft := roundUnits_eq_fin _ _ _ _ htot
  have Fu := roundUnits_eq_fin _ _ _ _ hu
  have hx' : ¬ (sx = true ∧ mx = 0) := fun h => hx0 (by rw [h.1, h.2])
  have hc' : ¬ (sc = true ∧ mc = 0) := fun h => hc (by rw [h.1, h.2])
  rw [signed_not] at hzu Fu ⊢
  have hz : signed su mu + -signed sc mc = signed sx mx := by omega
  rw [hz]
  apply roundUnits_signed _ _ _ hx
  intro hm0
  clear ht1 htot hu hu' h1 h2 h3 hx0 hc hx
  subst hm0
  cases sx <;> cases sc <;> cases sf <;> cases s1 <;> cases st <;> cases su <;>
    simp only [signed, Bool.and_true, Bool.and_false, Bool.true_and, Bool.false_and,
      Bool.not_true, Bool.not_false, if_true, if_false, true_and, and_true, false_and,
      and_false, not_true_eq_false, not_false_eq_true, true_eq_decide_iff,
      false_eq_decide_iff, Bool.false_eq_true, Bool.true_eq_false, reduceCtorEq,
      ne_eq, or_false, false_or, not_and, not_lt] at * <;> omega

theorem add_ne_negZero (x y : JSNumber) (hx : x ≠ fin true 0) : add x y ≠ fin true 0 := by
  cases x with
  | nan => simp [add]
  | inf s =>
    cases y with
    | nan => simp [add]
    | inf t => simp only [add]; split <;> simp
    | fin t n => simp [add]
  | fin s m =>
    cases y with
    | nan => simp [add]
    | inf t => simp [add]
    | fin t n =>
      rw [add_fin]
      intro h
      have hx' : ¬ (s = true ∧ m = 0) := fun h => hx (by rw [h.1, h.2])
      rcases roundUnits_eq_fin _ _ _ _ h with ⟨hz, hu, _⟩ | ⟨_, _, hk⟩
      · cases s <;> cases t <;> (simp [signed] at *; try omega)
      · exact hk rfl

theorem representable_zero : Representable 0 := by decide

theorem isDouble_roundUnits (z : Int) (f : Bool) : IsDouble (roundUnits z f) := by
  unfold roundUnits
  split
  · exact representable_zero
  · unfold ofRounded
    split
    · rename_i h
      exact roundNat_representable _ _ h
    · trivial

theorem isDouble_add (x y : JSNumber) : IsDouble (add x y) := by
  cases x with
  | nan => simp [add, IsDouble]
  | inf s =>
    cases y with
    | nan => simp [add, IsDouble]
    | inf t =>
      simp only [add]
      split <;> simp [IsDouble]
    | fin t n => simp [add, IsDouble]
  | fin s m =>
    cases y with
    | nan => simp [add, IsDouble]
    | inf t => simp [add, IsDouble]
    | fin t n => exact isDouble_roundUnits _ _

end JSNumber

theorem foldl_add_invariant (xs : List Expense) (acc : JSNumber)
    (h1 : JSNumber.IsDouble acc) (h2 : acc ≠ .fin true 0) :
    JSNumber.IsDouble
        (xs.foldl (fun total exp => JSNumber.add total (parseNumber exp.amount)) acc) ∧
      xs.foldl (fun total exp => JSNumber.add total (parseNumber exp.amount)) acc ≠
        .fin true 0 := by
  induction xs generalizing acc with
  | nil => exact ⟨h1, h2⟩
  | cons e rest ih =>
    exact ih _ (JSNumber.isDouble_add _ _) (JSNumber.add_ne_negZero _ _ h2)

theorem sumExpenses_isDouble (xs : List Expense) :
    JSNumber.IsDouble (sumExpenses xs) ∧ sumExpenses xs ≠ .fin true 0 :=
  foldl_add_invariant xs JSNumber.zero JSNumber.representable_zero (by decide)

theorem parseNumber_ne_negZero (value : JSVal) : parseNumber value ≠ .fin true 0 := by
  unfold parseNumber
  split
  · rename_i h
    intro hn
    rw [hn] at h
    exact Bool.noConfusion h
  · decide


/-! ## Owner payout and total expenses -/

/-- Counterexample of C2: with rent `0.1` and convenience fee `0.2` the owner
payout is `0.10000000000000003`, while `rent - managementFee - sum` is `0.1`,
which is also the payout of the same property with convenience fee `0`. -/
theorem ownerPayout_not_cancelled :
    calculations.ownerPayout tenthsProperty = number "0.10000000000000003" ∧
      JSNumber.sub
          (JSNumber.sub (parseNumber tenthsProperty.rent)
            (calculations.managementFee tenthsProperty))
          (sumExpenses tenthsProperty.expenses) = number "0.1" ∧
      calculations.ownerPayout { tenthsProperty with convenienceFee := .num JSNumber.zero } =
        number "0.1" ∧
      number "0.10000000000000003" ≠ number "0.1" := by
  decide

/-- C2, amended: when the total revenue `rent + convenienceFee` and the
difference `totalRevenue - managementFee` are computed without rounding, the
owner payout is `rent - managementFee - sum of the expense amounts`, and it is
the same for every other convenience fee with that property. -/
theorem ownerPayout_exact (p : Property) (fee : JSVal)
    (h1 : (parseNumber p.rent).exactAdd (parseNumber p.convenienceFee) = true)
    (h2 : (calculations.totalRevenue p).exactSub (calculations.managementFee p) = true)
    (h3 : (parseNumber p.rent).exactAdd (parseNumber fee) = true)
    (h4 : (calculations.totalRevenue { p with convenienceFee := fee }).exactSub
      (calculations.managementFee p) = true) :
    calculations.ownerPayout p =
        JSNumber.sub (JSNumber.sub (parseNumber p.rent) (calculations.managementFee p))
          (sumExpenses p.expenses) ∧
      calculations.ownerPayout { p with convenienceFee := fee } =
        calculations.ownerPayout p := by
  have e1 := JSNumber.sub_add_cancel_exact (parseNumber p.rent) (parseNumber p.convenienceFee)
    (calculations.managementFee p) (parseNumber_ne_negZero _) (parseNumber_ne_negZero _) h1 h2
  have e2 := JSNumber.sub_add_cancel_exact (parseNumber p.rent) (parseNumber fee)
    (calculations.managementFee p) (parseNumber_ne_negZero _) (parseNumber_ne_negZero _) h3 h4
  have hp : calculations.ownerPayout p =
      JSNumber.sub (JSNumber.sub (parseNumber p.rent) (calculations.managementFee p))
        (sumExpenses p.expenses) := by
    unfold calculations.ownerPayout
    rw [e1]
  refine ⟨hp, ?_⟩
  rw [hp]
  show JSNumber.sub
      (JSNumber.sub
        (JSNumber.sub (JSNumber.add (parseNumber p.rent) (parseNumber fee))
          (calculations.managementFee p))
        (parseNumber fee))
      (sumExpenses p.expenses) = _
  rw [e2]

/-- Witness of C2, amended: the example property, and a convenience fee of 75
in place of 50; the payout is 800 either way. -/
theorem ownerPayout_exact_witness :
    calculations.ownerPayout exampleProperty =
        JSNumber.sub
          (JSNumber.sub (parseNumber exampleProperty.rent)
            (calculations.managementFee exampleProperty))
          (sumExpenses exampleProperty.expenses) ∧
      calculations.ownerPayout { exampleProperty with convenienceFee := .str "75" } =
        calculations.ownerPayout exampleProperty :=
  ownerPayout_exact exampleProperty (.str "75") (by decide) (by decide) (by decide)
    (by decide)

/-- Counterexample of C3: with one expense of `0.1` and convenience fee `0.2`,
`totalExpenses - managementFee - convenienceFee` is `0.10000000000000003`, and
the sum of the expense amounts is `0.1`. -/
theorem totalExpenses_not_recovered :
    JSNumber.sub
        (JSNumber.sub (calculations.totalExpenses repairProperty)
          (calculations.managementFee repairProperty))
        (parseNumber repairProperty.convenienceFee) = number "0.10000000000000003" ∧
      sumExpenses repairProperty.expenses = number "0.1" ∧
      number "0.10000000000000003" ≠ number "0.1" := by
  decide

/-- C3, amended: `totalExpenses(p)` is the sum of the coerced expense amounts
plus the management fee plus the convenience fee; when these two additions and
the subtraction of the management fee from the total are computed without
rounding, `totalExpenses - managementFee - convenienceFee` is exactly the sum of
the coerced amounts. -/
theorem totalExpenses_exact (p : Property)
    (h1 : (sumExpenses p.expenses).exactAdd (calculations.managementFee p) = true)
    (h2 : (JSNumber.add (sumExpenses p.expenses) (calculations.managementFee p)).exactAdd
      (parseNumber p.convenienceFee) = true)
    (h3 : (calculations.totalExpenses p).exactSub (calculations.managementFee p) = true) :
    calculations.totalExpenses p =
        JSNumber.add
          (JSNumber.add
            (p.expenses.foldl (fun total e => JSNumber.add total (parseNumber e.amount))
              (number "0"))
            (calculations.managementFee p))
          (parseNumber p.convenienceFee) ∧
      JSNumber.sub
          (JSNumber.sub (calculations.totalExpenses p) (calculations.managementFee p))
          (parseNumber p.convenienceFee) =
        p.expenses.foldl (fun total e => JSNumber.add total (parseNumber e.amount))
          (number "0") := by
  have h0 : number "0" = JSNumber.zero := by decide
  rw [h0]
  refine ⟨rfl, ?_⟩
  exact JSNumber.add_sub_cancel_exact (sumExpenses p.expenses) (calculations.managementFee p)
    (parseNumber p.convenienceFee) (sumExpenses_isDouble _).1 (sumExpenses_isDouble _).2
    (parseNumber_ne_negZero _) h1 h2 h3

/-- Witness of C3, amended: the example property, whose total expenses are 250. -/
theorem totalExpenses_exact_witness :
    calculations.totalExpenses exampleProperty = number "250" ∧
      JSNumber.sub
          (JSNumber.sub (calculations.totalExpenses exampleProperty)
            (calculations.managementFee exampleProperty))
          (parseNumber exampleProperty.convenienceFee) = number "100" := by
  have h := totalExpenses_exact exampleProperty (by decide) (by decide) (by decide)
  refine ⟨by decide, ?_⟩
  rw [h.2]
  decide

/-! ## Double-entry balance -/

theorem debitTotal_append (a b : List JournalEntry) :
    debitTotal (a ++ b) = debitTotal a + debitTotal b := by
  simp [debitTotal]

theorem creditTotal_append (a b : List JournalEntry) :
    creditTotal (a ++ b) = creditTotal a + creditTotal b := by
  simp [creditTotal]

theorem amountCents_zero : amountCents "0.00" = 0 := by decide

theorem totals_flatMap_expensePair (p : Property) (xs : List Expense) :
    debitTotal (xs.flatMap fun e => expensePair p e e.amount.fixedText) =
      creditTotal (xs.flatMap fun e => expensePair p e e.amount.fixedText) := by
  induction xs with
  | nil => rfl
  | cons e rest ih =>
    rw [List.flatMap_cons, debitTotal_append, creditTotal_append, ih]
    simp [debitTotal, creditTotal, expensePair, debitEntry, creditEntry, amountCents_zero]

theorem totals_payoutEntries (p : Property) :
    debitTotal (payoutEntries p) = creditTotal (payoutEntries p) := by
  simp [debitTotal, creditTotal, payoutEntries, debitEntry, creditEntry, amountCents_zero]

theorem totals_baseEntries (p : Property) (rent fee : String) :
    debitTotal (baseEntries p rent fee) - creditTotal (baseEntries p rent fee) =
      amountCents (calculations.totalRevenue p).toFixed2 - amountCents rent -
        amountCents fee := by
  simp only [debitTotal, creditTotal, baseEntries, debitEntry, creditEntry, List.map_cons,
    List.map_nil, List.sum_cons, List.sum_nil, amountCents_zero]
  omega

/-- Counterexample of C1: for rent `0.126` and convenience fee `0.126` the total
revenue `0.252` is written `0.25` while rent, fee and payout are each written
`0.13`: the entries carry the debits `0.25, 0.13, 0.13` and the credits
`0.13, 0.13, 0.13, 0.13` (besides `0.00`), so the debits add up to 0.51 and the
credits to 0.52. -/
theorem journal_not_balanced :
    ∃ es, createJournalEntries subCentProperty = some es ∧
      es.map (fun e => (e.Debit, e.Credit)) =
        [("0.25", "0.00"), ("0.00", "0.13"), ("0.00", "0.13"), ("0.00", "0.13"),
          ("0.13", "0.00"), ("0.00", "0.00"), ("0.00", "0.00"), ("0.13", "0.00"),
          ("0.00", "0.13")] ∧
      debitTotal es = 51 ∧ creditTotal es = 52 ∧ debitTotal es - creditTotal es ≠ 0 := by
  refine ⟨_, rfl, ?_, ?_, ?_, ?_⟩ <;> decide

/-- C1, amended: over the entries of `createJournalEntries(p)`, every debit
other than the first is matched by a credit of the same text, so the sum of the
debits minus the sum of the credits is the written total revenue minus the
written rent minus the written convenience fee; the journal balances exactly
when the rounded total revenue is the sum of the rounded rent and the rounded
convenience fee. -/
theorem journal_balance_residual (p : Property) (r c : JSNumber)
    (hr : p.rent = .num r) (hc : p.convenienceFee = .num c)
    (he : ∀ e ∈ p.expenses, e.positive = true → e.amount.isNumber = true) :
    ∃ es, createJournalEntries p = some es ∧
      debitTotal es - creditTotal es =
        amountCents (calculations.totalRevenue p).toFixed2 - amountCents r.toFixed2 -
          amountCents c.toFixed2 ∧
      (debitTotal es - creditTotal es = 0 ↔
        amountCents (calculations.totalRevenue p).toFixed2 =
          amountCents r.toFixed2 + amountCents c.toFixed2) := by
  refine ⟨_, createJournalEntries_eq p r c hr hc he, ?_⟩
  have hb := totals_baseEntries p r.toFixed2 c.toFixed2
  have hm := totals_flatMap_expensePair p (p.expenses.filter Expense.positive)
  have ho := totals_payoutEntries p
  simp only [debitTotal_append, creditTotal_append]
  constructor
  · omega
  · constructor <;> intro h <;> omega

/-- Witness of C1, amended: the example property, whose journal balances at
2100.00 on each side. -/
theorem journal_balance_residual_witness :
    ∃ es, createJournalEntries exampleProperty = some es ∧
      debitTotal es - creditTotal es = 0 ∧ debitTotal es = 210000 := by
  obtain ⟨es, hes, hnet, _⟩ :=
    journal_balance_residual exampleProperty (JSNumber.ofNat 1000) (JSNumber.ofNat 50)
      rfl rfl (by decide)
  refine ⟨es, hes, ?_, ?_⟩
  · rw [hnet]
    decide
  · have h : createJournalEntries exampleProperty = some es := hes
    have h2 : (createJournalEntries exampleProperty).map debitTotal = some 210000 := by decide
    rw [h] at h2
    simpa using h2

/-! ## State codec: the compact form -/

theorem plain_viaJSON (v : JSVal) (h : v.isPlainNumber = true) :
    (JSVal.num (parseNumber v)).viaJSON = v := by
  cases v with
  | num x =>
    cases x with
    | fin s m =>
      by_cases hm : m = 0
      · subst hm
        cases s
        · rfl
        · simp [JSVal.isPlainNumber] at h
      · cases m with
        | zero => exact absurd rfl hm
        | succ k => simp [parseNumber, parseFloat, JSNumber.truthy, JSVal.viaJSON]
    | nan => simp [JSVal.isPlainNumber] at h
    | inf s => simp [JSVal.isPlainNumber] at h
  | undefined => simp [JSVal.isPlainNumber] at h
  | null => simp [JSVal.isPlainNumber] at h
  | bool b => simp [JSVal.isPlainNumber] at h
  | str s => simp [JSVal.isPlainNumber] at h

theorem plain_isNumber (v : JSVal) (h : v.isPlainNumber = true) : ∃ x, v = .num x := by
  cases v <;> simp [JSVal.isPlainNumber] at h
  exact ⟨_, rfl⟩

theorem shareable_elim (p : Property) (h : p.shareable = true) :
    p.id.viaJSON = p.id ∧ p.rent.isPlainNumber = true ∧ p.convenienceFee.isPlainNumber = true ∧
      p.managementFeePercentage.isPlainNumber = true ∧
      ∀ e ∈ p.expenses, e.positive = true → e.amount.isPlainNumber = true := by
  simp only [Property.shareable, Bool.and_eq_true, beq_iff_eq, List.all_eq_true,
    Bool.or_eq_true, Bool.not_eq_true'] at h
  obtain ⟨⟨⟨⟨h1, h2⟩, h3⟩, h4⟩, h5⟩ := h
  refine ⟨h1, h2, h3, h4, ?_⟩
  intro e he hp
  rcases h5 e he with hn | hn
  · rw [hp] at hn
    exact Bool.noConfusion hn
  · exact hn

theorem loadedExpenses_compressed (xs : List Expense)
    (h : ∀ e ∈ xs, e.positive = true → e.amount.isPlainNumber = true) :
    (((compressedExpenses xs).map CompactExpense.viaJSON).map fun exp =>
        ({ amount := exp.a, description := exp.d } : Expense)) =
      xs.filter Expense.positive := by
  unfold compressedExpenses
  rw [List.map_map, List.map_map]
  have hfilter : (xs.filter fun exp => (parseNumber exp.amount).gtZero) =
      xs.filter Expense.positive := rfl
  rw [hfilter]
  conv_rhs => rw [← List.map_id (xs.filter Expense.positive)]
  apply List.map_congr_left
  intro e he
  obtain ⟨hmem, hpos⟩ := List.mem_filter.1 he
  have := plain_viaJSON e.amount (h e hmem hpos)
  simp [CompactExpense.viaJSON, this]

theorem loadedProperties_saved (properties : List Property)
    (h : ∀ p ∈ properties, p.shareable = true) :
    ∃ items, saveStateToURL properties = .json { p := .array items } ∧
      loadedProperties items = .ok (properties.map Property.withoutDropped) := by
  refine ⟨_, rfl, ?_⟩
  induction properties with
  | nil => rfl
  | cons p rest ih =>
    have ih' := ih (fun q hq => h q (List.mem_cons_of_mem _ hq))
    obtain ⟨h1, h2, h3, h4, h5⟩ := shareable_elim p (h p (List.mem_cons_self _ _))
    have hp : loadedProperty (CompactProperty.viaJSON
        { i := p.id, n := p.name, r := .num (parseNumber p.rent),
          c := .num (parseNumber p.convenienceFee),
          m := .num (parseNumber p.managementFeePercentage), d := p.paymentDate,
          e := .array (compressedExpenses p.expenses) }) = .ok p.withoutDropped := by
      simp only [loadedProperty, CompactProperty.viaJSON, plain_viaJSON _ h2,
        plain_viaJSON _ h3, plain_viaJSON _ h4, h1, loadedExpenses_compressed _ h5]
      rfl
    simp only [List.map_cons, loadedProperties, hp]
    simp only [List.map_map] at ih' ⊢
    rw [ih']

theorem formattable_elim (p : Property) (h : p.formattable = true) :
    (∃ r, p.rent = .num r) ∧ (∃ c, p.convenienceFee = .num c) ∧
      ∀ e ∈ p.expenses, e.positive = true → e.amount.isNumber = true := by
  simp only [Property.formattable, Bool.and_eq_true, List.all_eq_true, Bool.or_eq_true,
    Bool.not_eq_true'] at h
  obtain ⟨⟨h1, h2⟩, h3⟩ := h
  refine ⟨?_, ?_, ?_⟩
  · cases hr : p.rent <;> simp [hr, JSVal.isNumber] at h1
    exact ⟨_, rfl⟩
  · cases hc : p.convenienceFee <;> simp [hc, JSVal.isNumber] at h2
    exact ⟨_, rfl⟩
  · intro e he hp
    rcases h3 e he with hn | hn
    · rw [hp] at hn
      exact Bool.noConfusion hn
    · exact hn

theorem createJournalEntries_entriesOf (p : Property) (h : p.formattable = true) :
    createJournalEntries p = some (entriesOf p) := by
  obtain ⟨⟨r, hr⟩, ⟨c, hc⟩, he⟩ := formattable_elim p h
  have := createJournalEntries_eq p r c hr hc he
  simp [entriesOf, this]

theorem length_entriesOf (p : Property) (h : p.formattable = true) :
    (entriesOf p).length = 9 + 2 * (p.expenses.filter Expense.positive).length := by
  obtain ⟨⟨r, hr⟩, ⟨c, hc⟩, he⟩ := formattable_elim p h
  have := createJournalEntries_eq p r c hr hc he
  simp only [entriesOf, this, Option.getD_some, List.length_append,
    length_flatMap_expensePair]
  simp [baseEntries, payoutEntries]
  omega

theorem regenerateJournal_ok (properties : List Property)
    (h : ∀ p ∈ properties, p.formattable = true) :
    regenerateJournal properties = .ok (properties.flatMap entriesOf) := by
  induction properties with
  | nil => rfl
  | cons p rest ih =>
    have ih' := ih (fun q hq => h q (List.mem_cons_of_mem _ hq))
    simp [regenerateJournal, createJournalEntries_entriesOf p (h p (List.mem_cons_self _ _)),
      ih']

theorem regenerateJournal_error (properties : List Property) (thrown : Thrown)
    (h : regenerateJournal properties = .error thrown) : thrown = .typeError := by
  induction properties with
  | nil => simp [regenerateJournal] at h
  | cons p rest ih =>
    unfold regenerateJournal at h
    cases hp : createJournalEntries p with
    | none =>
      simp [hp] at h
      exact h.symm
    | some es =>
      cases hrest : regenerateJournal rest with
      | error t =>
        simp [hp, hrest] at h
        subst h
        exact ih hrest
      | ok more => simp [hp, hrest] at h

theorem regenerateJournal_ok_iff (properties : List Property) (entries : List JournalEntry) :
    regenerateJournal properties = .ok entries ↔
      (∀ p ∈ properties, (createJournalEntries p).isSome = true) ∧
        entries = properties.flatMap entriesOf := by
  induction properties generalizing entries with
  | nil =>
    simp [regenerateJournal]
  | cons p rest ih =>
    unfold regenerateJournal
    cases hp : createJournalEntries p with
    | none => simp [hp]
    | some es =>
      cases hrest : regenerateJournal rest with
      | error t =>
        have hno : ¬ ∀ q ∈ rest, (createJournalEntries q).isSome = true := by
          intro hall
          have := (ih (rest.flatMap entriesOf)).2 ⟨hall, rfl⟩
          rw [hrest] at this
          exact Except.noConfusion this
        simp [hp, hno]
      | ok more =>
        obtain ⟨hall, hmore⟩ := (ih more).1 hrest
        simp only [List.mem_cons, forall_eq_or_imp, hp, Option.isSome_some, true_and,
          List.flatMap_cons, entriesOf, Option.getD_some]
        constructor
        · intro h
          injection h with h
          refine ⟨hall, ?_⟩
          rw [← h, hmore]
        · rintro ⟨_, h⟩
          rw [h, hmore]

theorem withoutDropped_formattable (p : Property) (h : p.shareable = true) :
    p.withoutDropped.formattable = true := by
  obtain ⟨_, h2, h3, _, h5⟩ := shareable_elim p h
  obtain ⟨r, hr⟩ := plain_isNumber _ h2
  obtain ⟨c, hc⟩ := plain_isNumber _ h3
  simp only [Property.formattable, Property.withoutDropped, hr, hc, JSVal.isNumber,
    Bool.and_self, Bool.true_and, List.all_eq_true, Bool.or_eq_true, Bool.not_eq_true']
  intro e he
  obtain ⟨hmem, hpos⟩ := List.mem_filter.1 he
  obtain ⟨a, ha⟩ := plain_isNumber _ (h5 e hmem hpos)
  right
  rw [ha]

/-- Counterexample of C11: a rent typed as `Infinity` is the Number `Infinity`; the
compact form holds `null` in its place, and `loadStateFromURL` returns `null`
for the fragment that `saveStateToURL` stored. -/
theorem compact_round_trip_lost :
    infiniteRentProperty.rent = .num (.inf false) ∧
      saveStateToURL [infiniteRentProperty] =
        .json ⟨.array
          [{ i := infiniteRentProperty.id, n := "Unit 10", r := .null,
             c := .num JSNumber.zero, m := .num JSNumber.zero, d := "2024-03-05",
             e := .array [] }]⟩ ∧
      loadStateFromURL (saveStateToURL [infiniteRentProperty]) = none := by
  decide

/-- C11, amended: for every list of properties whose `id` survives JSON, whose
rent, convenience fee and management-fee percentage are finite Numbers, and
whose expenses with an amount above zero hold finite Numbers,
`loadStateFromURL` returns, for the fragment stored by `saveStateToURL`, the
same properties in the same order, each with its fields unchanged and with
exactly its expenses whose amount is above zero, in order. -/
theorem compact_round_trip (properties : List Property)
    (h : ∀ p ∈ properties, p.shareable = true) :
    ∃ state, loadStateFromURL (saveStateToURL properties) = some state ∧
      state.properties =
        properties.map fun p => { p with expenses := p.expenses.filter Expense.positive } := by
  obtain ⟨items, hsave, hload⟩ := loadedProperties_saved properties h
  have hform : ∀ q ∈ properties.map Property.withoutDropped, q.formattable = true := by
    intro q hq
    obtain ⟨p, hp, rfl⟩ := List.mem_map.1 hq
    exact withoutDropped_formattable p (h p hp)
  refine ⟨{ properties := properties.map Property.withoutDropped,
            journalEntries := (properties.map Property.withoutDropped).flatMap entriesOf },
    ?_, rfl⟩
  rw [hsave]
  simp [loadStateFromURL, loadStateBody, hload, regenerateJournal_ok _ hform]

/-- Witness of C11, amended: the example property and a property with a
zero-amount expense, which comes back without that expense. -/
theorem compact_round_trip_witness :
    ∃ state,
      loadStateFromURL (saveStateToURL
        [exampleProperty,
          { exampleProperty with
            expenses := [{ amount := .num JSNumber.zero, description := "None" }] }]) =
        some state ∧
      state.properties = [exampleProperty, { exampleProperty with expenses := [] }] := by
  obtain ⟨state, hload, hprops⟩ :=
    compact_round_trip
      [exampleProperty,
        { exampleProperty with
          expenses := [{ amount := .num JSNumber.zero, description := "None" }] }]
      (by decide)
  refine ⟨state, hload, ?_⟩
  rw [hprops]
  decide

namespace JSNumber

theorem add_zero_right (x : JSNumber) (hx : IsDouble x) (hx0 : x ≠ fin true 0) :
    add x zero = x := by
  cases x with
  | nan => rfl
  | inf s => rfl
  | fin s m =>
    have h0 : signed s m + signed false 0 = signed s m := by simp [signed]
    rw [zero, add_fin, h0]
    apply roundUnits_signed _ _ _ hx
    intro hm
    subst hm
    cases s
    · rfl
    · exact absurd rfl hx0

end JSNumber

theorem parseNumber_eq_zero (v : JSVal) (hpos : (parseNumber v).gtZero = false)
    (hneg : (parseNumber v).ltZero = false) : parseNumber v = JSNumber.zero := by
  have h1 := parseNumber_ne_nan v
  have h2 := parseNumber_ne_negZero v
  cases hx : parseNumber v with
  | nan => exact absurd hx h1
  | inf s =>
    rw [hx] at hpos hneg
    cases s <;> simp [JSNumber.gtZero, JSNumber.ltZero] at hpos hneg
  | fin s m =>
    rw [hx] at hpos hneg h2
    have hm : m = 0 := by
      cases s <;> simp [JSNumber.gtZero, JSNumber.ltZero] at hpos hneg <;> omega
    subst hm
    cases s
    · rfl
    · exact absurd rfl h2

theorem foldl_add_filter_positive (xs : List Expense) (acc : JSNumber)
    (h : ∀ e ∈ xs, (parseNumber e.amount).ltZero = false)
    (h1 : JSNumber.IsDouble acc) (h2 : acc ≠ .fin true 0) :
    (xs.filter Expense.positive).foldl
        (fun total exp => JSNumber.add total (parseNumber exp.amount)) acc =
      xs.foldl (fun total exp => JSNumber.add total (parseNumber exp.amount)) acc := by
  induction xs generalizing acc with
  | nil => rfl
  | cons e rest ih =>
    have hrest : ∀ x ∈ rest, (parseNumber x.amount).ltZero = false :=
      fun x hx => h x (List.mem_cons_of_mem _ hx)
    by_cases hp : e.positive = true
    · simp only [List.filter_cons, hp, if_true, List.foldl_cons]
      exact ih _ hrest (JSNumber.isDouble_add _ _) (JSNumber.add_ne_negZero _ _ h2)
    · have hp' : (parseNumber e.amount).gtZero = false := by
        simpa [Expense.positive] using hp
      have hz := parseNumber_eq_zero e.amount hp' (h e (List.mem_cons_self _ _))
      simp only [List.filter_cons, hp, if_false, List.foldl_cons, hz,
        JSNumber.add_zero_right acc h1 h2, Bool.false_eq_true]
      exact ih _ hrest h1 h2

theorem sumExpenses_filter_positive (xs : List Expense)
    (h : ∀ e ∈ xs, (parseNumber e.amount).ltZero = false) :
    sumExpenses (xs.filter Expense.positive) = sumExpenses xs :=
  foldl_add_filter_positive xs JSNumber.zero h JSNumber.representable_zero (by decide)

theorem entriesOf_withoutDropped (p : Property) (hs : p.shareable = true)
    (hn : p.noNegativeExpense = true) : entriesOf p.withoutDropped = entriesOf p := by
  obtain ⟨_, h2, h3, _, h5⟩ := shareable_elim p hs
  obtain ⟨r, hr⟩ := plain_isNumber _ h2
  obtain ⟨c, hc⟩ := plain_isNumber _ h3
  have he : ∀ e ∈ p.expenses, e.positive = true → e.amount.isNumber = true := by
    intro e hmem hpos
    obtain ⟨a, ha⟩ := plain_isNumber _ (h5 e hmem hpos)
    rw [ha]
    rfl
  have he' : ∀ e ∈ p.withoutDropped.expenses, e.positive = true → e.amount.isNumber = true :=
    fun e hmem hpos => he e (List.mem_filter.1 hmem).1 hpos
  have hneg : ∀ e ∈ p.expenses, (parseNumber e.amount).ltZero = false := by
    simp only [Property.noNegativeExpense, List.all_eq_true, Bool.not_eq_true'] at hn
    exact hn
  have hsum : sumExpenses (p.expenses.filter Expense.positive) = sumExpenses p.expenses :=
    sumExpenses_filter_positive _ hneg
  have hpay : payoutEntries p.withoutDropped = payoutEntries p := by
    have : calculations.ownerPayout p.withoutDropped = calculations.ownerPayout p := by
      simp only [calculations.ownerPayout, Property.withoutDropped, hsum]
      rfl
    simp only [payoutEntries, this]
    rfl
  have hfil : (p.expenses.filter Expense.positive).filter Expense.positive =
      p.expenses.filter Expense.positive := by
    rw [List.filter_filter]
    simp
  simp only [entriesOf, createJournalEntries_eq p r c hr hc he,
    createJournalEntries_eq p.withoutDropped r c hr hc he', Option.getD_some, hpay]
  have hmid : (p.withoutDropped.expenses.filter Expense.positive).flatMap
        (fun e => expensePair p.withoutDropped e e.amount.fixedText) =
      (p.expenses.filter Expense.positive).flatMap
        (fun e => expensePair p e e.amount.fixedText) := by
    simp only [Property.withoutDropped, hfil]
    rfl
  rw [hmid]
  rfl

/-- C13: the object `compressedData` built by `saveStateToURL` has the single
field `p`, an array with one element per property, in order, whose fields
`i, n, r, c, m, d` are the id, the name, the coerced rent, convenience fee and
management-fee percentage and the payment date, and whose field `e` is an array
with one element `{a, d}`, the coerced amount and the description, for each
expense whose coerced amount is above zero, in order; journal entries are no
part of it, and the stored fragment is this object sent through JSON. -/
theorem compressedData_fields (properties : List Property) :
    ∃ items, compressedData properties = { p := .array items } ∧
      List.Forall₂
        (fun (item : CompactProperty) (prop : Property) =>
          item.i = prop.id ∧ item.n = prop.name ∧ item.r = .num (parseNumber prop.rent) ∧
            item.c = .num (parseNumber prop.convenienceFee) ∧
            item.m = .num (parseNumber prop.managementFeePercentage) ∧
            item.d = prop.paymentDate ∧
            ∃ es, item.e = .array es ∧
              List.Forall₂
                (fun (x : CompactExpense) (exp : Expense) =>
                  x.a = .num (parseNumber exp.amount) ∧ x.d = exp.description)
                es (prop.expenses.filter fun exp => (parseNumber exp.amount).gtZero))
        items properties ∧
      saveStateToURL properties = .json { p := .array (items.map CompactProperty.viaJSON) } := by
  refine ⟨_, rfl, ?_, rfl⟩
  rw [List.forall₂_map_left_iff]
  apply List.forall₂_same.2
  intro prop _
  refine ⟨rfl, rfl, rfl, rfl, rfl, rfl, _, rfl, ?_⟩
  unfold compressedExpenses
  rw [List.forall₂_map_left_iff]
  exact List.forall₂_same.2 fun _ _ => ⟨rfl, rfl⟩

theorem wellFormed_elim (prop : CompactProperty) (h : prop.wellFormed = true) :
    ∃ p, loadedProperty prop = .ok p ∧ p.formattable = true := by
  unfold CompactProperty.wellFormed at h
  cases he : prop.e with
  | falsy => simp [he] at h
  | truthy => simp [he] at h
  | array exps =>
    simp only [he, Bool.and_eq_true, List.all_eq_true, Bool.or_eq_true,
      Bool.not_eq_true'] at h
    obtain ⟨⟨h1, h2⟩, h3⟩ := h
    refine ⟨_, by simp [loadedProperty, he]; rfl, ?_⟩
    simp only [Property.formattable, h1, h2, Bool.and_self, Bool.true_and, List.all_eq_true,
      List.mem_map, Bool.or_eq_true, Bool.not_eq_true', forall_exists_index, and_imp,
      forall_apply_eq_imp_iff₂]
    intro x hx
    exact h3 x hx

theorem loadedProperties_wellFormed (items : List CompactProperty)
    (h : ∀ prop ∈ items, prop.wellFormed = true) :
    ∃ properties, loadedProperties items = .ok properties ∧
      properties.length = items.length ∧ ∀ p ∈ properties, p.formattable = true := by
  induction items with
  | nil => exact ⟨[], rfl, rfl, by simp⟩
  | cons prop rest ih =>
    obtain ⟨more, hmore, hlen, hall⟩ := ih (fun q hq => h q (List.mem_cons_of_mem _ hq))
    obtain ⟨p, hp, hf⟩ := wellFormed_elim prop (h prop (List.mem_cons_self _ _))
    refine ⟨p :: more, by simp [loadedProperties, hp, hmore], by simp [hlen], ?_⟩
    intro q hq
    rcases List.mem_cons.1 hq with rfl | hq
    · exact hf
    · exact hall q hq

theorem length_flatMap_entriesOf (properties : List Property)
    (h : ∀ p ∈ properties, p.formattable = true) :
    (properties.flatMap entriesOf).length =
      (properties.map fun p => 9 + 2 * (p.expenses.filter Expense.positive).length).sum := by
  induction properties with
  | nil => rfl
  | cons p rest ih =>
    simp only [List.flatMap_cons, List.length_append, List.map_cons, List.sum_cons,
      ih (fun q hq => h q (List.mem_cons_of_mem _ hq)),
      length_entriesOf p (h p (List.mem_cons_self _ _))]

/-- C14: for a fragment whose document has an array `p` of well-formed elements,
`loadStateFromURL` returns a state whose properties are the decoded elements
and whose journal is the concatenation, in property order, of
`createJournalEntries(p)` over them; its length is the sum over the properties
of `9 + 2 * (number of expenses with a coerced amount above zero)`. -/
theorem loadStateFromURL_journal (items : List CompactProperty)
    (h : ∀ prop ∈ items, prop.wellFormed = true) :
    ∃ state entries,
      loadStateFromURL (.json { p := .array items }) = some state ∧
      loadedProperties items = .ok state.properties ∧
      state.properties.length = items.length ∧
      List.Forall₂ (fun p es => createJournalEntries p = some es) state.properties entries ∧
      state.journalEntries = entries.flatten ∧
      state.journalEntries.length =
        (state.properties.map fun p =>
          9 + 2 * (p.expenses.filter fun e => (parseNumber e.amount).gtZero).length).sum := by
  obtain ⟨properties, hload, hlen, hform⟩ := loadedProperties_wellFormed items h
  refine ⟨{ properties := properties, journalEntries := properties.flatMap entriesOf },
    properties.map entriesOf, ?_, hload, hlen, ?_, ?_, length_flatMap_entriesOf _ hform⟩
  · simp [loadStateFromURL, loadStateBody, hload, regenerateJournal_ok _ hform]
  · rw [List.forall₂_map_right_iff]
    exact List.forall₂_same.2 fun p hp => createJournalEntries_entriesOf p (hform p hp)
  · simp [List.flatMap, List.flatten]

/-- Witness of C14: the compact form of the example property, whose journal has
11 entries. -/
theorem loadStateFromURL_journal_witness :
    ∃ state entries,
      loadStateFromURL (.json { p := .array exampleItems }) = some state ∧
      loadedProperties exampleItems = .ok state.properties ∧
      state.properties.length = exampleItems.length ∧
      List.Forall₂ (fun p es => createJournalEntries p = some es) state.properties entries ∧
      state.journalEntries = entries.flatten ∧
      state.journalEntries.length =
        (state.properties.map fun p =>
          9 + 2 * (p.expenses.filter fun e => (parseNumber e.amount).gtZero).length).sum :=
  loadStateFromURL_journal exampleItems (by decide)

theorem loadedProperties_append_error (before after : List CompactProperty)
    (prop : CompactProperty) (h : prop.e.isArray = false) :
    ∃ thrown, loadedProperties (before ++ prop :: after) = .error thrown := by
  have hprop : loadedProperty prop = .error .typeError := by
    unfold loadedProperty
    cases he : prop.e with
    | array items => simp [he, ArrayField.isArray] at h
    | falsy => rfl
    | truthy => rfl
  induction before with
  | nil => exact ⟨.typeError, by simp [loadedProperties, hprop]⟩
  | cons q rest ih =>
    obtain ⟨t, ht⟩ := ih
    rw [List.cons_append, loadedProperties, ht]
    cases loadedProperty q with
    | error t' => exact ⟨t', rfl⟩
    | ok a => exact ⟨t, rfl⟩

/-- C15: `loadStateFromURL` is a total function: whatever its `try` block throws
is caught and `null` is returned.  It returns `null` for a fragment of at most
one character, for a fragment that is not percent-encoded JSON, for a document
whose `p` is not an array, and for a document with an element of `p` whose `e`
is not an array; it returns a state exactly when `p` is an array, every element
decodes and `createJournalEntries` returns for every decoded property. -/
theorem loadStateFromURL_null (hash : Fragment) (state : AppState)
    (before after : List CompactProperty) (prop : CompactProperty) :
    loadStateFromURL .empty = none ∧
      loadStateFromURL .malformed = none ∧
      loadStateFromURL (.json { p := .falsy }) = none ∧
      loadStateFromURL (.json { p := .truthy }) = none ∧
      loadStateFromURL (.json { p := .array (before ++ { prop with e := .falsy } :: after) }) =
        none ∧
      loadStateFromURL (.json { p := .array (before ++ { prop with e := .truthy } :: after) }) =
        none ∧
      ((loadStateFromURL hash = none ∧ ∃ thrown, loadStateBody hash = .error thrown) ∨
        loadStateBody hash = .ok (loadStateFromURL hash)) ∧
      (loadStateFromURL hash = some state ↔
        ∃ items, hash = .json { p := .array items } ∧
          loadedProperties items = .ok state.properties ∧
          (∀ p ∈ state.properties, (createJournalEntries p).isSome = true) ∧
          state.journalEntries =
            state.properties.flatMap fun p => (createJournalEntries p).getD []) := by
  refine ⟨rfl, rfl, rfl, rfl, ?_, ?_, ?_, ?_⟩
  · obtain ⟨t, ht⟩ := loadedProperties_append_error before after { prop with e := .falsy } rfl
    simp [loadStateFromURL, loadStateBody, ht]
  · obtain ⟨t, ht⟩ := loadedProperties_append_error before after { prop with e := .truthy } rfl
    simp [loadStateFromURL, loadStateBody, ht]
  · unfold loadStateFromURL
    cases loadStateBody hash with
    | error t => exact Or.inl ⟨rfl, t, rfl⟩
    | ok r => exact Or.inr rfl
  · constructor
    · intro h
      unfold loadStateFromURL loadStateBody at h
      cases hash with
      | empty => simp at h
      | malformed => simp at h
      | json data =>
        obtain ⟨p⟩ := data
        cases p with
        | falsy => simp at h
        | truthy => simp at h
        | array items =>
          refine ⟨items, rfl, ?_⟩
          simp only at h
          cases hl : loadedProperties items with
          | error t => simp [hl] at h
          | ok properties =>
            cases hr : regenerateJournal properties with
            | error t => simp [hl, hr] at h
            | ok entries =>
              simp only [hl, hr, Option.some.injEq] at h
              subst h
              exact ⟨rfl, (regenerateJournal_ok_iff _ _).1 hr⟩
    · rintro ⟨items, rfl, hl, hall, hj⟩
      have hr := (regenerateJournal_ok_iff state.properties state.journalEntries).2 ⟨hall, hj⟩
      simp [loadStateFromURL, loadStateBody, hl, hr]

/-! ## State codec: the export file -/

/-- Evaluation for C16: importing a file whose only property has the rent
`"1000"` as a text, and no `journalEntries`, fails (`createJournalEntries`
throws, a failure is reported), yet the property list has been replaced by the
imported one, while the journal is still the old one. -/
theorem import_failure_keeps_new_properties :
    (importDatabase exampleState textRentFile).alert =
        "Failed to import database. Invalid file format." ∧
      (importDatabase exampleState textRentFile).logged = some .typeError ∧
      (importDatabase exampleState textRentFile).state.properties = [textRentProperty] ∧
      (importDatabase exampleState textRentFile).state.properties ≠ exampleState.properties ∧
      (importDatabase exampleState textRentFile).state.journalEntries =
        exampleState.journalEntries := by
  decide

/-- Counterexample to C17: the file holds the JSON text `null`, a value without
a field `properties`; reading the field throws a `TypeError`, which is the
error that is caught, not `Invalid database format`; the failure is reported and
the two lists are left as they were. -/
theorem importDatabase_null_file :
    (importDatabase exampleState .null).logged = some .typeError ∧
    (importDatabase exampleState .null).logged ≠ some (.error "Invalid database format") ∧
    (importDatabase exampleState .null).alert =
      "Failed to import database. Invalid file format." ∧
    (importDatabase exampleState .null).state = exampleState := by
  decide

/-- C17, amended: the import fails with the error `Invalid database format`
exactly when `JSON.parse` returned a value other than `null` whose `properties`
is not an array, be it absent, falsy or any other non-array, and then a failure
is reported and the two lists are left as they were; for the text `null` the
error is a `TypeError`, with the same report and the two lists as they were. -/
theorem importDatabase_invalid_format (state : AppState) (file : FileContent) :
    ((importDatabase state file).logged = some (.error "Invalid database format") ↔
        ∃ importedData, file = .data importedData ∧
          importedData.properties.isArray = false) ∧
      ((importDatabase state file).logged ≠ some (.error "Invalid database format") ∨
        ((importDatabase state file).state = state ∧
          (importDatabase state file).alert =
            "Failed to import database. Invalid file format.")) ∧
      ((importDatabase state .null).logged = some .typeError ∧
        (importDatabase state .null).state = state ∧
        (importDatabase state .null).alert =
          "Failed to import database. Invalid file format.") := by
  refine ⟨?_, ?_, rfl, rfl, rfl⟩ <;>
  cases file with
  | malformed => simp [importDatabase, importFailed]
  | null => simp [importDatabase, importFailed]
  | data d =>
    obtain ⟨props, journal⟩ := d
    cases props with
    | falsy => simp [importDatabase, importFailed, ArrayField.isArray]
    | truthy => simp [importDatabase, importFailed, ArrayField.isArray]
    | array properties =>
      have hne : ∀ thrown, regenerateJournal properties = .error thrown →
          thrown ≠ .error "Invalid database format" := by
        intro thrown h
        rw [regenerateJournal_error _ _ h]
        decide
      cases journal with
      | array entries => simp [importDatabase, ArrayField.isArray]
      | falsy =>
        cases hr : regenerateJournal properties with
        | ok new => simp [importDatabase, hr, ArrayField.isArray]
        | error t => simp [importDatabase, hr, importFailed, ArrayField.isArray, hne t hr]
      | truthy =>
        cases hr : regenerateJournal properties with
        | ok new => simp [importDatabase, hr, ArrayField.isArray]
        | error t => simp [importDatabase, hr, importFailed, ArrayField.isArray, hne t hr]

/-- An import that fails after the validation: the file holds a `properties` array, whose only
property has the rent `"1000"` as a text, and no `journalEntries`;
`createJournalEntries` throws for that property, so the journal is not
regenerated (it stays the old one), an error is raised and a failure is
reported. -/
theorem import_regeneration_throws :
    textRentFile =
        .data { properties := .array [textRentProperty], journalEntries := .falsy } ∧
      createJournalEntries textRentProperty = none ∧
      (importDatabase exampleState textRentFile).state.journalEntries =
        exampleState.journalEntries ∧
      (importDatabase exampleState textRentFile).logged = some .typeError ∧
      (importDatabase exampleState textRentFile).alert =
        "Failed to import database. Invalid file format." := by
  decide

/-- The outcome for a file with a `properties` array: either the import
succeeds (no error is caught, success is reported, the new property list is that
array and the new journal is the imported `journalEntries` if that is an array,
and otherwise the concatenation of `createJournalEntries(p)` over the imported
properties in order, which requires that it returns for each of them), or
`journalEntries` is not an array and `createJournalEntries` throws for some
imported property, and then the `TypeError` is caught, a failure is reported and
the journal is left as it was. -/
theorem importDatabase_valid (state : AppState) (properties : List Property)
    (journal : ArrayField JournalEntry) :
    (∃ entries,
        (journal = .array entries ∨
          (journal.isArray = false ∧
            (∀ p ∈ properties, (createJournalEntries p).isSome = true) ∧
            entries = properties.flatMap fun p => (createJournalEntries p).getD [])) ∧
        (importDatabase state
          (.data { properties := .array properties, journalEntries := journal })).state =
            { properties := properties, journalEntries := entries } ∧
        (importDatabase state
          (.data { properties := .array properties, journalEntries := journal })).logged =
            none ∧
        (importDatabase state
          (.data { properties := .array properties, journalEntries := journal })).alert =
            "Database imported successfully!") ∨
      (journal.isArray = false ∧ (∃ p ∈ properties, createJournalEntries p = none) ∧
        (importDatabase state
          (.data { properties := .array properties, journalEntries := journal })).logged =
            some .typeError ∧
        (importDatabase state
          (.data { properties := .array properties, journalEntries := journal })).alert =
            "Failed to import database. Invalid file format." ∧
        (importDatabase state
          (.data { properties := .array properties,
                   journalEntries := journal })).state.journalEntries =
            state.journalEntries) := by
  have hcase : ∀ j : ArrayField JournalEntry, j.isArray = false →
      (importDatabase state (.data { properties := .array properties, journalEntries := j })) =
        match regenerateJournal properties with
        | .ok new =>
          { state := { properties := properties, journalEntries := new }
            logged := none
            alert := "Database imported successfully!"
            timer := some (importTimer properties j) }
        | .error thrown =>
          importFailed { properties := properties, journalEntries := state.journalEntries }
            thrown := by
    intro j hj
    cases j with
    | array entries => simp [ArrayField.isArray] at hj
    | falsy => rfl
    | truthy => rfl
  cases hj : journal.isArray with
  | true =>
    cases journal with
    | array entries => exact Or.inl ⟨entries, Or.inl rfl, rfl, rfl, rfl⟩
    | falsy => simp [ArrayField.isArray] at hj
    | truthy => simp [ArrayField.isArray] at hj
  | false =>
    rw [hcase journal hj]
    cases hr : regenerateJournal properties with
    | ok new =>
      obtain ⟨hall, hnew⟩ := (regenerateJournal_ok_iff _ _).1 hr
      exact Or.inl ⟨new, Or.inr ⟨rfl, hall, hnew⟩, rfl, rfl, rfl⟩
    | error t =>
      have ht := regenerateJournal_error _ _ hr
      subst ht
      refine Or.inr ⟨rfl, ?_, rfl, rfl, rfl⟩
      by_contra hno
      have hall : ∀ p ∈ properties, (createJournalEntries p).isSome = true := by
        intro p hp
        cases hc : createJournalEntries p with
        | none => exact absurd ⟨p, hp, hc⟩ hno
        | some es => rfl
      have := (regenerateJournal_ok_iff properties _).2 ⟨hall, rfl⟩
      rw [hr] at this
      exact Except.noConfusion this

theorem exported_viaJSON (p : Property) (h : p.exportable = true) :
    Property.viaJSON
        { id := p.id
          name := p.name
          paymentDate := p.paymentDate
          rent := .num (parseNumber p.rent)
          convenienceFee := .num (parseNumber p.convenienceFee)
          managementFeePercentage := .num (parseNumber p.managementFeePercentage)
          expenses := p.expenses.map fun exp =>
            { description := exp.description, amount := .num (parseNumber exp.amount) } } =
      p := by
  simp only [Property.exportable, Bool.and_eq_true, beq_iff_eq, List.all_eq_true] at h
  obtain ⟨⟨⟨⟨h1, h2⟩, h3⟩, h4⟩, h5⟩ := h
  have hexp : (p.expenses.map fun exp =>
        ({ description := exp.description, amount := .num (parseNumber exp.amount) } :
          Expense)).map (fun exp => { exp with amount := exp.amount.viaJSON }) =
      p.expenses := by
    rw [List.map_map]
    conv_rhs => rw [← List.map_id p.expenses]
    apply List.map_congr_left
    intro e he
    simp [plain_viaJSON _ (h5 e he)]
  simp only [Property.viaJSON, h1, plain_viaJSON _ h2, plain_viaJSON _ h3,
    plain_viaJSON _ h4, hexp]

/-- Counterexample of C19: a state whose property has the rent `Infinity` is
exported with the rent `null`, so the imported property differs from the
original one. -/
theorem verbose_round_trip_lost :
    infiniteRentProperty.rent = .num (.inf false) ∧
      (importDatabase { properties := [], journalEntries := [] }
        (exportDatabase
          { properties := [infiniteRentProperty],
            journalEntries := [] })).state.properties =
        [{ infiniteRentProperty with rent := .null }] ∧
      (importDatabase { properties := [], journalEntries := [] }
        (exportDatabase
          { properties := [infiniteRentProperty],
            journalEntries := [] })).state.properties ≠ [infiniteRentProperty] := by
  decide

/-- C19, amended: for every state whose properties have an `id` that survives
JSON and finite Numbers for rent, convenience fee, management-fee percentage
and every expense amount, importing the file written by `exportDatabase`
succeeds and yields that state: the same properties in the same order with the
same fields and the same expenses, zero-amount ones included, and the same
journal. -/
theorem verbose_round_trip (state previous : AppState)
    (h : ∀ p ∈ state.properties, p.exportable = true) :
    (importDatabase previous (exportDatabase state)).state = state ∧
      (importDatabase previous (exportDatabase state)).logged = none ∧
      (importDatabase previous (exportDatabase state)).alert =
        "Database imported successfully!" := by
  have hprops : ((state.properties.map fun prop =>
        ({ id := prop.id
           name := prop.name
           paymentDate := prop.paymentDate
           rent := .num (parseNumber prop.rent)
           convenienceFee := .num (parseNumber prop.convenienceFee)
           managementFeePercentage := .num (parseNumber prop.managementFeePercentage)
           expenses := prop.expenses.map fun exp =>
             { description := exp.description, amount := .num (parseNumber exp.amount) } } :
          Property)).map Property.viaJSON) = state.properties := by
    rw [List.map_map]
    conv_rhs => rw [← List.map_id state.properties]
    apply List.map_congr_left
    intro p hp
    exact exported_viaJSON p (h p hp)
  have hexport : exportDatabase state =
      .data { properties := .array state.properties,
              journalEntries := .array state.journalEntries } := by
    simp only [exportDatabase, exportData, hprops]
  rw [hexport]
  exact ⟨rfl, rfl, rfl⟩

/-- Witness of C19, amended: a state with the example property and a copy of it
with a zero-amount expense, imported over an empty state. -/
theorem verbose_round_trip_witness :
    (importDatabase { properties := [], journalEntries := [] }
        (exportDatabase
          { properties :=
              [exampleProperty,
                { exampleProperty with
                  expenses := [{ amount := .num JSNumber.zero, description := "None" }] }]
            journalEntries := entriesOf exampleProperty })).state =
        { properties :=
            [exampleProperty,
              { exampleProperty with
                expenses := [{ amount := .num JSNumber.zero, description := "None" }] }]
          journalEntries := entriesOf exampleProperty } ∧
      (importDatabase { properties := [], journalEntries := [] }
        (exportDatabase
          { properties :=
              [exampleProperty,
                { exampleProperty with
                  expenses := [{ amount := .num JSNumber.zero, description := "None" }] }]
            journalEntries := entriesOf exampleProperty })).logged = none ∧
      (importDatabase { properties := [], journalEntries := [] }
        (exportDatabase
          { properties :=
              [exampleProperty,
                { exampleProperty with
                  expenses := [{ amount := .num JSNumber.zero, description := "None" }] }]
            journalEntries := entriesOf exampleProperty })).alert =
        "Database imported successfully!" :=
  verbose_round_trip _ _ (by decide)

/-! ## CSV export -/

theorem intercalate_csvCells (entry : JournalEntry) :
    ",".intercalate (csvCells entry) =
      generateJournalNo entry.Date ++ "," ++ entry.Date ++ "," ++ entry.Account ++ "," ++
        entry.Description ++ "," ++
        (if (number entry.Debit).gtZero then entry.Debit else "") ++ "," ++
        (if (number entry.Credit).gtZero then entry.Credit else "") ++ "," ++ entry.Class := by
  simp [csvCells, String.intercalate, String.intercalate.go, parseFloat, number]

/-- On a journal of entries with six texts, the text built by `generateCSV` is the header row
`Journal No.,Journal Date,Account,Description,Debits,Credits,Class` followed,
one line each and in journal order, by a row for every entry whose Debit or
Credit parses to a Number above zero, and by nothing else; the number of data
rows is the number of such entries, and in a row the side that is not above
zero is written as the empty text. -/
theorem generateCSV_rows (journalEntries : List JournalEntry) :
    generateCSV journalEntries =
        "\n".intercalate
          ("Journal No.,Journal Date,Account,Description,Debits,Credits,Class" ::
            (journalEntries.filter fun e =>
              (number e.Debit).gtZero || (number e.Credit).gtZero).map fun e =>
              generateJournalNo e.Date ++ "," ++ e.Date ++ "," ++ e.Account ++ "," ++
                e.Description ++ "," ++
                (if (number e.Debit).gtZero then e.Debit else "") ++ "," ++
                (if (number e.Credit).gtZero then e.Credit else "") ++ "," ++ e.Class) ∧
      ((journalEntries.filter fun e =>
          (number e.Debit).gtZero || (number e.Credit).gtZero).map fun e =>
          generateJournalNo e.Date ++ "," ++ e.Date ++ "," ++ e.Account ++ "," ++
            e.Description ++ "," ++
            (if (number e.Debit).gtZero then e.Debit else "") ++ "," ++
            (if (number e.Credit).gtZero then e.Credit else "") ++ "," ++ e.Class).length =
        journalEntries.countP fun e =>
          (number e.Debit).gtZero || (number e.Credit).gtZero := by
  constructor
  · have hhead : ",".intercalate headers =
        "Journal No.,Journal Date,Account,Description,Debits,Credits,Class" := by decide
    have hfilter : csvEntries journalEntries =
        journalEntries.filter fun e =>
          (number e.Debit).gtZero || (number e.Credit).gtZero := rfl
    unfold generateCSV
    have hrow : ((fun row => ",".intercalate row) ∘ csvCells) = fun e =>
        generateJournalNo e.Date ++ "," ++ e.Date ++ "," ++ e.Account ++ "," ++
          e.Description ++ "," ++
          (if (number e.Debit).gtZero then e.Debit else "") ++ "," ++
          (if (number e.Credit).gtZero then e.Credit else "") ++ "," ++ e.Class :=
      funext intercalate_csvCells
    rw [List.map_cons, hhead, List.map_map, hfilter, hrow]
  · rw [List.length_map, List.countP_eq_length_filter]

/-! ## Entries of one property -/

theorem includes_append (front part : String) : includes (front ++ part) part = true := by
  have happ : (front ++ part).toList = front.toList ++ part.toList := by
    simp [String.toList]
  simp only [includes, List.any_eq_true, happ]
  refine ⟨part.toList, ?_, ?_⟩
  · rw [List.mem_tails]
    exact List.suffix_append _ _
  · simp

theorem expenseEntries_mem (p : Property) (xs : List Expense) (rs : List JournalEntry)
    (h : expenseEntries p xs = some rs) :
    ∀ entry ∈ rs, entry.Class = p.name ∧ entry.Date = formatDate p.paymentDate ∧
      ∃ front, entry.Description = front ++ p.name := by
  induction xs generalizing rs with
  | nil =>
    simp only [expenseEntries, Option.some.injEq] at h
    subst h
    simp
  | cons x rest ih =>
    simp only [expenseEntries] at h
    split at h
    · split at h
      · rename_i amount more _ hmore
        simp only [Option.some.injEq] at h
        subst h
        intro entry hmem
        rcases List.mem_append.1 hmem with hmem | hmem
        · simp only [expensePair, List.mem_cons, List.mem_singleton, List.not_mem_nil,
            or_false] at hmem
          rcases hmem with h | h <;> subst h <;>
            exact ⟨rfl, rfl, x.description ++ " for ", rfl⟩
        · exact ih more hmore entry hmem
      · simp at h
    · exact ih rs h

theorem createJournalEntries_mem (p : Property) (es : List JournalEntry)
    (h : createJournalEntries p = some es) :
    ∀ entry ∈ es, entry.Class = p.name ∧ entry.Date = formatDate p.paymentDate ∧
      ∃ front, entry.Description = front ++ p.name := by
  simp only [createJournalEntries] at h
  split at h
  · rename_i rent fee repairs _ _ hrep
    simp only [Option.some.injEq] at h
    subst h
    intro entry hmem
    simp only [List.mem_append] at hmem
    rcases hmem with (hmem | hmem) | hmem
    · simp only [baseEntries, List.mem_cons, List.mem_singleton, List.not_mem_nil,
        or_false] at hmem
      rcases hmem with h | h | h | h | h | h | h <;> subst h
      · exact ⟨rfl, rfl, "Total Collected for ", rfl⟩
      · exact ⟨rfl, rfl, "Rent for ", rfl⟩
      · exact ⟨rfl, rfl, "Convenience Fee for ", rfl⟩
      · exact ⟨rfl, rfl, "Convenience Fee for ", rfl⟩
      · exact ⟨rfl, rfl, "Convenience Fee for ", rfl⟩
      · exact ⟨rfl, rfl, "Management Fee for ", rfl⟩
      · exact ⟨rfl, rfl, "Management Fee for ", rfl⟩
    · exact expenseEntries_mem p p.expenses repairs hrep entry hmem
    · simp only [payoutEntries, List.mem_cons, List.mem_singleton, List.not_mem_nil,
        or_false] at hmem
      rcases hmem with h | h <;> subst h <;>
        exact ⟨rfl, rfl, "Owner Payout for ", rfl⟩
  · simp at h

theorem entriesOf_mem (p : Property) :
    ∀ entry ∈ entriesOf p, entry.Class = p.name ∧ entry.Date = formatDate p.paymentDate ∧
      includes entry.Description p.name = true := by
  intro entry hmem
  cases h : createJournalEntries p with
  | none => simp [entriesOf, h] at hmem
  | some es =>
    simp only [entriesOf, h, Option.getD_some] at hmem
    obtain ⟨h1, h2, front, h3⟩ := createJournalEntries_mem p es h entry hmem
    exact ⟨h1, h2, by rw [h3]; exact includes_append _ _⟩

/-! ## Journal numbers -/

theorem generateJournalNo_slashes (month day year : String) (hm : '/' ∉ month.toList)
    (hd : '/' ∉ day.toList) (hy : '/' ∉ year.toList) :
    generateJournalNo (month ++ "/" ++ day ++ "/" ++ year) = year ++ month ++ day ++ "Rent" := by
  have h : (month ++ "/" ++ day ++ "/" ++ year).toList =
      month.toList ++ '/' :: (day.toList ++ '/' :: year.toList) := by
    simp [String.toList]
  unfold generateJournalNo
  rw [h, splitOn_append_sep _ _ _ hm, splitOn_append_sep _ _ _ hd, splitOn_of_not_mem _ _ hy]
  simp [partOrUndefined]

/-- C21: for three slash-free texts `month`, `day` and `year`, the first cell
that `generateCSV` writes for an entry dated `month/day/year` is `year`, `month`,
`day` and `Rent` in a row; and when the three texts are dash-free as well, that
is the first cell of every entry that `createJournalEntries` returns for a
property paid on `year-month-day`. -/
theorem csvCells_journalNo (month day year : String) (hm : '/' ∉ month.toList)
    (hd : '/' ∉ day.toList) (hy : '/' ∉ year.toList) :
    (∀ entry : JournalEntry, entry.Date = month ++ "/" ++ day ++ "/" ++ year →
      (csvCells entry).head? = some (year ++ month ++ day ++ "Rent")) ∧
    (∀ (p : Property) (entries : List JournalEntry),
      '-' ∉ month.toList → '-' ∉ day.toList → '-' ∉ year.toList →
      p.paymentDate = year ++ "-" ++ month ++ "-" ++ day →
      createJournalEntries p = some entries →
      ∀ entry ∈ entries, (csvCells entry).head? = some (year ++ month ++ day ++ "Rent")) := by
  have hno := generateJournalNo_slashes month day year hm hd hy
  refine ⟨?_, ?_⟩
  · intro entry hdate
    simp [csvCells, hdate, hno]
  · intro p entries hm' hd' hy' hdate hsome entry hmem
    obtain ⟨_, h2, _⟩ := createJournalEntries_mem p entries hsome entry hmem
    rw [hdate, formatDate_iso year month day hy' hm' hd'] at h2
    simp [csvCells, h2, hno]

/-- Witness of C21: the entries of the example property, paid on `2024-03-05`,
are numbered `20240305Rent`. -/
theorem csvCells_journalNo_witness :
    (csvCells (debitEntry exampleProperty "Rent Clearing Account"
      "Total Collected for Oak Street 12" "1050.00")).head? =
        some ("2024" ++ "03" ++ "05" ++ "Rent") ∧
    ∀ entry ∈ entriesOf exampleProperty,
      (csvCells entry).head? = some ("2024" ++ "03" ++ "05" ++ "Rent") :=
  ⟨(csvCells_journalNo "03" "05" "2024" (by decide) (by decide) (by decide)).1 _ (by decide),
    (csvCells_journalNo "03" "05" "2024" (by decide) (by decide) (by decide)).2
      exampleProperty (entriesOf exampleProperty) (by decide) (by decide) (by decide) rfl
      (createJournalEntries_entriesOf exampleProperty (by decide))⟩

/-! ## The form handlers -/

theorem savedExpenses_eq (xs : List Expense) :
    savedExpenses xs =
      (xs.filter Expense.positive).map fun exp =>
        { exp with amount := .num (parseNumber exp.amount) } := by
  induction xs with
  | nil => rfl
  | cons x rest ih =>
    unfold savedExpenses at ih ⊢
    by_cases hp : (parseNumber x.amount).gtZero = true
    · simp [List.filter_cons, Expense.positive, hp, ih]
    · simp [List.filter_cons, Expense.positive, hp, ih]

theorem savedExpenses_positive (xs : List Expense) :
    ∀ e ∈ savedExpenses xs, e.amount.isPositive = true := by
  intro e he
  rw [savedExpenses_eq] at he
  obtain ⟨x, hx, rfl⟩ := List.mem_map.1 he
  have := (List.mem_filter.1 hx).2
  simpa [JSVal.isPositive, Expense.positive] using this

theorem isPositive_isNumber (v : JSVal) (h : v.isPositive = true) : v.isNumber = true := by
  cases v <;> simp_all [JSVal.isPositive, JSVal.isNumber]

theorem propertyToSave_formattable (now : JSNumber) (editingProperty : Option Property)
    (newProperty : Property) :
    (propertyToSave now editingProperty newProperty).formattable = true := by
  simp only [Property.formattable, propertyToSave, JSVal.isNumber, Bool.and_self, Bool.true_and,
    List.all_eq_true, Bool.or_eq_true, Bool.not_eq_true']
  intro e he
  exact Or.inr (isPositive_isNumber _ (savedExpenses_positive _ e he))

theorem handleSubmit_eq (now : JSNumber) (editingProperty : Option Property)
    (newProperty : Property) (state : AppState) :
    handleSubmit now editingProperty newProperty state =
      .ok { properties :=
              submittedProperties editingProperty
                (propertyToSave now editingProperty newProperty) state.properties
            journalEntries :=
              submittedJournal editingProperty
                (entriesOf (propertyToSave now editingProperty newProperty))
                state.journalEntries } := by
  unfold handleSubmit
  rw [createJournalEntries_entriesOf _ (propertyToSave_formattable now editingProperty newProperty)]

/-- C26: `handleSubmit` with no property being edited returns, and sets the
property list to the old list followed by one property `saved` and the journal
to the old journal followed by the entries that `createJournalEntries` returns
for `saved`; `saved` has the time of the call as id, the name and payment date
of the form, the coerced rent and fees of the form, and the expenses of the form
whose coerced amount is above zero, in order, with that amount. -/
theorem handleSubmit_add (now : JSNumber) (newProperty : Property) (state : AppState) :
    ∃ (saved : Property) (entries : List JournalEntry),
      handleSubmit now none newProperty state =
        .ok { properties := state.properties ++ [saved]
              journalEntries := state.journalEntries ++ entries } ∧
      createJournalEntries saved = some entries ∧
      saved.id = .num now ∧ saved.name = newProperty.name ∧
      saved.paymentDate = newProperty.paymentDate ∧
      saved.rent = .num (parseNumber newProperty.rent) ∧
      saved.convenienceFee = .num (parseNumber newProperty.convenienceFee) ∧
      saved.managementFeePercentage = .num (parseNumber newProperty.managementFeePercentage) ∧
      saved.expenses =
        (newProperty.expenses.filter fun exp => (parseNumber exp.amount).gtZero).map
          fun exp => { exp with amount := .num (parseNumber exp.amount) } := by
  refine ⟨propertyToSave now none newProperty, entriesOf (propertyToSave now none newProperty),
    ?_, createJournalEntries_entriesOf _ (propertyToSave_formattable now none newProperty),
    rfl, rfl, rfl, rfl, rfl, rfl, ?_⟩
  · rw [handleSubmit_eq]
    rfl
  · exact savedExpenses_eq newProperty.expenses

/-- Counterexample to C23: the example property with id `0` is edited and
submitted at time 7; the property that replaces it has the id 7, which is not the
id it had. -/
theorem handleSubmit_edit_new_id :
    ∃ next, handleSubmit (JSNumber.ofNat 7) (some zeroIdProperty) zeroIdProperty
        { properties := [zeroIdProperty], journalEntries := entriesOf zeroIdProperty } =
          .ok next ∧
      next.properties.map (fun prop => prop.id) = [.num (JSNumber.ofNat 7)] ∧
      zeroIdProperty.id = .num JSNumber.zero ∧
      (JSVal.num (JSNumber.ofNat 7)).strictEq zeroIdProperty.id = false := by
  refine ⟨_, handleSubmit_eq _ _ _ _, ?_, ?_, ?_⟩ <;> decide

/-- C23, amended: `handleSubmit` while a property `editing` with a truthy id is
being edited returns; the new property list is the old one with every element
whose id equals `editing.id` replaced by one property `saved` and every other
element unchanged at its place, so the length is kept; `saved` has the id
`editing.id` and the coerced fields of the form; the new journal is the old one
without the entries whose `Class` is `editing.name`, followed by the entries that
`createJournalEntries` returns for `saved`. -/
theorem handleSubmit_edit (now : JSNumber) (editing newProperty : Property) (state : AppState)
    (hid : editing.id.truthy = true) :
    ∃ (saved : Property) (entries : List JournalEntry),
      handleSubmit now (some editing) newProperty state =
        .ok { properties :=
                state.properties.map fun prop =>
                  if prop.id.strictEq editing.id then saved else prop
              journalEntries :=
                (state.journalEntries.filter fun entry => entry.Class != editing.name) ++
                  entries } ∧
      (state.properties.map fun prop =>
        if prop.id.strictEq editing.id then saved else prop).length = state.properties.length ∧
      createJournalEntries saved = some entries ∧
      saved.id = editing.id ∧ saved.name = newProperty.name ∧
      saved.paymentDate = newProperty.paymentDate ∧
      saved.rent = .num (parseNumber newProperty.rent) ∧
      saved.convenienceFee = .num (parseNumber newProperty.convenienceFee) ∧
      saved.managementFeePercentage = .num (parseNumber newProperty.managementFeePercentage) ∧
      saved.expenses =
        (newProperty.expenses.filter fun exp => (parseNumber exp.amount).gtZero).map
          fun exp => { exp with amount := .num (parseNumber exp.amount) } := by
  refine ⟨propertyToSave now (some editing) newProperty,
    entriesOf (propertyToSave now (some editing) newProperty),
    ?_, List.length_map _ _,
    createJournalEntries_entriesOf _ (propertyToSave_formattable now _ newProperty),
    ?_, rfl, rfl, rfl, rfl, rfl, ?_⟩
  · rw [handleSubmit_eq]
    rfl
  · simp [propertyToSave, hid]
  · exact savedExpenses_eq newProperty.expenses

/-- Witness of C23: a rent of 1200 is submitted for the example property, whose
id is 1. -/
theorem handleSubmit_edit_witness :
    ∃ (saved : Property) (entries : List JournalEntry),
      handleSubmit (JSNumber.ofNat 7) (some exampleProperty)
          { exampleProperty with rent := .str "1200" } exampleState =
        .ok { properties :=
                exampleState.properties.map fun prop =>
                  if prop.id.strictEq exampleProperty.id then saved else prop
              journalEntries :=
                (exampleState.journalEntries.filter
                  fun entry => entry.Class != exampleProperty.name) ++ entries } ∧
      (exampleState.properties.map fun prop =>
        if prop.id.strictEq exampleProperty.id then saved else prop).length =
          exampleState.properties.length ∧
      createJournalEntries saved = some entries ∧
      saved.id = exampleProperty.id ∧ saved.name = exampleProperty.name ∧
      saved.paymentDate = exampleProperty.paymentDate ∧
      saved.rent = .num (parseNumber (.str "1200")) ∧
      saved.convenienceFee = .num (parseNumber exampleProperty.convenienceFee) ∧
      saved.managementFeePercentage =
        .num (parseNumber exampleProperty.managementFeePercentage) ∧
      saved.expenses =
        (exampleProperty.expenses.filter fun exp => (parseNumber exp.amount).gtZero).map
          fun exp => { exp with amount := .num (parseNumber exp.amount) } :=
  handleSubmit_edit (JSNumber.ofNat 7) exampleProperty
    { exampleProperty with rent := .str "1200" } exampleState (by decide)

theorem includes_iff (text part : String) :
    includes text part = true ↔ ∃ front back : String, text = front ++ part ++ back := by
  simp only [includes, List.any_eq_true, List.mem_tails, List.isPrefixOf_iff_prefix]
  constructor
  · rintro ⟨rest, ⟨front, hfront⟩, ⟨back, hback⟩⟩
    refine ⟨String.mk front, String.mk back, ?_⟩
    apply String.ext
    have h1 : text.data = front ++ rest := hfront.symm
    have h2 : rest = part.data ++ back := hback.symm
    simp [h1, h2]
  · rintro ⟨front, back, rfl⟩
    refine ⟨part.toList ++ back.toList, ⟨front.toList, ?_⟩, ⟨back.toList, rfl⟩⟩
    simp [String.toList]

/-- On a journal of entries with six texts: either the property list has an element whose id equals `propertyId`,
and then, `deleted` being the first of them, `handleDelete` sets the property
list to the old one without the elements whose id equals `propertyId` and the
journal to the old one without the entries whose `Description` contains
`deleted.name`; or no element has that id and `handleDelete` changes nothing.
`includes` is the substring test. -/
theorem handleDelete_effect (propertyId : JSVal) (state : AppState) :
    ((∃ deleted : Property,
        state.properties.find? (fun prop => prop.id.strictEq propertyId) = some deleted ∧
        handleDelete propertyId state =
          { properties := state.properties.filter fun prop => !prop.id.strictEq propertyId
            journalEntries :=
              state.journalEntries.filter fun entry =>
                !includes entry.Description deleted.name }) ∨
      ((∀ prop ∈ state.properties, prop.id.strictEq propertyId = false) ∧
        handleDelete propertyId state = state)) ∧
    ∀ text part : String,
      includes text part = true ↔ ∃ front back : String, text = front ++ part ++ back := by
  refine ⟨?_, includes_iff⟩
  cases h : state.properties.find? (fun prop => prop.id.strictEq propertyId) with
  | some deleted =>
    left
    exact ⟨deleted, rfl, by simp [handleDelete, h]⟩
  | none =>
    right
    refine ⟨?_, by simp [handleDelete, h]⟩
    intro prop hprop
    have := List.find?_eq_none.1 h prop hprop
    simpa using this

/-! ## Ledger upload -/

theorem reducer_eq (id : JSNumber) (acc : List (String × LedgerProperty)) (entry : LedgerRow) :
    reducer id acc entry = .ok acc := by
  simp [reducer]

theorem reduceEntries_eq (ids : Nat → JSNumber) (index : Nat)
    (acc : List (String × LedgerProperty)) (entries : List LedgerRow) :
    reduceEntries ids index acc entries = .ok acc := by
  induction entries generalizing index with
  | nil => rfl
  | cons entry rest ih => simp [reduceEntries, reducer_eq, ih]

theorem handleFileUpload_eq (ids : Nat → JSNumber) (entries : List LedgerRow) :
    handleFileUpload ids entries = { journalEntries := entries, properties := .ok [] } := by
  simp [handleFileUpload, reduceEntries_eq, Except.map, objectValues, indexedValues]

/-- Evaluation for C22: the eleven rows that `createJournalEntries` returns for
the example property are uploaded; the property list that `handleFileUpload`
sets is empty, so no property named like the example property is in it. -/
theorem handleFileUpload_reconstructs_nothing (ids : Nat → JSNumber) :
    createJournalEntries exampleProperty = some (entriesOf exampleProperty) ∧
    (ledgerOf exampleProperty).length = 11 ∧
    (handleFileUpload ids (ledgerOf exampleProperty)).properties = .ok [] ∧
    ¬ ∃ properties, (handleFileUpload ids (ledgerOf exampleProperty)).properties =
      .ok properties ∧ ∃ prop ∈ properties, prop.name = some exampleProperty.name := by
  refine ⟨createJournalEntries_entriesOf _ (by decide), by decide, ?_, ?_⟩
  · rw [handleFileUpload_eq]
  · rw [handleFileUpload_eq]
    rintro ⟨properties, h, prop, hmem, _⟩
    simp only [Except.ok.injEq] at h
    subst h
    simp at hmem

/-- C28: for every list of rows, each column of which is a text or missing,
`handleFileUpload` sets the journal to the rows and the property list to the
empty list; the reducer returns its accumulator as it got it, for every row. -/
theorem handleFileUpload_sets_no_property (ids : Nat → JSNumber) (entries : List LedgerRow) :
    (handleFileUpload ids entries).journalEntries = entries ∧
    (handleFileUpload ids entries).properties = .ok [] ∧
    ∀ (id : JSNumber) (acc : List (String × LedgerProperty)) (entry : LedgerRow),
      reducer id acc entry = .ok acc := by
  refine ⟨?_, ?_, reducer_eq⟩ <;> rw [handleFileUpload_eq]

/-! ## Exact arithmetic -/

theorem sumExpenses_formula (expenses : List Expense) :
    sumExpenses expenses =
      Formula.sumExpenses binary64 (expenses.map fun exp => parseNumber exp.amount) := by
  simp only [sumExpenses, Formula.sumExpenses, List.foldl_map, binary64]

theorem managementFee_eq_formula (p : Property) :
    calculations.managementFee p = Formula.managementFee binary64 (figures p) := rfl

theorem totalRevenue_formula (p : Property) :
    calculations.totalRevenue p = Formula.totalRevenue binary64 (figures p) := rfl

theorem totalExpenses_formula (p : Property) :
    calculations.totalExpenses p = Formula.totalExpenses binary64 (figures p) := by
  simp only [calculations.totalExpenses, Formula.totalExpenses, sumExpenses_formula,
    managementFee_eq_formula]
  rfl

theorem ownerPayout_formula (p : Property) :
    calculations.ownerPayout p = Formula.ownerPayout binary64 (figures p) := by
  simp only [calculations.ownerPayout, Formula.ownerPayout, sumExpenses_formula,
    managementFee_eq_formula]
  rfl

theorem totalNetIncome_formula (properties : List Property) :
    DatabaseStats.totalNetIncome properties =
      Formula.totalNetIncome binary64 (properties.map figures) := by
  simp only [DatabaseStats.totalNetIncome, DatabaseStats.totalRent, DatabaseStats.totalExpenses,
    Formula.totalNetIncome, Formula.totalRent, Formula.statsExpenses, Formula.sumExpenses,
    Formula.managementFee, figures, binary64, List.foldl_map]

theorem foldl_rational (g : Figures ℚ → ℚ) (start : ℚ) (fs : List (Figures ℚ)) :
    fs.foldl (fun sum f => sum + g f) start = start + (fs.map g).sum := by
  induction fs generalizing start with
  | nil => simp
  | cons f rest ih => simp [ih, add_assoc]

theorem ownerPayout_rational (f : Figures ℚ) :
    Formula.ownerPayout rational f =
      Formula.totalRevenue rational f - Formula.totalExpenses rational f := by
  simp only [Formula.ownerPayout, Formula.totalRevenue, Formula.totalExpenses, rational]
  ring

theorem sum_rational (fs : List (Figures ℚ)) :
    (fs.map fun f => f.rent).sum -
        (fs.map fun f => Formula.sumExpenses rational f.expenses +
          Formula.managementFee rational f + f.convenienceFee).sum =
      (fs.map fun f => Formula.ownerPayout rational f).sum -
        (fs.map fun f => f.convenienceFee).sum := by
  induction fs with
  | nil => simp
  | cons f rest ih =>
    simp only [List.map_cons, List.sum_cons]
    have hp : Formula.ownerPayout rational f =
        f.rent + f.convenienceFee - Formula.managementFee rational f - f.convenienceFee -
          Formula.sumExpenses rational f.expenses := rfl
    rw [hp]
    linarith

theorem totalNetIncome_rational (fs : List (Figures ℚ)) :
    Formula.totalNetIncome rational fs =
      Formula.payoutSum rational fs - Formula.feeSum rational fs := by
  have h1 : Formula.totalRent rational fs = 0 + (fs.map fun f => f.rent).sum :=
    foldl_rational (fun f => f.rent) 0 fs
  have h2 : Formula.statsExpenses rational fs =
      0 + (fs.map fun f => Formula.sumExpenses rational f.expenses +
        Formula.managementFee rational f + f.convenienceFee).sum := by
    rw [← foldl_rational]
    simp only [Formula.statsExpenses, rational, add_assoc]
  have h3 : Formula.payoutSum rational fs =
      0 + (fs.map fun f => Formula.ownerPayout rational f).sum :=
    foldl_rational (fun f => Formula.ownerPayout rational f) 0 fs
  have h4 : Formula.feeSum rational fs = 0 + (fs.map fun f => f.convenienceFee).sum :=
    foldl_rational (fun f => f.convenienceFee) 0 fs
  have hsub : Formula.totalNetIncome rational fs =
      Formula.totalRent rational fs - Formula.statsExpenses rational fs := rfl
  rw [hsub, h1, h2, h3, h4, zero_add, zero_add, zero_add, zero_add]
  exact sum_rational fs

/-- C27: the three formulas of `calculations` are `Formula.ownerPayout`,
`Formula.totalRevenue` and `Formula.totalExpenses` in the arithmetic of Numbers,
applied to the coerced fields of the property; and in exact arithmetic, for all
values of the coerced fields, the owner payout is the total revenue minus the
total expenses. -/
theorem ownerPayout_is_revenue_minus_expenses :
    (∀ p : Property,
      calculations.ownerPayout p = Formula.ownerPayout binary64 (figures p) ∧
      calculations.totalRevenue p = Formula.totalRevenue binary64 (figures p) ∧
      calculations.totalExpenses p = Formula.totalExpenses binary64 (figures p)) ∧
    ∀ f : Figures ℚ,
      Formula.ownerPayout rational f =
        Formula.totalRevenue rational f - Formula.totalExpenses rational f :=
  ⟨fun p => ⟨ownerPayout_formula p, totalRevenue_formula p, totalExpenses_formula p⟩,
    ownerPayout_rational⟩

/-- Counterexample to C29: for the single property with rent `0.1` and
convenience fee `0.2`, the net income of `DatabaseStats` is `-0.1`, while the
owner payout minus the convenience fee is `-0.09999999999999998`. -/
theorem totalNetIncome_not_payouts_minus_fees :
    DatabaseStats.totalNetIncome [tenthsProperty] = number "-0.1" ∧
    JSNumber.sub (calculations.ownerPayout tenthsProperty)
      (parseNumber tenthsProperty.convenienceFee) = number "-0.09999999999999998" ∧
    Formula.payoutSum binary64 [figures tenthsProperty] =
      calculations.ownerPayout tenthsProperty ∧
    Formula.feeSum binary64 [figures tenthsProperty] =
      parseNumber tenthsProperty.convenienceFee ∧
    number "-0.1" ≠ number "-0.09999999999999998" := by
  refine ⟨?_, ?_, ?_, ?_, ?_⟩ <;> decide

/-- C29, amended: the net income of `DatabaseStats` is `Formula.totalNetIncome`
in the arithmetic of Numbers, applied to the coerced fields of the properties,
and the owner payout of a property is `Formula.ownerPayout` likewise; in exact
arithmetic, for every list of coerced fields, the net income is the sum of the
owner payouts minus the sum of the convenience fees, and it is the sum of the
owner payouts exactly when the convenience fees sum to zero. -/
theorem totalNetIncome_exact :
    (∀ properties : List Property,
      DatabaseStats.totalNetIncome properties =
        Formula.totalNetIncome binary64 (properties.map figures)) ∧
    (∀ p : Property, calculations.ownerPayout p = Formula.ownerPayout binary64 (figures p)) ∧
    ∀ fs : List (Figures ℚ),
      Formula.totalNetIncome rational fs =
        Formula.payoutSum rational fs - Formula.feeSum rational fs ∧
      (Formula.totalNetIncome rational fs = Formula.payoutSum rational fs ↔
        Formula.feeSum rational fs = 0) := by
  refine ⟨totalNetIncome_formula, ownerPayout_formula, fun fs => ⟨totalNetIncome_rational fs, ?_⟩⟩
  rw [totalNetIncome_rational]
  constructor
  · intro h
    linarith
  · intro h
    rw [h, sub_zero]

/-! ## Stored properties -/

theorem isNumeric_parseNumber (value : JSVal) : (JSVal.num (parseNumber value)).isNumeric = true := by
  have h := parseNumber_ne_nan value
  cases hx : parseNumber value <;> simp_all [JSVal.isNumeric]

theorem propertyToSave_numeric (now : JSNumber) (editingProperty : Option Property)
    (newProperty : Property) :
    (propertyToSave now editingProperty newProperty).numeric = true := by
  simp only [Property.numeric, propertyToSave, isNumeric_parseNumber, Bool.and_self,
    Bool.true_and, List.all_eq_true]
  exact savedExpenses_positive _

theorem parseNumber_positive (x : JSNumber) (h : x.gtZero = true) : parseNumber (.num x) = x := by
  cases x with
  | nan => simp [JSNumber.gtZero] at h
  | inf s => simp [parseNumber, parseFloat, JSNumber.truthy]
  | fin s m =>
    simp only [JSNumber.gtZero, Bool.and_eq_true, Bool.not_eq_true', decide_eq_true_eq] at h
    have hm : m ≠ 0 := by omega
    cases m with
    | zero => exact absurd rfl hm
    | succ k => simp [parseNumber, parseFloat, JSNumber.truthy]

theorem compressedExpenses_positive (expenses : List Expense)
    (h : ∀ e ∈ expenses, e.amount.isPositive = true) :
    compressedExpenses expenses =
      expenses.map fun exp => { a := exp.amount, d := exp.description } := by
  induction expenses with
  | nil => rfl
  | cons e rest ih =>
    have ih' := ih (fun x hx => h x (List.mem_cons_of_mem _ hx))
    have he := h e (List.mem_cons_self _ _)
    unfold compressedExpenses at ih' ⊢
    cases ha : e.amount with
    | num x =>
      rw [ha] at he
      have hx : x.gtZero = true := he
      simp [List.filter_cons, ha, parseNumber_positive x hx, hx, ih']
    | undefined => simp [ha, JSVal.isPositive] at he
    | null => simp [ha, JSVal.isPositive] at he
    | bool b => simp [ha, JSVal.isPositive] at he
    | str s => simp [ha, JSVal.isPositive] at he

theorem mem_submittedProperties (editingProperty : Option Property) (saved : Property)
    (prev : List Property) :
    ∀ p ∈ submittedProperties editingProperty saved prev, p = saved ∨ p ∈ prev := by
  intro p hp
  cases editingProperty with
  | none =>
    simp only [submittedProperties, List.mem_append, List.mem_singleton] at hp
    exact hp.symm
  | some editing =>
    simp only [submittedProperties, List.mem_map] at hp
    obtain ⟨q, hq, rfl⟩ := hp
    split
    · exact Or.inl rfl
    · exact Or.inr hq

theorem mem_handleDelete (propertyId : JSVal) (state : AppState) :
    ∀ p ∈ (handleDelete propertyId state).properties, p ∈ state.properties := by
  intro p hp
  unfold handleDelete at hp
  split at hp
  · exact (List.mem_filter.1 hp).1
  · exact hp

theorem reachable_numeric (state : AppState) (h : Reachable state) :
    ∀ p ∈ state.properties, p.numeric = true := by
  induction h with
  | empty => simp [emptyState]
  | submit now editingProperty newProperty state next _ hnext ih =>
    rw [handleSubmit_eq] at hnext
    simp only [Except.ok.injEq] at hnext
    subst hnext
    intro p hp
    rcases mem_submittedProperties _ _ _ p hp with rfl | hold
    · exact propertyToSave_numeric _ _ _
    · exact ih p hold
  | delete propertyId state _ ih =>
    intro p hp
    exact ih p (mem_handleDelete propertyId state p hp)

theorem reachable_afterSubmit (now : JSNumber) (editingProperty : Option Property)
    (newProperty : Property) (state : AppState) (h : Reachable state) :
    Reachable (afterSubmit now editingProperty newProperty state) := by
  unfold afterSubmit
  cases hs : handleSubmit now editingProperty newProperty state with
  | ok next => exact Reachable.submit now editingProperty newProperty state next h hs
  | error thrown => exact h

/-- C30: in every state reached from the empty state by submits (of a new or of
an edited property) and deletes, every stored property has Numbers other than
`NaN` as rent, convenience fee and management fee percentage and a Number above
zero as amount of every expense; and the array `e` that `saveStateToURL` builds
for it has one element for every expense, in order, with the amount and the
description of that expense. -/
theorem reachable_stored_numeric (state : AppState) (h : Reachable state) :
    ∀ p ∈ state.properties,
      p.rent.isNumeric = true ∧ p.convenienceFee.isNumeric = true ∧
      p.managementFeePercentage.isNumeric = true ∧
      (∀ e ∈ p.expenses, e.amount.isPositive = true) ∧
      compressedExpenses p.expenses =
        p.expenses.map fun exp => { a := exp.amount, d := exp.description } := by
  intro p hp
  have hn := reachable_numeric state h p hp
  simp only [Property.numeric, Bool.and_eq_true, List.all_eq_true] at hn
  obtain ⟨⟨⟨h1, h2⟩, h3⟩, h4⟩ := hn
  exact ⟨h1, h2, h3, h4, compressedExpenses_positive p.expenses h4⟩

/-- Witness of C30: the state after the example property is edited. -/
theorem reachable_stored_numeric_witness :
    Reachable editedState ∧
    editedState.properties.length = 1 ∧
    ∀ p ∈ editedState.properties,
      p.rent.isNumeric = true ∧ p.convenienceFee.isNumeric = true ∧
      p.managementFeePercentage.isNumeric = true ∧
      (∀ e ∈ p.expenses, e.amount.isPositive = true) ∧
      compressedExpenses p.expenses =
        p.expenses.map fun exp => { a := exp.amount, d := exp.description } :=
  ⟨reachable_afterSubmit _ _ _ _
      (reachable_afterSubmit (JSNumber.ofNat 1) none exampleProperty emptyState Reachable.empty),
    by decide,
    reachable_stored_numeric editedState
      (reachable_afterSubmit _ _ _ _
        (reachable_afterSubmit (JSNumber.ofNat 1) none exampleProperty emptyState
          Reachable.empty))⟩

/-! ## The journal as a function of the properties -/

theorem filter_class_flatMap (name : String) (others : List Property)
    (h : ∀ other ∈ others, other.name ≠ name) :
    (others.flatMap entriesOf).filter (fun entry => entry.Class != name) =
      others.flatMap entriesOf := by
  rw [List.filter_eq_self]
  intro entry hmem
  obtain ⟨other, hother, hentry⟩ := List.mem_flatMap.1 hmem
  have hclass := (entriesOf_mem other entry hentry).1
  simpa [hclass] using h other hother

theorem filter_class_self (p : Property) :
    (entriesOf p).filter (fun entry => entry.Class != p.name) = [] := by
  rw [List.filter_eq_nil_iff]
  intro entry hmem
  simp [(entriesOf_mem p entry hmem).1]

theorem filter_includes_flatMap (name : String) (others : List Property)
    (h : ∀ other ∈ others, ∀ entry ∈ entriesOf other, includes entry.Description name = false) :
    (others.flatMap entriesOf).filter (fun entry => !includes entry.Description name) =
      others.flatMap entriesOf := by
  rw [List.filter_eq_self]
  intro entry hmem
  obtain ⟨other, hother, hentry⟩ := List.mem_flatMap.1 hmem
  simp [h other hother entry hentry]

theorem filter_includes_self (p : Property) :
    (entriesOf p).filter (fun entry => !includes entry.Description p.name) = [] := by
  rw [List.filter_eq_nil_iff]
  intro entry hmem
  simp [(entriesOf_mem p entry hmem).2.2]

theorem map_replace_others (id : JSVal) (saved : Property) (others : List Property)
    (h : ∀ other ∈ others, other.id.strictEq id = false) :
    (others.map fun prop => if prop.id.strictEq id then saved else prop) = others := by
  induction others with
  | nil => rfl
  | cons x rest ih =>
    have hx := h x (List.mem_cons_self _ _)
    have ih' := ih (fun o ho => h o (List.mem_cons_of_mem _ ho))
    simp [hx, ih']

theorem filter_keep_others (id : JSVal) (others : List Property)
    (h : ∀ other ∈ others, other.id.strictEq id = false) :
    (others.filter fun prop => !prop.id.strictEq id) = others := by
  rw [List.filter_eq_self]
  intro other hother
  simp [h other hother]

theorem find_first (id : JSVal) (before after : List Property) (prop : Property)
    (hself : prop.id.strictEq id = true)
    (h : ∀ other ∈ before, other.id.strictEq id = false) :
    (before ++ prop :: after).find? (fun q => q.id.strictEq id) = some prop := by
  induction before with
  | nil => simp [List.find?_cons, hself]
  | cons x rest ih =>
    have hx := h x (List.mem_cons_self _ _)
    have ih' := ih (fun o ho => h o (List.mem_cons_of_mem _ ho))
    simp only [List.cons_append, List.find?_cons, hx]
    exact ih'

theorem edit_keeps_journal (now : JSNumber) (editing newProperty : Property)
    (before after : List Property) (journal : List JournalEntry) (next : AppState)
    (hperm : journal.Perm ((before ++ editing :: after).flatMap entriesOf))
    (hid : onlyId before editing after)
    (hname : ∀ other ∈ before ++ after, other.name ≠ editing.name)
    (hnext : handleSubmit now (some editing) newProperty
      { properties := before ++ editing :: after, journalEntries := journal } = .ok next) :
    next.journalEntries.Perm (next.properties.flatMap entriesOf) := by
  rw [handleSubmit_eq] at hnext
  simp only [Except.ok.injEq] at hnext
  subst hnext
  obtain ⟨hself, hothers⟩ := hid
  have hb : ∀ other ∈ before, other.id.strictEq editing.id = false :=
    fun o ho => hothers o (List.mem_append_left _ ho)
  have ha : ∀ other ∈ after, other.id.strictEq editing.id = false :=
    fun o ho => hothers o (List.mem_append_right _ ho)
  have hnb : ∀ other ∈ before, other.name ≠ editing.name :=
    fun o ho => hname o (List.mem_append_left _ ho)
  have hna : ∀ other ∈ after, other.name ≠ editing.name :=
    fun o ho => hname o (List.mem_append_right _ ho)
  have hprops : submittedProperties (some editing) (propertyToSave now (some editing) newProperty)
      (before ++ editing :: after) =
        before ++ propertyToSave now (some editing) newProperty :: after := by
    simp only [submittedProperties, List.map_append, List.map_cons, hself, if_true,
      map_replace_others _ _ before hb, map_replace_others _ _ after ha]
  have hfilter := hperm.filter (fun entry => entry.Class != editing.name)
  simp only [List.flatMap_append, List.flatMap_cons, List.filter_append,
    filter_class_flatMap _ before hnb, filter_class_flatMap _ after hna, filter_class_self,
    List.nil_append] at hfilter
  simp only [hprops, submittedJournal, List.flatMap_append, List.flatMap_cons]
  refine (hfilter.append_right _).trans ?_
  rw [List.append_assoc]
  exact List.Perm.append_left _ List.perm_append_comm

theorem delete_keeps_journal (deleted : Property) (before after : List Property)
    (journal : List JournalEntry)
    (hperm : journal.Perm ((before ++ deleted :: after).flatMap entriesOf))
    (hid : onlyId before deleted after)
    (hname : ∀ other ∈ before ++ after, ∀ entry ∈ entriesOf other,
      includes entry.Description deleted.name = false) :
    (handleDelete deleted.id
      { properties := before ++ deleted :: after, journalEntries := journal }).journalEntries.Perm
      ((handleDelete deleted.id
        { properties := before ++ deleted :: after,
          journalEntries := journal }).properties.flatMap entriesOf) := by
  obtain ⟨hself, hothers⟩ := hid
  have hb : ∀ other ∈ before, other.id.strictEq deleted.id = false :=
    fun o ho => hothers o (List.mem_append_left _ ho)
  have ha : ∀ other ∈ after, other.id.strictEq deleted.id = false :=
    fun o ho => hothers o (List.mem_append_right _ ho)
  have hnb : ∀ other ∈ before, ∀ entry ∈ entriesOf other,
      includes entry.Description deleted.name = false :=
    fun o ho => hname o (List.mem_append_left _ ho)
  have hna : ∀ other ∈ after, ∀ entry ∈ entriesOf other,
      includes entry.Description deleted.name = false :=
    fun o ho => hname o (List.mem_append_right _ ho)
  have hfilter := hperm.filter (fun entry => !includes entry.Description deleted.name)
  simp only [List.flatMap_append, List.flatMap_cons, List.filter_append,
    filter_includes_flatMap _ before hnb, filter_includes_flatMap _ after hna,
    filter_includes_self, List.nil_append] at hfilter
  simp only [handleDelete, find_first deleted.id before after deleted hself hb,
    List.filter_append, List.filter_cons, hself, filter_keep_others _ before hb,
    filter_keep_others _ after ha, List.flatMap_append, Bool.not_true, Bool.false_eq_true,
    if_false]
  exact hfilter

theorem add_keeps_journal (now : JSNumber) (newProperty : Property) (state next : AppState)
    (hperm : state.journalEntries.Perm (state.properties.flatMap entriesOf))
    (hnext : handleSubmit now none newProperty state = .ok next) :
    next.journalEntries.Perm (next.properties.flatMap entriesOf) := by
  rw [handleSubmit_eq] at hnext
  simp only [Except.ok.injEq] at hnext
  subst hnext
  simp only [submittedProperties, submittedJournal, List.flatMap_append, List.flatMap_cons,
    List.flatMap_nil, List.append_nil]
  exact hperm.append_right _

/-- Counterexample to C25: a property named `Oak` is added, then one named
`Oak Street`, then the first is deleted; the state holds one property, whose
nine entries contain `Oak` in their descriptions and have left the journal with
those of the deleted one: the journal is empty. -/
theorem journal_not_function_of_properties :
    Reachable oakDeletedState ∧
    oakDeletedState.properties.map (fun prop => prop.name) = ["Oak Street"] ∧
    oakDeletedState.journalEntries = [] ∧
    (oakDeletedState.properties.flatMap entriesOf).length = 9 ∧
    ¬ oakDeletedState.journalEntries.Perm (oakDeletedState.properties.flatMap entriesOf) := by
  have hlen : (oakDeletedState.properties.flatMap entriesOf).length = 9 := by decide
  have hj : oakDeletedState.journalEntries = [] := by decide
  refine ⟨?_, by decide, hj, hlen, ?_⟩
  · exact Reachable.delete _ _
      (reachable_afterSubmit _ _ _ _ (reachable_afterSubmit _ _ _ _ Reachable.empty))
  · intro hperm
    have := hperm.length_eq
    rw [hj, hlen] at this
    exact absurd this (by decide)

/-- C25, amended: in every state reached from the empty state by submits of a
new property, by submits of an edited property that is in the list and is the
only one there with its id and the only one with its name, and by deletes of a
property that is the only one with its id and whose name occurs in no
description of an entry of another property, the journal is, up to the order of
the entries, the concatenation of the entries of the properties of the list. -/
theorem reachable_journal_of_properties (state : AppState) (h : ReachableUnshared state) :
    state.journalEntries.Perm (state.properties.flatMap entriesOf) ∧
    ∀ p ∈ state.properties, createJournalEntries p = some (entriesOf p) := by
  induction h with
  | empty => exact ⟨List.Perm.refl _, by simp [emptyState]⟩
  | add now newProperty state next _ hnext ih =>
    refine ⟨add_keeps_journal now newProperty state next ih.1 hnext, ?_⟩
    rw [handleSubmit_eq] at hnext
    simp only [Except.ok.injEq] at hnext
    subst hnext
    intro p hp
    rcases mem_submittedProperties none (propertyToSave now none newProperty)
      state.properties p hp with rfl | hold
    · exact createJournalEntries_entriesOf _ (propertyToSave_formattable _ _ _)
    · exact ih.2 p hold
  | edit now editing newProperty before after journal next _ hid hname hnext ih =>
    refine ⟨edit_keeps_journal now editing newProperty before after journal next ih.1 hid hname
      hnext, ?_⟩
    rw [handleSubmit_eq] at hnext
    simp only [Except.ok.injEq] at hnext
    subst hnext
    intro p hp
    rcases mem_submittedProperties (some editing) (propertyToSave now (some editing) newProperty)
      (before ++ editing :: after) p hp with rfl | hold
    · exact createJournalEntries_entriesOf _ (propertyToSave_formattable _ _ _)
    · exact ih.2 p hold
  | delete deleted before after journal _ hid hname ih =>
    refine ⟨delete_keeps_journal deleted before after journal ih.1 hid hname, ?_⟩
    intro p hp
    exact ih.2 p (mem_handleDelete _ _ p hp)

/-- Witness of C25: properties named `Oak` and `Elm` are added, `Oak` is
submitted again with a rent of 1200, and `Elm` is deleted; the eleven entries of
the journal are those of the one property left. -/
theorem reachable_journal_of_properties_witness :
    ReachableUnshared elmDeletedState ∧
    elmDeletedState.properties.map (fun prop => prop.name) = ["Oak"] ∧
    elmDeletedState.journalEntries.length = 9 ∧
    elmDeletedState.journalEntries.Perm (elmDeletedState.properties.flatMap entriesOf) ∧
    ∀ p ∈ elmDeletedState.properties, createJournalEntries p = some (entriesOf p) :=
  have hadded : ReachableUnshared
      { properties := [] ++ oakProperty :: [elmProperty]
        journalEntries := entriesOf oakProperty ++ entriesOf elmProperty } :=
    ReachableUnshared.add (JSNumber.ofNat 2) (formFor "Elm")
      { properties := [oakProperty], journalEntries := entriesOf oakProperty } _
      (ReachableUnshared.add (JSNumber.ofNat 1) (formFor "Oak") emptyState _
        ReachableUnshared.empty (by decide))
      (by decide)
  have hedited : ReachableUnshared
      { properties := [propertyToSave (JSNumber.ofNat 7) (some oakProperty) oakForm] ++
          elmProperty :: []
        journalEntries := oakEditedState.journalEntries } :=
    ReachableUnshared.edit (JSNumber.ofNat 7) oakProperty oakForm [] [elmProperty]
      (entriesOf oakProperty ++ entriesOf elmProperty) _ hadded
      (by decide) (by decide) (by decide)
  have hreach : ReachableUnshared elmDeletedState :=
    ReachableUnshared.delete elmProperty
      [propertyToSave (JSNumber.ofNat 7) (some oakProperty) oakForm] []
      oakEditedState.journalEntries hedited (by decide) (by decide)
  ⟨hreach, by decide, by decide, reachable_journal_of_properties elmDeletedState hreach⟩


/-! ## The journal through the compact form -/

theorem parseNumber_idem (v : JSVal) : parseNumber (.num (parseNumber v)) = parseNumber v := by
  have h1 := parseNumber_ne_nan v
  have h2 := parseNumber_ne_negZero v
  cases hx : parseNumber v with
  | nan => exact absurd hx h1
  | inf s => simp [parseNumber, parseFloat, JSNumber.truthy]
  | fin s m =>
    rw [hx] at h2
    cases m with
    | zero =>
      cases s
      · decide
      · exact absurd rfl h2
    | succ k => simp [parseNumber, parseFloat, JSNumber.truthy]

theorem finite_viaJSON (v : JSVal) (h : (parseNumber v).isFinite = true) :
    (JSVal.num (parseNumber v)).viaJSON = .num (parseNumber v) := by
  have h2 := parseNumber_ne_negZero v
  cases hx : parseNumber v with
  | nan => rw [hx] at h; simp [JSNumber.isFinite] at h
  | inf s => rw [hx] at h; simp [JSNumber.isFinite] at h
  | fin s m =>
    rw [hx] at h2
    cases m with
    | zero =>
      cases s
      · rfl
      · exact absurd rfl h2
    | succ k => rfl

theorem parseNumber_finite (x : JSNumber) (h : x.isFinite = true) :
    (parseNumber (.num x)).isFinite = true ∧ (parseNumber (.num x)).toFixed2 = x.toFixed2 := by
  cases x with
  | nan => simp [JSNumber.isFinite] at h
  | inf s => simp [JSNumber.isFinite] at h
  | fin s m =>
    cases m with
    | zero => cases s <;> exact ⟨rfl, by decide⟩
    | succ k =>
      have : parseNumber (.num (.fin s (k + 1))) = .fin s (k + 1) := by
        simp [parseNumber, parseFloat, JSNumber.truthy]
      rw [this]
      exact ⟨rfl, rfl⟩

theorem isFiniteNumber_elim (v : JSVal) (h : v.isFiniteNumber = true) :
    ∃ x, v = .num x ∧ x.isFinite = true := by
  cases v <;> simp [JSVal.isFiniteNumber] at h
  exact ⟨_, rfl, h⟩

theorem journalShareable_elim (p : Property) (h : p.journalShareable = true) :
    (∃ r, p.rent = .num r ∧ r.isFinite = true) ∧
    (∃ c, p.convenienceFee = .num c ∧ c.isFinite = true) ∧
    (parseNumber p.managementFeePercentage).isFinite = true ∧
    (∀ e ∈ p.expenses, (parseNumber e.amount).ltZero = false) ∧
    ∀ e ∈ p.expenses, e.positive = true → ∃ a, e.amount = .num a ∧ a.isFinite = true := by
  simp only [Property.journalShareable, Bool.and_eq_true, List.all_eq_true, Bool.or_eq_true,
    Bool.not_eq_true'] at h
  obtain ⟨⟨⟨h1, h2⟩, h3⟩, h4⟩ := h
  refine ⟨isFiniteNumber_elim _ h1, isFiniteNumber_elim _ h2, h3, fun e he => (h4 e he).1, ?_⟩
  intro e he hp
  rcases (h4 e he).2 with hn | hn
  · rw [hp] at hn
    exact Bool.noConfusion hn
  · exact isFiniteNumber_elim _ hn

theorem journalShareable_formattable (p : Property) (h : p.journalShareable = true) :
    p.formattable = true := by
  obtain ⟨⟨r, hr, _⟩, ⟨c, hc, _⟩, _, _, h5⟩ := journalShareable_elim p h
  simp only [Property.formattable, hr, hc, JSVal.isNumber, Bool.and_self, Bool.true_and,
    List.all_eq_true, Bool.or_eq_true, Bool.not_eq_true']
  intro e he
  by_cases hpos : e.positive = true
  · obtain ⟨a, ha, _⟩ := h5 e he hpos
    right
    rw [ha]
  · left
    simpa using hpos

theorem loadedExpenses_finite (xs : List Expense)
    (h : ∀ e ∈ xs, e.positive = true → ∃ a, e.amount = .num a ∧ a.isFinite = true) :
    (((compressedExpenses xs).map CompactExpense.viaJSON).map fun exp =>
        ({ amount := exp.a, description := exp.d } : Expense)) =
      (xs.filter Expense.positive).map fun e =>
        { amount := .num (parseNumber e.amount), description := e.description } := by
  unfold compressedExpenses
  rw [List.map_map, List.map_map]
  have hfilter : (xs.filter fun exp => (parseNumber exp.amount).gtZero) =
      xs.filter Expense.positive := rfl
  rw [hfilter]
  apply List.map_congr_left
  intro e he
  obtain ⟨hmem, hpos⟩ := List.mem_filter.1 he
  obtain ⟨a, ha, hfin⟩ := h e hmem hpos
  have hfin' : (parseNumber e.amount).isFinite = true := by
    rw [ha]
    exact (parseNumber_finite a hfin).1
  simp [CompactExpense.viaJSON, finite_viaJSON e.amount hfin']

theorem loadedProperties_viaCompact (properties : List Property)
    (h : ∀ p ∈ properties, p.journalShareable = true) :
    ∃ items, saveStateToURL properties = .json { p := .array items } ∧
      loadedProperties items = .ok (properties.map Property.viaCompact) := by
  refine ⟨_, rfl, ?_⟩
  induction properties with
  | nil => rfl
  | cons p rest ih =>
    have ih' := ih (fun q hq => h q (List.mem_cons_of_mem _ hq))
    obtain ⟨⟨r, hr, hrf⟩, ⟨c, hc, hcf⟩, h3, _, h5⟩ :=
      journalShareable_elim p (h p (List.mem_cons_self _ _))
    have hrf' : (parseNumber p.rent).isFinite = true := by
      rw [hr]; exact (parseNumber_finite r hrf).1
    have hcf' : (parseNumber p.convenienceFee).isFinite = true := by
      rw [hc]; exact (parseNumber_finite c hcf).1
    have hp : loadedProperty (CompactProperty.viaJSON
        { i := p.id, n := p.name, r := .num (parseNumber p.rent),
          c := .num (parseNumber p.convenienceFee),
          m := .num (parseNumber p.managementFeePercentage), d := p.paymentDate,
          e := .array (compressedExpenses p.expenses) }) = .ok p.viaCompact := by
      simp only [loadedProperty, CompactProperty.viaJSON, finite_viaJSON _ hrf',
        finite_viaJSON _ hcf', finite_viaJSON _ h3, loadedExpenses_finite _ h5]
      rfl
    simp only [List.map_cons, loadedProperties, hp]
    simp only [List.map_map] at ih' ⊢
    rw [ih']

theorem sumExpenses_viaCompact (xs : List Expense) :
    sumExpenses ((xs.filter Expense.positive).map fun e =>
      ({ amount := .num (parseNumber e.amount), description := e.description } : Expense)) =
      sumExpenses (xs.filter Expense.positive) := by
  simp only [sumExpenses, List.foldl_map, parseNumber_idem]

theorem entriesOf_viaCompact (p : Property) (h : p.journalShareable = true) :
    entriesOf p.viaCompact = entriesOf p := by
  obtain ⟨⟨r, hr, hrf⟩, ⟨c, hc, hcf⟩, _, hneg, h5⟩ := journalShareable_elim p h
  have he : ∀ e ∈ p.expenses, e.positive = true → e.amount.isNumber = true := by
    intro e hmem hpos
    obtain ⟨a, ha, _⟩ := h5 e hmem hpos
    rw [ha]
    rfl
  have he' : ∀ e ∈ p.viaCompact.expenses, e.positive = true → e.amount.isNumber = true := by
    intro e hmem _
    obtain ⟨x, _, rfl⟩ := List.mem_map.1 hmem
    rfl
  have hsum : sumExpenses p.viaCompact.expenses = sumExpenses p.expenses := by
    simp only [Property.viaCompact, sumExpenses_viaCompact,
      sumExpenses_filter_positive _ hneg]
  have hfee : calculations.managementFee p.viaCompact = calculations.managementFee p := by
    simp only [calculations.managementFee, Property.viaCompact, parseNumber_idem]
  have hrev : calculations.totalRevenue p.viaCompact = calculations.totalRevenue p := by
    simp only [calculations.totalRevenue, Property.viaCompact, parseNumber_idem]
  have hpayout : calculations.ownerPayout p.viaCompact = calculations.ownerPayout p := by
    simp only [calculations.ownerPayout, hfee, hsum]
    simp only [Property.viaCompact, parseNumber_idem]
  have hpay : payoutEntries p.viaCompact = payoutEntries p := by
    simp only [payoutEntries, hpayout]
    rfl
  have hbase : baseEntries p.viaCompact (parseNumber p.rent).toFixed2
      (parseNumber p.convenienceFee).toFixed2 = baseEntries p r.toFixed2 c.toFixed2 := by
    have h1 : (parseNumber p.rent).toFixed2 = r.toFixed2 := by
      rw [hr]; exact (parseNumber_finite r hrf).2
    have h2 : (parseNumber p.convenienceFee).toFixed2 = c.toFixed2 := by
      rw [hc]; exact (parseNumber_finite c hcf).2
    simp only [baseEntries, hrev, hfee, h1, h2]
    rfl
  have hmid : (p.viaCompact.expenses.filter Expense.positive).flatMap
        (fun e => expensePair p.viaCompact e e.amount.fixedText) =
      (p.expenses.filter Expense.positive).flatMap
        (fun e => expensePair p e e.amount.fixedText) := by
    have hall : p.viaCompact.expenses.filter Expense.positive = p.viaCompact.expenses := by
      rw [List.filter_eq_self]
      intro e hmem
      obtain ⟨x, hx, rfl⟩ := List.mem_map.1 hmem
      have := (List.mem_filter.1 hx).2
      simpa [Expense.positive, parseNumber_idem] using this
    rw [hall]
    simp only [Property.viaCompact, List.flatMap_map]
    apply List.flatMap_congr
    intro e hmem
    obtain ⟨hin, hpos⟩ := List.mem_filter.1 hmem
    obtain ⟨a, ha, _⟩ := h5 e hin hpos
    have hpa : a.gtZero = true := by
      have : (parseNumber e.amount).gtZero = true := hpos
      rw [ha] at this
      cases a with
      | nan => simp [parseNumber, parseFloat, JSNumber.truthy, JSNumber.gtZero,
          JSNumber.zero] at this
      | inf s => simpa [parseNumber, parseFloat, JSNumber.truthy] using this
      | fin s m =>
        cases m with
        | zero => cases s <;> simp [parseNumber, parseFloat, JSNumber.truthy, JSNumber.gtZero,
            JSNumber.zero] at this
        | succ k => simpa [parseNumber, parseFloat, JSNumber.truthy] using this
    simp only [ha, parseNumber_positive a hpa, fixedText_num, expensePair]
    rfl
  have h1 := createJournalEntries_eq p r c hr hc he
  have h2 := createJournalEntries_eq p.viaCompact (parseNumber p.rent)
    (parseNumber p.convenienceFee) rfl rfl he'
  simp only [entriesOf, h1, h2, Option.getD_some, hbase, hmid, hpay]

/-- C12, amended: for every list of properties whose rent and convenience fee
are finite Numbers, whose coerced management-fee percentage is finite, whose
expenses with a coerced amount above zero hold finite Numbers and which have no
expense with a coerced amount below zero, `loadStateFromURL` returns for the
stored fragment, and the journal it regenerates is the journal generated from
the original properties, entry for entry and in the same order. -/
theorem compact_journal_round_trip (properties : List Property)
    (h : ∀ p ∈ properties, p.journalShareable = true) :
    ∃ state original,
      loadStateFromURL (saveStateToURL properties) = some state ∧
      regenerateJournal properties = .ok original ∧
      state.journalEntries = original ∧ state.journalEntries.Perm original := by
  obtain ⟨items, hsave, hload⟩ := loadedProperties_viaCompact properties h
  have hform : ∀ q ∈ properties.map Property.viaCompact, q.formattable = true := by
    intro q hq
    obtain ⟨p, hp, rfl⟩ := List.mem_map.1 hq
    simp only [Property.formattable, Property.viaCompact, JSVal.isNumber, Bool.and_self,
      Bool.true_and, List.all_eq_true, Bool.or_eq_true, Bool.not_eq_true']
    intro e he
    obtain ⟨x, _, rfl⟩ := List.mem_map.1 he
    exact Or.inr rfl
  have hform' : ∀ p ∈ properties, p.formattable = true :=
    fun p hp => journalShareable_formattable p (h p hp)
  have hsame : (properties.map Property.viaCompact).flatMap entriesOf =
      properties.flatMap entriesOf := by
    rw [List.flatMap_map]
    apply List.flatMap_congr
    intro p hp
    exact entriesOf_viaCompact p (h p hp)
  refine ⟨{ properties := properties.map Property.viaCompact,
            journalEntries := properties.flatMap entriesOf },
    properties.flatMap entriesOf, ?_, regenerateJournal_ok _ hform', rfl, List.Perm.refl _⟩
  rw [hsave]
  simp [loadStateFromURL, loadStateBody, hload, regenerateJournal_ok _ hform, hsame]

/-- Counterexample of C12: for rent 1000 and one expense of `-50` the original
journal pays the owner `1050.00`; the compact form drops the expense, and the
journal regenerated from it pays `1000.00`.  And for the example property with
`Infinity` as management-fee percentage the original journal has the fee
`Infinity`, which the compact form writes as `null`, so that the regenerated
journal has the fee `0.00`. -/
theorem compact_journal_differs :
    (∃ state original,
      loadStateFromURL (saveStateToURL [refundProperty]) = some state ∧
      regenerateJournal [refundProperty] = .ok original ∧
      (original.map fun e => (e.Account, e.Debit, e.Credit)) =
        [ ("Rent Clearing Account", "1000.00", "0.00"),
          ("Rent Revenue Received", "0.00", "1000.00"),
          ("Rent Revenue-Convenience Fee", "0.00", "0.00"),
          ("PM Income Conv Fees (Current)", "0.00", "0.00"),
          ("Convenience Fee Expense", "0.00", "0.00"),
          ("Property Management Fees", "0.00", "0.00"),
          ("PM Income Fees Reg Income (Current)", "0.00", "0.00"),
          ("Property Owner Payout", "1050.00", "0.00"),
          ("Owner Commissions Payable", "0.00", "1050.00") ] ∧
      (state.journalEntries.map fun e => (e.Account, e.Debit, e.Credit)) =
        [ ("Rent Clearing Account", "1000.00", "0.00"),
          ("Rent Revenue Received", "0.00", "1000.00"),
          ("Rent Revenue-Convenience Fee", "0.00", "0.00"),
          ("PM Income Conv Fees (Current)", "0.00", "0.00"),
          ("Convenience Fee Expense", "0.00", "0.00"),
          ("Property Management Fees", "0.00", "0.00"),
          ("PM Income Fees Reg Income (Current)", "0.00", "0.00"),
          ("Property Owner Payout", "1000.00", "0.00"),
          ("Owner Commissions Payable", "0.00", "1000.00") ] ∧
      ¬ state.journalEntries.Perm original) ∧
    (∃ state original,
      loadStateFromURL (saveStateToURL [infinitePercentageProperty]) = some state ∧
      regenerateJournal [infinitePercentageProperty] = .ok original ∧
      (original.map fun e => e.Debit) =
        ["1050.00", "0.00", "0.00", "0.00", "50.00", "Infinity", "0.00", "100.00", "0.00",
          "-Infinity", "0.00"] ∧
      (state.journalEntries.map fun e => e.Debit) =
        ["1050.00", "0.00", "0.00", "0.00", "50.00", "0.00", "0.00", "100.00", "0.00",
          "900.00", "0.00"] ∧
      ¬ state.journalEntries.Perm original) := by
  constructor
  · have hload : loadStateFromURL (saveStateToURL [refundProperty]) =
        some { properties := [refundProperty.withoutDropped],
               journalEntries := entriesOf refundProperty.withoutDropped } := by decide
    have horig : regenerateJournal [refundProperty] = .ok (entriesOf refundProperty) := by
      decide
    refine ⟨_, _, hload, horig, by decide, by decide, ?_⟩
    intro hperm
    have hmem : debitEntry refundProperty "Property Owner Payout"
        ("Owner Payout for " ++ refundProperty.name) "1050.00" ∈ entriesOf refundProperty := by
      decide
    have hnot : debitEntry refundProperty "Property Owner Payout"
        ("Owner Payout for " ++ refundProperty.name) "1050.00" ∉
          entriesOf refundProperty.withoutDropped := by
      decide
    exact hnot (hperm.mem_iff.2 hmem)
  · have hload : loadStateFromURL (saveStateToURL [infinitePercentageProperty]) =
        some { properties := [{ exampleProperty with managementFeePercentage := .null }],
               journalEntries :=
                 entriesOf { exampleProperty with managementFeePercentage := .null } } := by
      decide
    have horig : regenerateJournal [infinitePercentageProperty] =
        .ok (entriesOf infinitePercentageProperty) := by
      decide
    refine ⟨_, _, hload, horig, by decide, by decide, ?_⟩
    intro hperm
    have hmem : debitEntry infinitePercentageProperty "Property Management Fees"
        ("Management Fee for " ++ infinitePercentageProperty.name) "Infinity" ∈
          entriesOf infinitePercentageProperty := by
      decide
    have hnot : debitEntry infinitePercentageProperty "Property Management Fees"
        ("Management Fee for " ++ infinitePercentageProperty.name) "Infinity" ∉
          entriesOf { exampleProperty with managementFeePercentage := .null } := by
      decide
    exact hnot (hperm.mem_iff.2 hmem)

/-- Witness of C12, amended: the example property, a copy of it with a
zero-amount expense, and a copy whose rent is `-0`, whose percentage is the text
`10` and whose id JSON does not carry. -/
theorem compact_journal_round_trip_witness :
    ∃ state original,
      loadStateFromURL (saveStateToURL
        [exampleProperty,
          { exampleProperty with
            expenses := [{ amount := .num JSNumber.zero, description := "None" }] },
          looseProperty]) =
        some state ∧
      regenerateJournal
        [exampleProperty,
          { exampleProperty with
            expenses := [{ amount := .num JSNumber.zero, description := "None" }] },
          looseProperty] =
        .ok original ∧
      state.journalEntries = original ∧ state.journalEntries.Perm original :=
  compact_journal_round_trip
    [exampleProperty,
      { exampleProperty with
        expenses := [{ amount := .num JSNumber.zero, description := "None" }] },
      looseProperty]
    (by decide)

/-! ## Import: the deferred callback -/

/-- Evaluation for C18: the file holds the example property in its
`properties` array and no `journalEntries`; the import sets the property list
and the regenerated journal and reports success, and the callback it gives to
`setTimeout` throws a `ReferenceError` for the name `newJournalEntries`, so that
no fragment is stored. -/
theorem import_timer_throws :
    exampleFile =
      .data { properties := .array [exampleProperty], journalEntries := .falsy } ∧
    (importDatabase emptyState exampleFile).state = exampleState ∧
    (importDatabase emptyState exampleFile).logged = none ∧
    (importDatabase emptyState exampleFile).alert = "Database imported successfully!" ∧
    (importDatabase emptyState exampleFile).timer =
      some (.error (.referenceError "newJournalEntries")) ∧
    (importDatabase emptyState
      (.data { properties := .array [exampleProperty],
               journalEntries := .array (entriesOf exampleProperty) })).timer =
      some (.ok (saveStateToURL [exampleProperty])) := by
  decide

/-! ## The journal with uploaded rows -/

theorem ledger_csvEntries_toRow (journal : List JournalEntry) :
    Ledger.csvEntries (journal.map JournalEntry.toRow) =
      (csvEntries journal).map JournalEntry.toRow := by
  induction journal with
  | nil => rfl
  | cons entry rest ih =>
    unfold Ledger.csvEntries csvEntries at *
    simp only [List.map_cons, List.filter_cons, ih]
    simp only [JournalEntry.toRow, columnValue]
    split <;> rfl

theorem ledger_csvRows_toRow (journal : List JournalEntry) :
    Ledger.csvRows (journal.map JournalEntry.toRow) = .ok (journal.map csvCells) := by
  induction journal with
  | nil => rfl
  | cons entry rest ih =>
    simp only [List.map_cons, Ledger.csvRows, ih]
    rfl

theorem ledger_generateCSV_toRow (journal : List JournalEntry) :
    Ledger.generateCSV (journal.map JournalEntry.toRow) = .ok (generateCSV journal) := by
  simp only [Ledger.generateCSV, ledger_csvEntries_toRow, ledger_csvRows_toRow]
  rfl

theorem ledger_csvRows_error (rows : List LedgerRow) (thrown : Thrown)
    (h : Ledger.csvRows rows = .error thrown) : thrown = .typeError := by
  induction rows with
  | nil => simp [Ledger.csvRows] at h
  | cons entry rest ih =>
    simp only [Ledger.csvRows, Ledger.csvCells] at h
    cases hd : entry.Date with
    | none =>
      simp only [hd, Ledger.generateJournalNo] at h
      injection h with h
      exact h.symm
    | some date =>
      simp only [hd, Ledger.generateJournalNo] at h
      cases hr : Ledger.csvRows rest with
      | ok more => simp [hr] at h
      | error t =>
        simp only [hr] at h
        injection h with h
        subst h
        exact ih hr

theorem ledger_csvRows_ok_iff (rows : List LedgerRow) :
    (∃ lines, Ledger.csvRows rows = .ok lines) ↔ ∀ entry ∈ rows, entry.Date.isSome = true := by
  induction rows with
  | nil => simp [Ledger.csvRows]
  | cons entry rest ih =>
    simp only [Ledger.csvRows, Ledger.csvCells, List.mem_cons, forall_eq_or_imp]
    cases hd : entry.Date with
    | none => simp [Ledger.generateJournalNo]
    | some date =>
      simp only [Ledger.generateJournalNo, Option.isSome_some, true_and, ← ih]
      cases hr : Ledger.csvRows rest with
      | ok more => simp
      | error t => simp

/-- The text that `generateCSV` builds from a journal of rows as they were read:
when every entry with a side above zero has a text as `Date`, it is the header
row followed by one row for each of these entries, in order; when one of them
has no `Date`, `generateCSV` throws a `TypeError` and builds nothing. -/
theorem ledger_generateCSV_rows (rows : List LedgerRow) :
    ((∀ entry ∈ Ledger.csvEntries rows, entry.Date.isSome = true) ∧
      ∃ lines, Ledger.csvRows (Ledger.csvEntries rows) = .ok lines ∧
        lines.length = (Ledger.csvEntries rows).length ∧
        Ledger.generateCSV rows =
          .ok ("\n".intercalate ((headers :: lines).map fun row => ",".intercalate row))) ∨
    ((∃ entry ∈ Ledger.csvEntries rows, entry.Date = none) ∧
      Ledger.generateCSV rows = .error .typeError) := by
  cases hr : Ledger.csvRows (Ledger.csvEntries rows) with
  | ok lines =>
    left
    have hall := (ledger_csvRows_ok_iff _).1 ⟨lines, hr⟩
    refine ⟨hall, lines, rfl, ?_, by simp [Ledger.generateCSV, hr]⟩
    clear hall
    generalize Ledger.csvEntries rows = kept at hr
    induction kept generalizing lines with
    | nil =>
      simp only [Ledger.csvRows, Except.ok.injEq] at hr
      subst hr
      rfl
    | cons entry rest ih =>
      simp only [Ledger.csvRows] at hr
      cases hc : Ledger.csvCells entry with
      | error t => simp [hc] at hr
      | ok cells =>
        cases hrest : Ledger.csvRows rest with
        | error t => simp [hc, hrest] at hr
        | ok more =>
          simp only [hc, hrest, Except.ok.injEq] at hr
          subst hr
          simp [ih more hrest]
  | error thrown =>
    right
    have ht := ledger_csvRows_error _ _ hr
    subst ht
    refine ⟨?_, by simp [Ledger.generateCSV, hr]⟩
    by_contra hno
    have hall : ∀ entry ∈ Ledger.csvEntries rows, entry.Date.isSome = true := by
      intro entry hmem
      cases hd : entry.Date with
      | none => exact absurd ⟨entry, hmem, hd⟩ hno
      | some d => rfl
    obtain ⟨lines, hl⟩ := (ledger_csvRows_ok_iff _).2 hall
    rw [hl] at hr
    exact Except.noConfusion hr

/-- Evaluation for C20: a ledger file without a `Date` column is uploaded, with
one line that credits 1000; the journal holds the row, which has a side above
zero, and `generateCSV` throws a `TypeError` instead of building the header row
and one data row. -/
theorem generateCSV_throws_without_date (ids : Nat → JSNumber) :
    (handleFileUpload ids [noDateRow]).journalEntries = [noDateRow] ∧
    Ledger.csvEntries [noDateRow] = [noDateRow] ∧
    Ledger.generateCSV [noDateRow] = .error .typeError ∧
    Ledger.generateCSV [{ noDateRow with Date := some "03/05/2024" }] =
      .ok ("Journal No.,Journal Date,Account,Description,Debits,Credits,Class\n" ++
        "20240305Rent,03/05/2024,Rent Revenue Received,Rent for Oak,,1000.00,Oak") := by
  refine ⟨?_, ?_, ?_, ?_⟩
  · rw [handleFileUpload_eq]
  · decide
  · decide
  · decide

theorem ledger_withoutName_toRow (name : String) (journal : List JournalEntry) :
    Ledger.withoutName name (journal.map JournalEntry.toRow) =
      .ok ((journal.filter fun entry => !includes entry.Description name).map
        JournalEntry.toRow) := by
  induction journal with
  | nil => rfl
  | cons entry rest ih =>
    simp only [List.map_cons, Ledger.withoutName, JournalEntry.toRow, List.filter_cons] at ih ⊢
    rw [ih]
    cases includes entry.Description name <;> simp [JournalEntry.toRow]

theorem ledger_handleDelete_toLedger (propertyId : JSVal) (state : AppState) :
    Ledger.handleDelete propertyId state.toLedger =
      .ok (handleDelete propertyId state).toLedger := by
  unfold Ledger.handleDelete handleDelete AppState.toLedger
  cases h : state.properties.find? (fun prop => prop.id.strictEq propertyId) with
  | none => rfl
  | some deleted => simp only [ledger_withoutName_toRow]

theorem ledger_withoutName_error (name : String) (rows : List LedgerRow) (thrown : Thrown)
    (h : Ledger.withoutName name rows = .error thrown) : thrown = .typeError := by
  induction rows with
  | nil => simp [Ledger.withoutName] at h
  | cons entry rest ih =>
    simp only [Ledger.withoutName] at h
    cases hd : entry.Description with
    | none =>
      simp only [hd] at h
      injection h with h
      exact h.symm
    | some description =>
      simp only [hd] at h
      cases hr : Ledger.withoutName name rest with
      | ok more => simp [hr] at h
      | error t =>
        simp only [hr] at h
        injection h with h
        subst h
        exact ih hr

theorem ledger_withoutName_ok (name : String) (rows : List LedgerRow)
    (h : ∀ entry ∈ rows, entry.Description.isSome = true) :
    Ledger.withoutName name rows =
      .ok (rows.filter fun entry => !includes (Ledger.joined entry.Description) name) := by
  induction rows with
  | nil => rfl
  | cons entry rest ih =>
    have ih' := ih (fun e he => h e (List.mem_cons_of_mem _ he))
    have hd := h entry (List.mem_cons_self _ _)
    cases hdesc : entry.Description with
    | none => simp [hdesc] at hd
    | some description =>
      simp only [Ledger.withoutName, hdesc, ih', List.filter_cons, Ledger.joined]

theorem ledger_withoutName_throws (name : String) (rows : List LedgerRow)
    (h : ∃ entry ∈ rows, entry.Description = none) :
    Ledger.withoutName name rows = .error .typeError := by
  cases hr : Ledger.withoutName name rows with
  | error t => rw [ledger_withoutName_error name rows t hr]
  | ok more =>
    exfalso
    obtain ⟨bad, hbad, hnone⟩ := h
    induction rows generalizing more with
    | nil => simp at hbad
    | cons entry rest ih =>
      simp only [Ledger.withoutName] at hr
      cases hd : entry.Description with
      | none => simp [hd] at hr
      | some description =>
        simp only [hd] at hr
        cases hrest : Ledger.withoutName name rest with
        | error t => simp [hrest] at hr
        | ok others =>
          rcases List.mem_cons.1 hbad with rfl | hin
          · rw [hd] at hnone
            exact Option.noConfusion hnone
          · exact ih others hrest hin

/-- The effect of `handleDelete` on a journal of rows as they were read: when no
property has the id nothing changes; when one has and every row has a text as
`Description`, the properties with that id and the rows whose `Description`
contains the name of the first of them are removed; when one has and some row
has no `Description`, a `TypeError` is thrown. -/
theorem ledger_handleDelete_effect (propertyId : JSVal) (state : LedgerState) :
    ((∀ prop ∈ state.properties, prop.id.strictEq propertyId = false) ∧
      Ledger.handleDelete propertyId state = .ok state) ∨
    (∃ deleted : Property,
      state.properties.find? (fun prop => prop.id.strictEq propertyId) = some deleted ∧
      (((∀ entry ∈ state.journalEntries, entry.Description.isSome = true) ∧
        Ledger.handleDelete propertyId state =
          .ok { properties := state.properties.filter fun prop => !prop.id.strictEq propertyId
                journalEntries := state.journalEntries.filter fun entry =>
                  !includes (Ledger.joined entry.Description) deleted.name }) ∨
       ((∃ entry ∈ state.journalEntries, entry.Description = none) ∧
        Ledger.handleDelete propertyId state = .error .typeError))) := by
  cases h : state.properties.find? (fun prop => prop.id.strictEq propertyId) with
  | none =>
    left
    refine ⟨?_, by simp [Ledger.handleDelete, h]⟩
    intro prop hprop
    have := List.find?_eq_none.1 h prop hprop
    simpa using this
  | some deleted =>
    right
    refine ⟨deleted, rfl, ?_⟩
    by_cases hall : ∀ entry ∈ state.journalEntries, entry.Description.isSome = true
    · left
      exact ⟨hall, by simp [Ledger.handleDelete, h, ledger_withoutName_ok _ _ hall]⟩
    · right
      have hex : ∃ entry ∈ state.journalEntries, entry.Description = none := by
        by_contra hno
        apply hall
        intro entry hmem
        cases hd : entry.Description with
        | none => exact absurd ⟨entry, hmem, hd⟩ hno
        | some d => rfl
      exact ⟨hex, by simp [Ledger.handleDelete, h, ledger_withoutName_throws _ _ hex]⟩

/-- Evaluation for C24: a ledger file that ends with a line break is uploaded,
which stores the row of its empty last line, and the example property is added;
`handleDelete` with the id of that property finds the property and throws a
`TypeError` where the row without `Description` is filtered, instead of setting
the property list to the empty list and the journal to that one row. -/
theorem handleDelete_throws_on_uploaded_row (ids : Nat → JSNumber) :
    (handleFileUpload ids [emptyLineRow]).journalEntries = [emptyLineRow] ∧
    uploadedState.properties = [exampleProperty] ∧
    uploadedState.journalEntries =
      emptyLineRow :: (entriesOf exampleProperty).map JournalEntry.toRow ∧
    uploadedState.properties.find? (fun prop => prop.id.strictEq exampleProperty.id) =
      some exampleProperty ∧
    emptyLineRow.Description = none ∧
    Ledger.handleDelete exampleProperty.id uploadedState = .error .typeError := by
  refine ⟨?_, rfl, rfl, ?_, rfl, ?_⟩
  · rw [handleFileUpload_eq]
  · decide
  · decide

end PropMgmt
